import Mathlib

/-!
# fit: a shallow embedding of the FIDO2 command-line front ends

The repository holds two command-line programs, `cmd/fit` (security keys through the libfido2
binding) and `cmd/fit-hello` (Windows Hello through the winhello binding), and the small package
`internal/chal`.  Every command is a straight-line sequence of flag look-ups, calls into the
binding and prints.  The embedding keeps that shape:

* Go strings are Lean strings (well-formed UTF-8 text), byte slices are lists of `Fin 256`;
* a command is a function from the remaining bytes of the random source to an `Outcome`: how the
  command stopped, the list of observable events it produced (prints, calls into the binding,
  reads from the terminal) and the random bytes left over;
* the answers of the external collaborators (the binding, the terminal, the Unicode tables of
  the Go library) are the fields of a `World` record, one per program.
-/

/-! ## The parts of the Go standard library the programs call -/

namespace Go

/-- One octet. -/
abbrev Byte := Fin 256

/-- A Go byte slice; the nil slice and the empty slice are both the empty list. -/
abbrev Bytes := List Byte

/-- White-space runes, `unicode.IsSpace` (the same table is used by the `fmt` scanner). -/
def isSpace (c : Char) : Bool :=
  let n := c.toNat
  (9 ≤ n && n ≤ 13) || n == 32 || n == 0x85 || n == 0xA0 || n == 0x1680 ||
    (0x2000 ≤ n && n ≤ 0x200a) || n == 0x2028 || n == 0x2029 || n == 0x202f ||
    n == 0x205f || n == 0x3000

/-- Value of a decimal digit. -/
def digitVal (c : Char) : Option Nat :=
  if 48 ≤ c.toNat ∧ c.toNat ≤ 57 then some (c.toNat - 48) else none

/-- Value of a non-empty run of decimal digits, most significant first. -/
def digitsVal (cs : List Char) : Option Nat :=
  if cs = [] then none
  else cs.foldlM (fun acc c => (digitVal c).map fun d => acc * 10 + d) 0

/-- Range check of a signed magnitude against the 64-bit `int`. -/
def toInt64 (negative : Bool) (n : Nat) : Option Int :=
  if negative then (if n ≤ 2 ^ 63 then some (-(n : Int)) else none)
  else (if n < 2 ^ 63 then some (n : Int) else none)

end Go

namespace Strings

/-- Model of `strings.TrimSpace`: leading and trailing white space removed. -/
def trimSpace (s : String) : String :=
  ⟨((s.data.dropWhile Go.isSpace).reverse.dropWhile Go.isSpace).reverse⟩

/-- Model of `unicode.ToLower` on one rune: the ASCII letters are mapped here, every other rune
through the case table `tbl` of the library. -/
def lowerRune (tbl : Char → Char) (c : Char) : Char :=
  if c.toNat < 128 then
    (if 65 ≤ c.toNat ∧ c.toNat ≤ 90 then Char.ofNat (c.toNat + 32) else c)
  else tbl c

/-- Model of `strings.ToLower`. -/
def toLower (tbl : Char → Char) (s : String) : String :=
  ⟨s.data.map (lowerRune tbl)⟩

/-- Model of `strings.Contains`. -/
def contains (s sub : String) : Bool :=
  decide (sub.data <:+: s.data)

/-- Model of `strings.EqualFold` on one pair of runes: equal, or ASCII letters that differ in
case only, or (when the larger rune is not ASCII) related by the simple-folding orbit `orbit`
of the library. -/
def foldEqRune (orbit : Char → Char → Bool) (a b : Char) : Bool :=
  let sr := if b.toNat < a.toNat then b else a
  let tr := if b.toNat < a.toNat then a else b
  if tr = sr then true
  else if tr.toNat < 128 then
    decide (65 ≤ sr.toNat ∧ sr.toNat ≤ 90 ∧ tr.toNat = sr.toNat + 32)
  else orbit sr tr

/-- Rune-by-rune comparison used by `equalFold`. -/
def equalFoldList (orbit : Char → Char → Bool) : List Char → List Char → Bool
  | [], [] => true
  | a :: s, b :: t => foldEqRune orbit a b && equalFoldList orbit s t
  | _, _ => false

/-- Model of `strings.EqualFold`. -/
def equalFold (orbit : Char → Char → Bool) (s t : String) : Bool :=
  equalFoldList orbit s.data t.data

/-- Model of `strings.Join`. -/
def join (elems : List String) (sep : String) : String :=
  sep.intercalate elems

end Strings

namespace Strconv

/-- Model of `strconv.Atoi`: an optional sign, at least one decimal digit, nothing else, and a
value that fits the 64-bit `int`; `none` stands for a returned error. -/
def atoi (s : String) : Option Int :=
  match s.data with
  | [] => none
  | c :: cs =>
    if c = '-' then (Go.digitsVal cs).bind (Go.toInt64 true)
    else if c = '+' then (Go.digitsVal cs).bind (Go.toInt64 false)
    else (Go.digitsVal (c :: cs)).bind (Go.toInt64 false)

end Strconv

namespace Fmt

/-- The scanner's `SkipSpace` outside of a line-oriented scan: white space is skipped, a newline
is an error. -/
def skipSpace : List Char → Option (List Char)
  | [] => some []
  | c :: cs =>
    if c = '\n' then none
    else if Go.isSpace c then skipSpace cs
    else some (c :: cs)

/-- Digits accepted by the scanner for the verb `%d`: the set `0123456789` (the underscore is
accepted for the verb `%v` only). -/
def isNumberRune (c : Char) : Bool :=
  48 ≤ c.toNat && c.toNat ≤ 57

/-- The token of the verb `%d` after the sign: the longest run of decimal digits, which must not
be empty, converted with `strconv.ParseInt(tok, 10, 64)`. -/
def scanNumber (negative : Bool) (cs : List Char) : Option Int :=
  (Go.digitsVal (cs.takeWhile isNumberRune)).bind (Go.toInt64 negative)

/-- Model of `fmt.Sscanf(s, "%d", &v)`: leading space is skipped, a sign is accepted, the number
token is read and whatever follows it is left unread; `none` stands for a returned error. -/
def sscanfInt (s : String) : Option Int :=
  match skipSpace s.data with
  | none => none
  | some [] => none
  | some (c :: cs) =>
    if c = '-' then scanNumber true cs
    else if c = '+' then scanNumber false cs
    else scanNumber false (c :: cs)

end Fmt

namespace Hex

/-- The table `0123456789abcdef`. -/
def hextable : List Char := "0123456789abcdef".data

/-- Model of `hex.EncodeToString`. -/
def encodeToString (b : Go.Bytes) : String :=
  ⟨b.flatMap fun x => [hextable.getD (x.val / 16) '0', hextable.getD (x.val % 16) '0']⟩

/-- Value of one hexadecimal digit, either case. -/
def fromHexChar (c : Char) : Option Nat :=
  if 48 ≤ c.toNat ∧ c.toNat ≤ 57 then some (c.toNat - 48)
  else if 97 ≤ c.toNat ∧ c.toNat ≤ 102 then some (c.toNat - 87)
  else if 65 ≤ c.toNat ∧ c.toNat ≤ 70 then some (c.toNat - 55)
  else none

/-- Pairs of hexadecimal digits to bytes. -/
def decodeList : List Char → Option Go.Bytes
  | [] => some []
  | [_] => none
  | a :: b :: rest =>
    match fromHexChar a, fromHexChar b, decodeList rest with
    | some x, some y, some r => some (⟨(x * 16 + y) % 256, Nat.mod_lt _ (by decide)⟩ :: r)
    | _, _, _ => none

/-- Model of `hex.DecodeString`: every character a hexadecimal digit and an even length;
`none` stands for a returned error. -/
def decodeString (s : String) : Option Go.Bytes :=
  decodeList s.data

end Hex

namespace Base64

/-- The URL-safe alphabet. -/
def encodeURL : List Char :=
  "ABCDEFGHIJKLMNOPQRSTUVWXYZabcdefghijklmnopqrstuvwxyz0123456789-_".data

/-- Character of a 6-bit value. -/
def encChar (n : Nat) : Char := encodeURL.getD n 'A'

/-- The decode map built from the alphabet: the 6-bit value of a character. -/
def decChar (c : Char) : Option Nat :=
  let i := encodeURL.indexOf c
  if i < 64 then some i else none

/-- Three bytes to four characters, the last one or two bytes without padding. -/
def encodeList : List Go.Byte → List Char
  | [] => []
  | [a] => [encChar (a.val / 4), encChar (a.val % 4 * 16)]
  | [a, b] => [encChar (a.val / 4), encChar (a.val % 4 * 16 + b.val / 16),
      encChar (b.val % 16 * 4)]
  | a :: b :: c :: rest =>
    encChar (a.val / 4) :: encChar (a.val % 4 * 16 + b.val / 16) ::
      encChar (b.val % 16 * 4 + c.val / 64) :: encChar (c.val % 64) :: encodeList rest

/-- Model of `base64.RawURLEncoding.EncodeToString`. -/
def encodeToString (b : Go.Bytes) : String := ⟨encodeList b⟩

/-- A byte from a number. -/
def byte (n : Nat) : Go.Byte := ⟨n % 256, Nat.mod_lt _ (by decide)⟩

/-- Four 6-bit values to three bytes; a last group of two or three values gives one or two
bytes (left-over bits are dropped, the encoding is not strict), a last group of one is an
error. -/
def decodeList : List Nat → Option Go.Bytes
  | [] => some []
  | [_] => none
  | [a, b] => some [byte (a * 4 + b / 16)]
  | [a, b, c] => some [byte (a * 4 + b / 16), byte (b % 16 * 16 + c / 4)]
  | a :: b :: c :: d :: rest =>
    match decodeList rest with
    | some r =>
      some (byte (a * 4 + b / 16) :: byte (b % 16 * 16 + c / 4) :: byte (c % 4 * 64 + d) :: r)
    | none => none

/-- Model of `base64.RawURLEncoding.DecodeString`: carriage returns and line feeds are ignored,
every other character must belong to the alphabet; `none` stands for a returned error. -/
def decodeString (s : String) : Option Go.Bytes :=
  match (s.data.filter fun c => !(c == '\r' || c == '\n')).mapM decChar with
  | none => none
  | some vs => decodeList vs

end Base64

/-! ## Commands as event-producing computations -/

/-- An argument of a formatted print or diagnostic, kept next to the format string instead of
being rendered. -/
inductive FVal where
  /-- A string argument. -/
  | str (s : String)
  /-- An integer argument. -/
  | int (n : Int)
  /-- A boolean argument. -/
  | bool (b : Bool)
  /-- An error returned by the binding, with its text. -/
  | err (text : String)
  /-- The nil error. -/
  | nilErr
  /-- The error of a failed hexadecimal decoding. -/
  | hexErr
  /-- The error of a failed base64 decoding. -/
  | b64Err
  /-- The error of a failed terminal scan. -/
  | scanErr
  deriving DecidableEq, Repr

/-- A value of a JSON object handed to `writeJSON`. -/
inductive JVal where
  /-- A string. -/
  | str (s : String)
  /-- A boolean. -/
  | bool (b : Bool)
  /-- A number. -/
  | num (n : Int)
  /-- An array of strings. -/
  | strs (l : List String)
  /-- A nested object. -/
  | obj (fields : List (String × JVal))
  /-- An array of objects. -/
  | arr (items : List (List (String × JVal)))

/-- How a command stops other than by returning. -/
inductive Exit where
  /-- The effect of `log.Fatalf`: the diagnostic goes to standard error and the process ends
  with status 1, deferred calls are not run. -/
  | fatal (format : String) (args : List FVal)
  /-- An uncaught panic: the process ends with status 2 after the deferred calls. -/
  | panic (reason : String)
  deriving DecidableEq, Repr

/-- What running a computation gives: its result or the way the process ended, the events it
produced in order, and the bytes left in the random source. -/
structure Outcome (ε α : Type) where
  /-- The value returned, or how the process ended. -/
  result : Except Exit α
  /-- The events produced, oldest first. -/
  trace : List ε
  /-- The bytes the random source has not delivered yet. -/
  rand : List Go.Byte

/-- A computation over events of type `ε`, run from the bytes the random source will deliver. -/
def Prog (ε α : Type) : Type := List Go.Byte → Outcome ε α

namespace Prog

variable {ε α β : Type}

/-- Return a value, no event. -/
def ret (a : α) : Prog ε α := fun r => ⟨.ok a, [], r⟩

/-- Sequencing: the second computation runs only when the first one returned. -/
def andThen (p : Prog ε α) (f : α → Prog ε β) : Prog ε β := fun r =>
  match p r with
  | ⟨.ok a, t, r1⟩ =>
    match f a r1 with
    | ⟨res, t2, r2⟩ => ⟨res, t ++ t2, r2⟩
  | ⟨.error e, t, r1⟩ => ⟨.error e, t, r1⟩

instance : Monad (Prog ε) where
  pure := ret
  bind := andThen

/-- Record one event. -/
def emit (e : ε) : Prog ε Unit := fun r => ⟨.ok (), [e], r⟩

/-- The call `log.Fatalf(format, args...)`. -/
def fatalf (format : String) (args : List FVal) : Prog ε α := fun r =>
  ⟨.error (.fatal format args), [], r⟩

/-- A Go `panic`. -/
def panic (reason : String) : Prog ε α := fun r => ⟨.error (.panic reason), [], r⟩

/-- Fill a buffer of `n` bytes from the random source (`io.ReadFull` on `rand.Reader`): the next
`n` bytes, or `none` when the source fails before delivering them. -/
def readFull (n : Nat) : Prog ε (Option Go.Bytes) := fun r =>
  if n ≤ r.length then ⟨.ok (some (r.take n)), [], r.drop n⟩ else ⟨.ok none, [], r⟩

/-- The statement `defer cleanup()`: the clean-up runs when the body returns and when it panics,
not when the process is ended by `log.Fatalf`. -/
def withDefer (cleanup : Prog ε Unit) (body : Prog ε α) : Prog ε α := fun r =>
  match body r with
  | ⟨.ok a, t, r1⟩ =>
    match cleanup r1 with
    | ⟨.ok _, t2, r2⟩ => ⟨.ok a, t ++ t2, r2⟩
    | ⟨.error e, t2, r2⟩ => ⟨.error e, t ++ t2, r2⟩
  | ⟨.error (.panic m), t, r1⟩ =>
    match cleanup r1 with
    | ⟨_, t2, r2⟩ => ⟨.error (.panic m), t ++ t2, r2⟩
  | ⟨.error (.fatal f a), t, r1⟩ => ⟨.error (.fatal f a), t, r1⟩

end Prog

/-! ## The libfido2 binding, as far as `cmd/fit` uses it -/

namespace Libfido2

/-- A device location produced by `DeviceLocations`. -/
structure DeviceLocation where
  /-- Path of the device. -/
  path : String
  /-- USB product identifier. -/
  productID : Int
  /-- USB vendor identifier. -/
  vendorID : Int
  /-- Manufacturer string. -/
  manufacturer : String
  /-- Product string. -/
  product : String
  deriving DecidableEq, Repr

/-- A device handle, as returned through the pointer of `NewDevice`. -/
structure Device where
  /-- Identity of the handle. -/
  id : Nat
  deriving DecidableEq, Repr

/-- An option value: a string type with the constants `Default`, `True` and `False`. -/
abbrev OptionValue := String

/-- The constant `libfido2.True`. -/
def True : OptionValue := "true"

/-- The constant `libfido2.False`. -/
def False : OptionValue := "false"

/-- A named option of the authenticator (`libfido2.Option`). -/
structure DevOption where
  /-- Name of the option. -/
  name : String
  /-- Value of the option. -/
  value : OptionValue
  deriving DecidableEq, Repr

/-- The part of `DeviceInfo` the commands read. -/
structure DeviceInfo where
  /-- Supported versions. -/
  versions : List String
  /-- Supported extensions. -/
  extensions : List String
  /-- Options of the authenticator. -/
  options : List DevOption
  deriving DecidableEq, Repr

/-- A relying party. -/
structure RelyingParty where
  /-- Identifier. -/
  id : String
  /-- Name. -/
  name : String
  deriving DecidableEq, Repr

/-- A user. -/
structure User where
  /-- Identifier. -/
  id : Go.Bytes
  /-- Name. -/
  name : String
  deriving DecidableEq, Repr

/-- The credential type `ES256` (COSE algorithm -7). -/
def ES256 : Int := -7

/-- Options of `MakeCredential`; `rk` is the resident-key option. -/
structure MakeCredentialOpts where
  /-- Resident key. -/
  rk : OptionValue
  /-- User verification, left at its zero value by the commands. -/
  uv : OptionValue
  deriving DecidableEq, Repr

/-- A resident credential listed by `Credentials`. -/
structure Credential where
  /-- Credential identifier. -/
  id : Go.Bytes
  deriving DecidableEq, Repr

/-- The part of an attestation the commands read. -/
structure Attestation where
  /-- Identifier of the new credential. -/
  credentialID : Go.Bytes
  /-- Type of the new credential. -/
  credentialType : Int
  deriving DecidableEq, Repr

/-- The part of an assertion the commands read. -/
structure Assertion where
  /-- Authenticator data. -/
  authDataCBOR : Go.Bytes
  /-- Signature. -/
  sig : Go.Bytes
  /-- HMAC secret, when the extension was used. -/
  hmacSecret : Go.Bytes
  /-- Identifier of the credential that signed. -/
  credentialID : Go.Bytes
  deriving DecidableEq, Repr

/-- The CTAPHID information read by `cmdInfo`. -/
structure HIDInfo where
  /-- Major version. -/
  major : Nat
  /-- Minor version. -/
  minor : Nat
  /-- Build number. -/
  build : Nat
  /-- Capability flags. -/
  flags : Nat
  deriving DecidableEq, Repr

/-- The resident-key counters read by `cmdInfo`. -/
structure CredentialsInfo where
  /-- Number of resident keys on the device. -/
  rkExisting : Int
  /-- Number of resident keys that can still be stored. -/
  rkRemaining : Int
  deriving DecidableEq, Repr

end Libfido2

/-! ## cmd/fit -/

namespace Fit

open Libfido2 (Device DeviceLocation DeviceInfo DevOption)

/-- What the program does that can be observed from outside. -/
inductive Event where
  /-- The call `fmt.Print(s)`. -/
  | print (s : String)
  /-- The call `fmt.Println(s)`. -/
  | println (s : String)
  /-- The call `fmt.Printf(format, args...)`. -/
  | printf (format : String) (args : List FVal)
  /-- The call `writeJSON` on an object with these fields. -/
  | writeJSON (fields : List (String × JVal))
  /-- A line read from standard input with `reader.ReadString`. -/
  | readString
  /-- A number read from the terminal with `fmt.Scanln`. -/
  | scanln
  /-- The call `libfido2.RandBytes(n)`. -/
  | randBytes (n : Nat)
  /-- The call `libfido2.DeviceLocations()`. -/
  | deviceLocations
  /-- The call `libfido2.NewDevice(path)`. -/
  | newDevice (path : String)
  /-- The call `dev.Info()`. -/
  | info (dev : Device)
  /-- The call `dev.SetPIN(pin, old)`. -/
  | setPIN (dev : Device) (pin old : String)
  /-- The call `dev.Reset()`. -/
  | reset (dev : Device)
  /-- The call `dev.Credentials(rpID, pin)`. -/
  | credentials (dev : Device) (rpID pin : String)
  /-- The call `dev.MakeCredential(cdh, rp, user, typ, pin, opts)`. -/
  | makeCredential (dev : Device) (cdh : Go.Bytes) (rp : Libfido2.RelyingParty)
      (user : Libfido2.User) (typ : Int) (pin : String) (opts : Libfido2.MakeCredentialOpts)
  /-- The call `dev.Assertion(rpID, cdh, credentialIDs, pin, opts)`. -/
  | assertion (dev : Device) (rpID : String) (cdh : Go.Bytes) (credentialIDs : List Go.Bytes)
      (pin : String)
  /-- The call `dev.Type()`. -/
  | devType (dev : Device)
  /-- The call `dev.IsFIDO2()`. -/
  | isFIDO2 (dev : Device)
  /-- The call `dev.CTAPHIDInfo()`. -/
  | ctapHIDInfo (dev : Device)
  /-- The call `dev.RetryCount()`. -/
  | retryCount (dev : Device)
  /-- The call `dev.CredentialsInfo(pin)`. -/
  | credentialsInfo (dev : Device) (pin : String)
  /-- The call `log.Printf(format, args...)`, which writes to standard error. -/
  | logPrintf (format : String) (args : List FVal)

/-- The answers of everything outside the program: the binding, the terminal and the Unicode
tables of the Go library.  An error of the binding is its text. -/
structure World where
  /-- Lower-case mapping of the non-ASCII runes (`unicode.ToLower`). -/
  lowerTable : Char → Char
  /-- Simple case folding of the non-ASCII runes (`unicode.SimpleFold` orbits). -/
  foldOrbit : Char → Char → Bool
  /-- What `reader.ReadString` returns for the confirmation line (its error is ignored). -/
  readString : String
  /-- What `fmt.Scanln(&index)` stores; `none` when it returns an error. -/
  scanln : Option Int
  /-- Result of `libfido2.DeviceLocations()`. -/
  deviceLocations : Except String (List DeviceLocation)
  /-- Result of `libfido2.NewDevice(path)`; the handle is a pointer and may be nil. -/
  newDevice : String → Except String (Option Device)
  /-- Result of `dev.Info()`. -/
  info : Device → Except String DeviceInfo
  /-- Error of `dev.SetPIN(pin, old)`, if any. -/
  setPIN : Device → String → String → Option String
  /-- Error of `dev.Reset()`, if any. -/
  reset : Device → Option String
  /-- Result of `dev.Credentials(rpID, pin)`. -/
  credentials : Device → String → String → Except String (List Libfido2.Credential)
  /-- Result of `dev.MakeCredential`. -/
  makeCredential : Device → Go.Bytes → Libfido2.RelyingParty → Libfido2.User → Int → String →
    Libfido2.MakeCredentialOpts → Except String Libfido2.Attestation
  /-- Result of `dev.Assertion`. -/
  assertion : Device → String → Go.Bytes → List Go.Bytes → String →
    Except String Libfido2.Assertion
  /-- Text of a credential type (`CredentialType.String`). -/
  credentialTypeString : Int → String
  /-- Result of `dev.Type()`, a string type. -/
  devType : Device → Except String String
  /-- Result of `dev.IsFIDO2()`. -/
  isFIDO2 : Device → Except String Bool
  /-- Result of `dev.CTAPHIDInfo()`; the information is a pointer and may be nil. -/
  ctapHIDInfo : Device → Except String (Option Libfido2.HIDInfo)
  /-- Result of `dev.RetryCount()`. -/
  retryCount : Device → Except String Int
  /-- Result of `dev.CredentialsInfo(pin)`; the information is a pointer and may be nil. -/
  credentialsInfo : Device → String → Except String (Option Libfido2.CredentialsInfo)

/-- A computation of `cmd/fit`. -/
abbrev Cmd (α : Type) : Type := Prog Event α

/-- The call `fmt.Println(s)`. -/
def println (s : String) : Cmd Unit := Prog.emit (.println s)

/-- The call `fmt.Printf(format, args...)`. -/
def printf (format : String) (args : List FVal) : Cmd Unit := Prog.emit (.printf format args)

/-- The function `writeJSON`; marshalling an object of strings, numbers and booleans does not
fail. -/
def writeJSON (fields : List (String × JVal)) : Cmd Unit := Prog.emit (.writeJSON fields)

/-- The call `libfido2.RandBytes(n)`: `n` bytes of the random source, a panic when it fails. -/
def randBytes (n : Nat) : Cmd Go.Bytes := do
  Prog.emit (.randBytes n)
  match ← Prog.readFull n with
  | some b => pure b
  | none => Prog.panic "rand"

/-- The function `getStringFlag`: the value following the first occurrence of `name` that has a
successor. -/
def getStringFlag : List String → String → String
  | a :: b :: rest, name => if a = name then b else getStringFlag (b :: rest) name
  | _, _ => ""

/-- The function `hasFlag`. -/
def hasFlag (args : List String) (name : String) : Bool :=
  args.any fun a => a == name

/-- The function `getIntFlag`. -/
def getIntFlag : List String → String → Int × Bool
  | a :: b :: rest, name =>
    if a = name then
      match Strconv.atoi b with
      | some v => (v, true)
      | none => (0, false)
    else getIntFlag (b :: rest) name
  | _, _ => (0, false)

/-- The function `clientPinStatus`. -/
def clientPinStatus (orbit : Char → Char → Bool) : List DevOption → Bool × Bool
  | [] => (false, false)
  | o :: opts =>
    if Strings.equalFold orbit o.name "clientPin" then (true, o.value == Libfido2.True)
    else clientPinStatus orbit opts

/-- The loop of `parseDeviceSelectors` from the current argument on, with the values of `idx`,
`path` and `ok` so far. -/
def parseDeviceSelectors.loop : List String → Option Int × String × Bool →
    Option Int × String × Bool
  | [], acc => acc
  | [_], acc => acc
  | a :: v :: rest, (idx, path, ok) =>
    if a = "--device" then
      match Fmt.sscanfInt v with
      | some n => parseDeviceSelectors.loop rest (some n, path, true)
      | none => parseDeviceSelectors.loop rest (idx, path, ok)
    else if a = "--path" then parseDeviceSelectors.loop rest (idx, v, true)
    else parseDeviceSelectors.loop (v :: rest) (idx, path, ok)

/-- The function `parseDeviceSelectors`. -/
def parseDeviceSelectors (args : List String) : Option Int × String × Bool :=
  parseDeviceSelectors.loop args (none, "", false)

/-- The call `libfido2.NewDevice(path)` followed by the check of its error, as it appears four
times in `getDeviceWithArgs`. -/
def getDeviceWithArgs.newDevice (w : World) (path : String) : Cmd (Option Device) := do
  Prog.emit (.newDevice path)
  match w.newDevice path with
  | .error e => Prog.fatalf "Failed to open device: %v" [.err e]
  | .ok dev => pure dev

/-- The device opened for entry `i` of the enumeration; indexing outside the slice is a Go
run-time panic. -/
def getDeviceWithArgs.openAt (w : World) (locs : List DeviceLocation) (i : Nat) :
    Cmd (Option Device) :=
  match locs[i]? with
  | some loc => getDeviceWithArgs.newDevice w loc.path
  | none => Prog.panic "index out of range"

/-- The numbered list printed before the interactive selection. -/
def getDeviceWithArgs.printLocs : Nat → List DeviceLocation → Cmd Unit
  | _, [] => pure ()
  | i, loc :: rest => do
    let label := Strings.trimSpace (loc.manufacturer ++ " " ++ loc.product)
    let label := if label = "" then "Unknown device" else label
    printf "  [%d] %s (Path: %s)\n" [.int i, .str label, .str loc.path]
    getDeviceWithArgs.printLocs (i + 1) rest

/-- The part of `getDeviceWithArgs` after the non-interactive selectors: automatic selection of
a single device, otherwise the interactive selection. -/
def getDeviceWithArgs.fallback (w : World) (locs : List DeviceLocation) : Cmd (Option Device) :=
  if locs.length = 1 then getDeviceWithArgs.openAt w locs 0
  else do
    println "Found FIDO2 devices:"
    getDeviceWithArgs.printLocs 0 locs
    Prog.emit (.print "Select a device (enter number): ")
    Prog.emit .scanln
    match w.scanln with
    | none => Prog.fatalf "Invalid selection: %v" [.scanErr]
    | some index =>
      if index < 0 ∨ index ≥ locs.length then Prog.fatalf "Invalid selection: %v" [.nilErr]
      else getDeviceWithArgs.openAt w locs index.toNat

/-- The function `getDeviceWithArgs`. -/
def getDeviceWithArgs (w : World) (args : List String) : Cmd (Option Device) := do
  Prog.emit .deviceLocations
  match w.deviceLocations with
  | .error e => Prog.fatalf "Failed to get device locations: %v" [.err e]
  | .ok locs =>
    if locs.length = 0 then Prog.fatalf "No FIDO2 devices found." []
    else
      match parseDeviceSelectors args with
      | (idx, path, ok) =>
        if ok then
          if path ≠ "" then getDeviceWithArgs.newDevice w path
          else
            match idx with
            | some i =>
              if i < 0 ∨ i ≥ locs.length then Prog.fatalf "Invalid device index: %d" [.int i]
              else getDeviceWithArgs.openAt w locs i.toNat
            | none => getDeviceWithArgs.fallback w locs
        else getDeviceWithArgs.fallback w locs

/-- The hints `cmdSetPIN` prints for a failed `SetPIN`, chosen by substrings of the lower-cased
error text. -/
def cmdSetPIN.hints (oldPIN msg : String) : Cmd Unit := do
  if oldPIN == "" && (Strings.contains msg "pin required" ||
      Strings.contains msg "missing parameter") then
    println "Device reports a PIN already exists. Provide --old to change it."
  if Strings.contains msg "mismatch" || Strings.contains msg "wrong" then
    println "Old PIN incorrect (remaining retries may decrease)."
  if Strings.contains msg "policy" || Strings.contains msg "invalid" ||
      Strings.contains msg "too short" || Strings.contains msg "length" then
    println "PIN rejected by policy (length/complexity). Try a longer PIN (>=4, preferably 6+ digits)."

/-- The function `cmdSetPIN` once a device has been selected. -/
def cmdSetPIN.withDevice (w : World) (dev : Device) (newPIN oldPIN : String) : Cmd Unit := do
  Prog.emit (.info dev)
  match w.info dev with
  | .error e => Prog.fatalf "Failed to get device info: %v" [.err e]
  | .ok info =>
    match clientPinStatus w.foldOrbit info.options with
    | (present, pinSet) => do
      if !present then
        println "Device does not implement clientPin."
      else if pinSet then
        println "Device reports PIN is set (clientPin=true). If changing, provide --old."
      else
        println "Device reports PIN not set yet (clientPin=false). Set initial PIN with --new."
      let action := if oldPIN ≠ "" then "Changing PIN" else "Setting initial PIN"
      println (action ++ "... You may need to touch your device.")
      Prog.emit (.setPIN dev newPIN oldPIN)
      match w.setPIN dev newPIN oldPIN with
      | some err => do
        cmdSetPIN.hints oldPIN (Strings.toLower w.lowerTable err)
        Prog.fatalf "Failed to set PIN: %v" [.err err]
      | none => println "PIN updated successfully."

/-- The function `cmdSetPIN`; `len(newPIN)` is the length in bytes. -/
def cmdSetPIN (w : World) (args : List String) : Cmd Unit :=
  let newPIN := getStringFlag args "--new"
  let oldPIN := getStringFlag args "--old"
  if newPIN = "" then println "Usage: set-pin --new NEW [--old OLD] [--device N|--path PATH]"
  else if newPIN.utf8ByteSize < 4 then println "PIN must be at least 4 characters."
  else do
    match ← getDeviceWithArgs w args with
    | none => pure ()
    | some dev => cmdSetPIN.withDevice w dev newPIN oldPIN

/-- Step 1 of `cmdAuth`, "determine credential ID(s)": the identifier to assert with, or `none`
when the command returns at this step. -/
def cmdAuth.determineCredential (w : World) (args : List String) (dev : Device)
    (rpID pin : String) : Cmd (Option Go.Bytes) :=
  let create := hasFlag args "--create"
  let credHex := getStringFlag args "--cred-id-hex"
  match getIntFlag args "--cred-index" with
  | (credIndex, credIndexSet) =>
    if credHex ≠ "" then
      match Hex.decodeString (Strings.trimSpace credHex) with
      | none => Prog.fatalf "Invalid --cred-id-hex: %v" [.hexErr]
      | some b => pure (some b)
    else if create then
      if pin = "" then do
        println "--create requires --pin to be provided."
        pure none
      else do
        let cdh ← randBytes 32
        let userID ← randBytes 32
        Prog.emit (.makeCredential dev cdh ⟨rpID, rpID⟩ ⟨userID, "fit-user"⟩ Libfido2.ES256 pin
          ⟨Libfido2.False, ""⟩)
        match w.makeCredential dev cdh ⟨rpID, rpID⟩ ⟨userID, "fit-user"⟩ Libfido2.ES256 pin
          ⟨Libfido2.False, ""⟩ with
        | .error e => Prog.fatalf "MakeCredential failed: %v" [.err e]
        | .ok attest => do
          printf "Created transient credential: ID=%s Type=%s\n"
            [.str (Hex.encodeToString attest.credentialID),
              .str (w.credentialTypeString attest.credentialType)]
          pure (some attest.credentialID)
    else do
      Prog.emit (.credentials dev rpID pin)
      match w.credentials dev rpID pin with
      | .error e => Prog.fatalf "Credentials(%s) failed: %v" [.str rpID, .err e]
      | .ok creds =>
        if creds.length = 0 then do
          println "No resident credentials found for RP."
          pure none
        else
          let pick : Int := if credIndexSet then credIndex else 0
          if pick < 0 ∨ pick ≥ creds.length then
            Prog.fatalf "--cred-index out of range (have %d)" [.int creds.length]
          else
            match creds[pick.toNat]? with
            | none => Prog.panic "index out of range"
            | some cred => do
              printf "Using resident credential index %d (len=%d)\n"
                [.int pick, .int cred.id.length]
              pure (some cred.id)

/-- The fields `cmdAuth` and `cmdAddPasskey` print for a challenge. -/
def challengeFields (cdh : Go.Bytes) : List (String × JVal) :=
  [("challengeHex", .str (Hex.encodeToString cdh)),
    ("challengeB64", .str (Base64.encodeToString cdh))]

/-- Step 2 of `cmdAuth`, "perform assertion using the determined credential ID", and the
output of the result. -/
def cmdAuth.assert (w : World) (args : List String) (dev : Device) (rpID pin : String)
    (credID : Go.Bytes) : Cmd Unit := do
  let cdh ← randBytes 32
  Prog.emit (.assertion dev rpID cdh [credID] pin)
  match w.assertion dev rpID cdh [credID] pin with
  | .error e => Prog.fatalf "Assertion failed: %v" [.err e]
  | .ok assertion =>
    if hasFlag args "--json" then
      writeJSON ([("backend", .str "libfido2"), ("rp", .str rpID),
        ("credentialID", .str (Hex.encodeToString assertion.credentialID)),
        ("signature", .str (Hex.encodeToString assertion.sig))] ++ challengeFields cdh ++
        (if assertion.hmacSecret.length > 0 then
          [("hmacSecret", .str (Hex.encodeToString assertion.hmacSecret))] else []) ++
        (if assertion.authDataCBOR.length > 0 then
          [("authDataCBOR", .str (Hex.encodeToString assertion.authDataCBOR))] else []))
    else do
      println "Assertion result:"
      printf "  CredentialID: %s\n" [.str (Hex.encodeToString assertion.credentialID)]
      printf "  Sig:          %s\n" [.str (Hex.encodeToString assertion.sig)]
      printf "  Challenge(hex): %s\n" [.str (Hex.encodeToString cdh)]
      printf "  Challenge(b64): %s\n" [.str (Base64.encodeToString cdh)]
      if assertion.hmacSecret.length > 0 then
        printf "  HMACSecret:   %s\n" [.str (Hex.encodeToString assertion.hmacSecret)]
      if assertion.authDataCBOR.length > 0 then
        printf "  AuthDataCBOR: %s\n" [.str (Hex.encodeToString assertion.authDataCBOR)]

/-- The function `cmdAuth`. -/
def cmdAuth (w : World) (args : List String) : Cmd Unit :=
  let rpID := getStringFlag args "--rp"
  if rpID = "" then
    println "Usage: auth --rp RP_ID [--pin PIN] [--cred-id-hex HEX|--cred-index N] [--create] [--device N|--path PATH]"
  else
    let pin := getStringFlag args "--pin"
    do
      match ← getDeviceWithArgs w args with
      | none => pure ()
      | some dev =>
        match ← cmdAuth.determineCredential w args dev rpID pin with
        | none => pure ()
        | some credID => cmdAuth.assert w args dev rpID pin credID

/-- The function `cmdAddPasskey`. -/
def cmdAddPasskey (w : World) (args : List String) : Cmd Unit :=
  let rpID := getStringFlag args "--rp"
  if rpID = "" then
    println "Usage: add-passkey --rp RP_ID [--user USER] [--display NAME] [--resident|--no-resident] [--pin PIN] [--device N|--path PATH]"
  else
    let userName := if getStringFlag args "--user" = "" then "fit-user"
      else getStringFlag args "--user"
    let resident := if hasFlag args "--no-resident" then false else true
    let pin := getStringFlag args "--pin"
    do
      match ← getDeviceWithArgs w args with
      | none => pure ()
      | some dev =>
        if resident && pin == "" then
          println "Resident passkey creation requires --pin for libfido2."
        else do
          let cdh ← randBytes 32
          let userID ← randBytes 32
          let opts : Libfido2.MakeCredentialOpts :=
            ⟨if resident then Libfido2.True else Libfido2.False, ""⟩
          Prog.emit (.makeCredential dev cdh ⟨rpID, rpID⟩ ⟨userID, userName⟩ Libfido2.ES256 pin
            opts)
          match w.makeCredential dev cdh ⟨rpID, rpID⟩ ⟨userID, userName⟩ Libfido2.ES256 pin
            opts with
          | .error e => Prog.fatalf "MakeCredential failed: %v" [.err e]
          | .ok att =>
            if hasFlag args "--json" then
              writeJSON ([("backend", .str "libfido2"), ("rp", .str rpID),
                ("user", .str userName), ("resident", .bool resident),
                ("credentialID", .str (Hex.encodeToString att.credentialID))] ++
                challengeFields cdh)
            else do
              println "Created passkey:"
              printf "  RP:            %s\n" [.str rpID]
              printf "  User:          %s\n" [.str userName]
              printf "  ResidentKey:   %v\n" [.bool resident]
              printf "  CredentialID:  %s\n" [.str (Hex.encodeToString att.credentialID)]
              printf "  Challenge(hex): %s\n" [.str (Hex.encodeToString cdh)]
              printf "  Challenge(b64): %s\n" [.str (Base64.encodeToString cdh)]

/-- The function `cmdReset`. -/
def cmdReset (w : World) (args : List String) : Cmd Unit := do
  println "WARNING: This will perform a factory reset on a FIDO2 device."
  println "This is a destructive and irreversible action that will wipe all credentials."
  Prog.emit (.print "Are you sure you want to proceed? (yes/no): ")
  Prog.emit .readString
  let confirmation := w.readString
  if Strings.trimSpace (Strings.toLower w.lowerTable confirmation) ≠ "yes" then
    println "Aborting reset."
  else
    match ← getDeviceWithArgs w args with
    | none => pure ()
    | some dev => do
      println "Performing device reset. You may need to touch your device now."
      Prog.emit (.reset dev)
      match w.reset dev with
      | some e => Prog.fatalf "Failed to reset device: %v" [.err e]
      | none => println "Device has been successfully reset."

/-- The label `cmdList` prints for a device: manufacturer and product, trimmed. -/
def cmdList.label (loc : DeviceLocation) : String :=
  let manu := Strings.trimSpace loc.manufacturer
  let prod := Strings.trimSpace loc.product
  let label := Strings.trimSpace (Strings.join [manu, prod] " ")
  if label = "" then "Unknown device" else label

/-- The conversion `uint16(x)` of a 16-bit signed identifier. -/
def uint16 (x : Int) : Int := x % 65536

/-- The JSON items `cmdList` builds, from index `i` on. -/
def cmdList.items : Nat → List DeviceLocation → List (List (String × JVal))
  | _, [] => []
  | i, loc :: rest =>
    [("index", .num i), ("label", .str (cmdList.label loc)), ("vid", .num (uint16 loc.vendorID)),
      ("pid", .num (uint16 loc.productID)), ("path", .str loc.path)] ::
      cmdList.items (i + 1) rest

/-- The lines `cmdList` prints, from index `i` on. -/
def cmdList.printLocs : Nat → List DeviceLocation → Cmd Unit
  | _, [] => pure ()
  | i, loc :: rest => do
    printf "  [%d] %s  VID:PID=%04x:%04x  Path=%s\n"
      [.int i, .str (cmdList.label loc), .int (uint16 loc.vendorID),
        .int (uint16 loc.productID), .str loc.path]
    cmdList.printLocs (i + 1) rest

/-- The function `cmdList`. -/
def cmdList (w : World) (args : List String) : Cmd Unit := do
  Prog.emit .deviceLocations
  match w.deviceLocations with
  | .error e => Prog.fatalf "Failed to get device locations: %v" [.err e]
  | .ok locs =>
    if hasFlag args "--json" then
      writeJSON [("backend", .str "libfido2"), ("devices", .arr (cmdList.items 0 locs))]
    else if locs.length = 0 then println "No FIDO2 devices found."
    else do
      println "Detected FIDO devices:"
      cmdList.printLocs 0 locs

/-- A call of `cmdInfo` whose error is only logged: the value returned, the zero value after the
log line when the call fails. -/
def cmdInfo.logged {α : Type} (ev : Event) (format : String) (res : Except String α)
    (zero : α) : Cmd α := do
  Prog.emit ev
  match res with
  | .ok a => pure a
  | .error e => do
    Prog.emit (.logPrintf format [.err e])
    pure zero

/-- The lines `cmdInfo` prints for the options. -/
def cmdInfo.printOptions : List DevOption → Cmd Unit
  | [] => pure ()
  | o :: rest => do
    printf "    - %s = %s\n" [.str o.name, .str o.value]
    cmdInfo.printOptions rest

/-- The JSON branch of `cmdInfo`; the options are listed in order (in the Go map a repeated
name keeps its last value). -/
def cmdInfo.json (w : World) (dev : Device) (pin : String) (info : DeviceInfo) (typ : String)
    (isF2 : Bool) (hid : Option Libfido2.HIDInfo) : Cmd Unit := do
  let out : List (String × JVal) :=
    [("backend", .str "libfido2"), ("type", .str typ), ("isFIDO2", .bool isF2),
      ("versions", .strs info.versions), ("extensions", .strs info.extensions)] ++
    (match hid with
      | some h => [("ctapHID", .obj [("major", .num h.major), ("minor", .num h.minor),
          ("build", .num h.build), ("flags", .num h.flags)])]
      | none => []) ++
    [("options", .obj (info.options.map fun o => (o.name, JVal.str o.value)))]
  Prog.emit (.retryCount dev)
  let out := out ++ (match w.retryCount dev with
    | .ok rc => [("pinRetryCount", JVal.num rc)]
    | .error _ => [])
  if pin ≠ "" then do
    Prog.emit (.credentialsInfo dev pin)
    match w.credentialsInfo dev pin with
    | .ok (some ci) =>
      writeJSON (out ++ [("residentKeys",
        .obj [("existing", .num ci.rkExisting), ("remaining", .num ci.rkRemaining)])])
    | _ => writeJSON out
  else writeJSON out

/-- The text branch of `cmdInfo`. -/
def cmdInfo.text (w : World) (dev : Device) (pin : String) (info : DeviceInfo) (typ : String)
    (isF2 : Bool) (hid : Option Libfido2.HIDInfo) : Cmd Unit := do
  println "\nDevice summary:"
  printf "  Type: %s  IsFIDO2: %v\n" [.str typ, .bool isF2]
  match hid with
  | some h =>
    printf "  CTAP HID: v%d.%d build %d flags=0x%02x\n"
      [.int h.major, .int h.minor, .int h.build, .int h.flags]
  | none => pure ()
  if info.versions.length > 0 then
    printf "  Versions: %s\n" [.str (Strings.join info.versions ", ")]
  if info.extensions.length > 0 then
    printf "  Extensions: %s\n" [.str (Strings.join info.extensions ", ")]
  if info.options.length > 0 then do
    printf "  Options:\n" []
    cmdInfo.printOptions info.options
  Prog.emit (.retryCount dev)
  match w.retryCount dev with
  | .ok rc => printf "  PIN Retry Count: %d\n" [.int rc]
  | .error _ => pure ()
  if pin ≠ "" then do
    Prog.emit (.credentialsInfo dev pin)
    match w.credentialsInfo dev pin with
    | .ok (some ci) =>
      printf "  Resident Keys: existing=%d remaining=%d\n" [.int ci.rkExisting, .int ci.rkRemaining]
    | .ok none => pure ()
    | .error e => Prog.emit (.logPrintf "CredentialsInfo() error: %v" [.err e])
  println "\nTest completed."

/-- The function `cmdInfo`; its loop over the arguments for `--pin` is the loop of
`getStringFlag`. -/
def cmdInfo (w : World) (args : List String) : Cmd Unit := do
  let pin := getStringFlag args "--pin"
  match ← getDeviceWithArgs w args with
  | none => pure ()
  | some dev => do
    println "Fetching device information..."
    Prog.emit (.info dev)
    match w.info dev with
    | .error e => Prog.fatalf "Info failed: %v" [.err e]
    | .ok info => do
      let typ ← cmdInfo.logged (.devType dev) "Type() error: %v" (w.devType dev) ""
      let isF2 ← cmdInfo.logged (.isFIDO2 dev) "IsFIDO2() error: %v" (w.isFIDO2 dev) false
      let hid ← cmdInfo.logged (.ctapHIDInfo dev) "CTAPHIDInfo() error: %v"
        (w.ctapHIDInfo dev) none
      if hasFlag args "--json" then cmdInfo.json w dev pin info typ isF2 hid
      else cmdInfo.text w dev pin info typ isF2 hid

/-- The function `printUsage`; `os.Args[0]` on an empty argument vector is a Go run-time
panic. -/
def printUsage (osArgs : List String) : Cmd Unit :=
  match osArgs with
  | [] => Prog.panic "index out of range"
  | exe :: _ => do
    printf "Usage: %s <command> [arguments]\n" [.str exe]
    println "\nCommands:"
    println "  list            Lists attached FIDO2 devices."
    println "  auth --rp RP_ID [--pin PIN] [--cred-id-hex HEX|--cred-index N] [--create] [--device N|--path PATH]"
    println "                Performs a challenge/response (assertion). If --create is set, it will create a transient"
    println "                credential (non-resident) first, then assert using that credential."
    println "  add-passkey --rp RP_ID [--user USER] [--display NAME] [--resident|--no-resident] [--pin PIN] [--device N|--path PATH]"
    println "                Creates a new passkey (discoverable credential) on a FIDO2 security key."
    println "  set-pin --new NEW [--old OLD] [--device N|--path PATH]"
    println "                Sets the device PIN (initial if --old omitted, otherwise changes PIN)."
    println "  reset         Performs a factory reset on a FIDO2 device."
    println "  info [--pin PIN] [--device N|--path PATH]"
    println "                Displays device information / non-destructive diagnostics."
    println "  version        Prints build version (embedded via ldflags)."
    println "\nGlobal flags:"
    println "  --json          Output machine-readable JSON where applicable."

/-- The function `main` on the argument vector `os.Args`; `buildVersion` is the package
variable set at build time. -/
def main (w : World) (buildVersion : String) (osArgs : List String) : Cmd Unit :=
  match osArgs with
  | _ :: command :: args =>
    if command = "list" then cmdList w args
    else if command = "auth" then cmdAuth w args
    else if command = "add-passkey" then cmdAddPasskey w args
    else if command = "set-pin" then cmdSetPIN w args
    else if command = "reset" then cmdReset w args
    else if command = "info" then cmdInfo w args
    else if command = "version" then println buildVersion
    else printUsage osArgs
  | _ => printUsage osArgs

end Fit

/-! ## internal/chal -/

namespace Chal

/-- The function `chal.Bytes`: a buffer of `n` bytes filled from the random source; making a
slice of negative length and a failing source both panic. -/
def Bytes {ε : Type} (n : Int) : Prog ε Go.Bytes :=
  if n < 0 then Prog.panic "makeslice: len out of range"
  else do
    match ← Prog.readFull n.toNat with
    | some b => pure b
    | none => Prog.panic "rand"

/-- The function `chal.B64`. -/
def B64 (b : Go.Bytes) : String := Base64.encodeToString b

/-- The function `chal.Hex`. -/
def Hex (b : Go.Bytes) : String := Hex.encodeToString b

end Chal

/-! ## The winhello binding, as far as `cmd/fit-hello` uses it -/

namespace Winhello

/-- A hidden window. -/
structure HiddenWindow where
  /-- The window handle. -/
  handle : Nat
  deriving DecidableEq, Repr

/-- The part of a platform credential the commands read. -/
structure CredentialDetails where
  /-- Credential identifier. -/
  credentialID : Go.Bytes
  /-- Identifier of the relying party. -/
  rpID : String
  /-- Name of the user. -/
  userName : String
  /-- Whether the credential can be removed. -/
  removable : Bool
  /-- Whether the credential is backed up. -/
  backedUp : Bool
  deriving DecidableEq, Repr

/-- A credential descriptor of an allow list. -/
structure PublicKeyCredentialDescriptor where
  /-- Type of the credential. -/
  type : String
  /-- Credential identifier. -/
  id : Go.Bytes
  deriving DecidableEq, Repr

/-- The constant `PublicKeyCredentialTypePublicKey`. -/
def PublicKeyCredentialTypePublicKey : String := "public-key"

/-- Authenticator attachment. -/
inductive Attachment where
  /-- The constant `WinHelloAuthenticatorAttachmentPlatform`. -/
  | platform
  /-- The constant `WinHelloAuthenticatorAttachmentCrossPlatform`. -/
  | crossPlatform
  deriving DecidableEq, Repr

/-- A credential hint. -/
inductive Hint where
  /-- The constant `PublicKeyCredentialHintSecurityKey`. -/
  | securityKey
  deriving DecidableEq, Repr

/-- The client data record; the binding receives its JSON serialisation. -/
structure ClientData where
  /-- Field `type`. -/
  type : String
  /-- Field `challenge`, base64url. -/
  challenge : String
  /-- Field `origin`. -/
  origin : String
  /-- Field `crossOrigin`. -/
  crossOrigin : Bool
  deriving DecidableEq, Repr

/-- Options of `GetAssertion` and `MakeCredential` set by the commands; user verification is
always `Discouraged`. -/
structure Options where
  /-- Authenticator attachment. -/
  attachment : Attachment
  /-- Credential hints. -/
  hints : List Hint
  /-- Time-out in seconds. -/
  timeoutSeconds : Nat
  /-- Field `PreferResidentKey` (of `MakeCredential` only). -/
  preferResidentKey : Bool
  deriving DecidableEq, Repr

/-- The part of an assertion the commands read. -/
structure Assertion where
  /-- Identifier of the credential that signed. -/
  credentialID : Go.Bytes
  /-- Signature. -/
  signature : Go.Bytes
  /-- First PRF result, when the extension outputs are present and enabled. -/
  prfFirst : Option Go.Bytes
  deriving DecidableEq, Repr

/-- The part of an attestation the commands read. -/
structure Attestation where
  /-- Identifier of the new credential. -/
  credentialID : Go.Bytes
  /-- Whether a resident key was created. -/
  residentKey : Bool
  deriving DecidableEq, Repr

end Winhello

/-! ## cmd/fit-hello -/

namespace FitHello

open Winhello (HiddenWindow CredentialDetails PublicKeyCredentialDescriptor ClientData)

/-- What the program does that can be observed from outside. -/
inductive Event where
  /-- The call `fmt.Println(s)`. -/
  | println (s : String)
  /-- The call `fmt.Printf(format, args...)`. -/
  | printf (format : String) (args : List FVal)
  /-- The call `writeJSON` on an object with these fields. -/
  | writeJSON (fields : List (String × JVal))
  /-- The call `hiddenwindow.New(logger, name)`. -/
  | hiddenWindowNew (name : String)
  /-- The call `wnd.Close()`. -/
  | windowClose (wnd : HiddenWindow)
  /-- The call `winhello.PlatformCredentialList(rp, all)`. -/
  | platformCredentialList (rp : String) (all : Bool)
  /-- The call `winhello.GetAssertion(hwnd, rp, clientData, allow, nil, opts)`. -/
  | getAssertion (hwnd : Nat) (rp : String) (cd : ClientData)
      (allow : List PublicKeyCredentialDescriptor) (opts : Winhello.Options)
  /-- The call `winhello.MakeCredential(hwnd, clientData, rp, user, params, nil, nil, opts)`;
  the relying party has identifier and name `rp`, the only parameter is public-key with
  algorithm -7. -/
  | makeCredential (hwnd : Nat) (cd : ClientData) (rp : String) (userID : Go.Bytes)
      (userName displayName : String) (opts : Winhello.Options)
  /-- The call `winhello.DeletePlatformCredential(credID)`. -/
  | deletePlatformCredential (credID : Go.Bytes)
  /-- The call `winhello.APIVersionNumber()`. -/
  | apiVersionNumber
  /-- The call `winhello.IsUserVerifyingPlatformAuthenticatorAvailable()`. -/
  | isUserVerifyingPlatformAuthenticatorAvailable

/-- The answers of the binding.  An error of the binding is its text. -/
structure World where
  /-- Result of `hiddenwindow.New`. -/
  hiddenWindowNew : String → Except String HiddenWindow
  /-- Result of `winhello.PlatformCredentialList`. -/
  platformCredentialList : String → Bool → Except String (List CredentialDetails)
  /-- Result of `winhello.GetAssertion`. -/
  getAssertion : Nat → String → ClientData → List PublicKeyCredentialDescriptor →
    Winhello.Options → Except String Winhello.Assertion
  /-- Result of `winhello.MakeCredential`. -/
  makeCredential : Nat → ClientData → String → Go.Bytes → String → String →
    Winhello.Options → Except String Winhello.Attestation
  /-- Error of `winhello.DeletePlatformCredential`, if any. -/
  deletePlatformCredential : Go.Bytes → Option String
  /-- Result of `winhello.APIVersionNumber()`. -/
  apiVersionNumber : Nat
  /-- Result of `winhello.IsUserVerifyingPlatformAuthenticatorAvailable()`. -/
  isUserVerifyingPlatformAuthenticatorAvailable : Except String Bool

/-- A computation of `cmd/fit-hello`. -/
abbrev Cmd (α : Type) : Type := Prog Event α

/-- The call `fmt.Println(s)`. -/
def println (s : String) : Cmd Unit := Prog.emit (.println s)

/-- The call `fmt.Printf(format, args...)`. -/
def printf (format : String) (args : List FVal) : Cmd Unit := Prog.emit (.printf format args)

/-- The function `writeJSON`; marshalling an object of strings, numbers and booleans does not
fail. -/
def writeJSON (fields : List (String × JVal)) : Cmd Unit := Prog.emit (.writeJSON fields)

/-- The function `getString`. -/
def getString : List String → String → String
  | a :: b :: rest, name => if a = name then b else getString (b :: rest) name
  | _, _ => ""

/-- The function `getInt`. -/
def getInt : List String → String → Int × Bool
  | a :: b :: rest, name =>
    if a = name then
      match Strconv.atoi b with
      | some v => (v, true)
      | none => (0, false)
    else getInt (b :: rest) name
  | _, _ => (0, false)

/-- The function `has`. -/
def has (args : List String) (name : String) : Bool :=
  args.any fun a => a == name

/-- The function `getHelloWindow`; the clean-up it returns closes the window. -/
def getHelloWindow (w : World) : Cmd HiddenWindow := do
  Prog.emit (.hiddenWindowNew "fit-hello")
  match w.hiddenWindowNew "fit-hello" with
  | .error e => Prog.fatalf "hidden window: %v" [.err e]
  | .ok wnd => pure wnd

/-- The clean-up returned by `getHelloWindow`. -/
def closeWnd (wnd : HiddenWindow) : Cmd Unit := Prog.emit (.windowClose wnd)

/-- The function `helloAttachment`. -/
def helloAttachment (args : List String) : Winhello.Attachment :=
  if has args "--device" then .crossPlatform else .platform

/-- The function `helloCredentialHints`. -/
def helloCredentialHints (args : List String) : List Winhello.Hint :=
  if has args "--device" then [.securityKey] else []

/-- The function `clientData`; the record stands for its JSON serialisation, which cannot fail
for these field types. -/
def clientData (typ rpID : String) (challenge : Go.Bytes) : ClientData :=
  let b64url := Base64.encodeToString challenge
  let origin := if !Strings.contains rpID "://" then "https://" ++ rpID else rpID
  ⟨typ, b64url, origin, false⟩

/-- The enumeration `winhello.PlatformCredentialList(rp, false)` followed by the check of its
error. -/
def credentialList (w : World) (rp : String) : Cmd (List CredentialDetails) := do
  Prog.emit (.platformCredentialList rp false)
  match w.platformCredentialList rp false with
  | .error e => Prog.fatalf "PlatformCredentialList: %v" [.err e]
  | .ok list => pure list

/-- The entry of the enumeration selected by `--cred-index`, after the range check. -/
def credentialAt (list : List CredentialDetails) (idx : Int) : Cmd Go.Bytes :=
  if idx < 0 ∨ idx ≥ list.length then
    Prog.fatalf "--cred-index out of range (have %d)" [.int list.length]
  else
    match list[idx.toNat]? with
    | none => Prog.panic "index out of range"
    | some c => pure c.credentialID

/-- The part "determine credential" of `cmdAuth`: the identifier to assert with (empty when it
is left nil), or `none` when the command returns at this step. -/
def cmdAuth.determineCredential (w : World) (args : List String) (rp : String) :
    Cmd (Option Go.Bytes) :=
  if getString args "--cred-id-hex" ≠ "" then
    match Hex.decodeString (Strings.trimSpace (getString args "--cred-id-hex")) with
    | none => Prog.fatalf "--cred-id-hex: %v" [.hexErr]
    | some b => pure (some b)
  else if getString args "--cred-id-b64" ≠ "" then
    match Base64.decodeString (Strings.trimSpace (getString args "--cred-id-b64")) with
    | none => Prog.fatalf "--cred-id-b64: %v" [.b64Err]
    | some b => pure (some b)
  else
    match getInt args "--cred-index" with
    | (idx, true) => do
      let list ← credentialList w rp
      let credID ← credentialAt list idx
      pure (some credID)
    | (_, false) =>
      if has args "--device" then pure (some [])
      else do
        let list ← credentialList w rp
        match list with
        | [] => do
          println "No Windows Hello credentials found for RP."
          pure none
        | c :: _ => do
          println "Using platform credential index 0"
          pure (some c.credentialID)

/-- The fields printed for a challenge. -/
def challengeFields (challenge : Go.Bytes) : List (String × JVal) :=
  [("challengeB64", .str (Base64.encodeToString challenge)),
    ("challengeHex", .str (Hex.encodeToString challenge))]

/-- The part of `cmdAuth` after the credential has been determined: challenge, client data,
allow list, the call `GetAssertion` and the output of its result. -/
def cmdAuth.assert (w : World) (args : List String) (wnd : HiddenWindow) (rp : String)
    (credID : Go.Bytes) : Cmd Unit := do
  let challenge ← Chal.Bytes 32
  let cd := clientData "webauthn.get" rp challenge
  let allow : List PublicKeyCredentialDescriptor :=
    if credID.length > 0 then [⟨Winhello.PublicKeyCredentialTypePublicKey, credID⟩] else []
  let opts : Winhello.Options := ⟨helloAttachment args, helloCredentialHints args, 30, false⟩
  Prog.emit (.getAssertion wnd.handle rp cd allow opts)
  match w.getAssertion wnd.handle rp cd allow opts with
  | .error e => Prog.fatalf "GetAssertion: %v" [.err e]
  | .ok asrt =>
    if has args "--json" then
      writeJSON ([("backend", .str "hello"), ("rp", .str rp),
        ("credentialID", .str (Base64.encodeToString asrt.credentialID)),
        ("signature", .str (Base64.encodeToString asrt.signature))] ++
        challengeFields challenge ++
        (match asrt.prfFirst with
          | some first => [("prfFirst", .str (Base64.encodeToString first))]
          | none => []))
    else do
      println "Assertion result (Hello):"
      printf "  CredentialID(b64url): %s\n" [.str (Base64.encodeToString asrt.credentialID)]
      printf "  Sig(b64url):          %s\n" [.str (Base64.encodeToString asrt.signature)]
      printf "  Challenge(b64url):    %s\n" [.str (Base64.encodeToString challenge)]
      printf "  Challenge(hex):       %s\n" [.str (Hex.encodeToString challenge)]

/-- The function `cmdAuth`. -/
def cmdAuth (w : World) (args : List String) : Cmd Unit :=
  let rp := getString args "--rp"
  if rp = "" then
    println "Usage: auth --rp RP [--cred-id-hex HEX|--cred-id-b64 B64URL|--cred-index N|--device]"
  else do
    let wnd ← getHelloWindow w
    Prog.withDefer (closeWnd wnd) do
      match ← cmdAuth.determineCredential w args rp with
      | none => pure ()
      | some credID => cmdAuth.assert w args wnd rp credID

/-- The bytes of an ASCII string literal. -/
def asciiBytes (s : String) : Go.Bytes := s.data.map fun c => Base64.byte c.toNat

/-- The function `cmdAddPasskey`. -/
def cmdAddPasskey (w : World) (args : List String) : Cmd Unit :=
  let rp := getString args "--rp"
  if rp = "" then
    println "Usage: add-passkey --rp RP [--user USER] [--display NAME] [--device] [--resident|--no-resident]"
  else
    let user := if getString args "--user" = "" then "fit-user" else getString args "--user"
    let display := if getString args "--display" = "" then user
      else getString args "--display"
    let resident := if has args "--no-resident" then false else true
    do
      let wnd ← getHelloWindow w
      Prog.withDefer (closeWnd wnd) do
        let challenge ← Chal.Bytes 32
        let cd := clientData "webauthn.create" rp challenge
        let userID := asciiBytes "user-id-012345678901234567890123"
        let opts : Winhello.Options :=
          ⟨helloAttachment args, helloCredentialHints args, 45, resident⟩
        Prog.emit (.makeCredential wnd.handle cd rp userID user display opts)
        match w.makeCredential wnd.handle cd rp userID user display opts with
        | .error e => Prog.fatalf "MakeCredential: %v" [.err e]
        | .ok att =>
          if has args "--json" then
            writeJSON ([("backend", .str "hello"), ("rp", .str rp), ("user", .str user),
              ("resident", .bool att.residentKey),
              ("credentialID", .str (Base64.encodeToString att.credentialID))] ++
              challengeFields challenge)
          else do
            println "Created passkey (Hello):"
            printf "  RP: %s\n" [.str rp]
            printf "  User: %s\n" [.str user]
            printf "  ResidentKey: %v\n" [.bool att.residentKey]
            printf "  CredentialID(b64url): %s\n" [.str (Base64.encodeToString att.credentialID)]
            printf "  Challenge(b64url):    %s\n" [.str (Base64.encodeToString challenge)]
            printf "  Challenge(hex):       %s\n" [.str (Hex.encodeToString challenge)]

/-- The part of `cmdDeletePasskey` that determines the credential: the identifier to delete, or
`none` when the command prints its usage and returns. -/
def cmdDeletePasskey.determineCredential (w : World) (args : List String) :
    Cmd (Option Go.Bytes) :=
  let rp := getString args "--rp"
  let hexStr := getString args "--cred-id-hex"
  let b64Str := getString args "--cred-id-b64"
  match getInt args "--cred-index" with
  | (idx, hasIdx) =>
    if hexStr ≠ "" then
      match Hex.decodeString (Strings.trimSpace hexStr) with
      | none => Prog.fatalf "--cred-id-hex: %v" [.hexErr]
      | some b => pure (some b)
    else if b64Str ≠ "" then
      match Base64.decodeString (Strings.trimSpace b64Str) with
      | none => Prog.fatalf "--cred-id-b64: %v" [.b64Err]
      | some b => pure (some b)
    else if hasIdx then do
      let list ← credentialList w rp
      let credID ← credentialAt list idx
      pure (some credID)
    else do
      println "Usage: delete-passkey [--rp RP] (--cred-id-hex HEX|--cred-id-b64 B64URL|--cred-index N)"
      pure none

/-- The function `cmdDeletePasskey`. -/
def cmdDeletePasskey (w : World) (args : List String) : Cmd Unit := do
  match ← cmdDeletePasskey.determineCredential w args with
  | none => pure ()
  | some credID =>
    Prog.emit (.deletePlatformCredential credID)
    match w.deletePlatformCredential credID with
    | some e => Prog.fatalf "DeletePlatformCredential: %v" [.err e]
    | none =>
      if has args "--json" then
        writeJSON [("backend", .str "hello"), ("deleted", .bool true),
          ("credID", .str (Base64.encodeToString credID))]
      else println "Credential deleted."

/-- The JSON item of a credential, with its index when `cmdList` builds it. -/
def credentialItem (index : Option Nat) (c : CredentialDetails) : List (String × JVal) :=
  (match index with
    | some i => [("index", JVal.num i)]
    | none => []) ++
  [("rp", .str c.rpID), ("user", .str c.userName), ("removable", .bool c.removable),
    ("backedUp", .bool c.backedUp), ("credID", .str (Base64.encodeToString c.credentialID))]

/-- The JSON items `cmdList` builds, from index `i` on. -/
def cmdList.items : Nat → List CredentialDetails → List (List (String × JVal))
  | _, [] => []
  | i, c :: rest => credentialItem (some i) c :: cmdList.items (i + 1) rest

/-- The lines printed for credentials, from index `i` on, with the given format. -/
def printCreds (format : String) : Nat → List CredentialDetails → Cmd Unit
  | _, [] => pure ()
  | i, c :: rest => do
    printf format [.int i, .str c.rpID, .str c.userName, .bool c.removable, .bool c.backedUp,
      .str (Base64.encodeToString c.credentialID)]
    printCreds format (i + 1) rest

/-- The function `cmdList`. -/
def cmdList (w : World) (args : List String) : Cmd Unit := do
  let rp := getString args "--rp"
  let creds ← credentialList w rp
  if has args "--json" then
    writeJSON [("backend", .str "hello"), ("rp", .str rp),
      ("credentials", .arr (cmdList.items 0 creds))]
  else if creds.length = 0 then
    if rp ≠ "" then printf "No credentials for RP \x27%s\x27\n" [.str rp]
    else println "No credentials found."
  else do
    println "Windows Hello credentials:"
    printCreds "  [%d] RP=%s User=%s Removable=%v BackedUp=%v CredID(b64url)=%s\n" 0 creds

/-- The function `cmdTest`. -/
def cmdTest (w : World) (args : List String) : Cmd Unit := do
  let rp := getString args "--rp"
  let creds ← credentialList w rp
  if has args "--json" then do
    let items := (creds.take 50).map (credentialItem none)
    Prog.emit .apiVersionNumber
    writeJSON [("backend", .str "hello"), ("rp", .str rp), ("credentials", .arr items),
      ("apiVersion", .num w.apiVersionNumber)]
  else do
    println "Windows Hello diagnostic:"
    Prog.emit .apiVersionNumber
    printf "  API Version: %d\n" [.int w.apiVersionNumber]
    Prog.emit .isUserVerifyingPlatformAuthenticatorAvailable
    match w.isUserVerifyingPlatformAuthenticatorAvailable with
    | .ok uvpa => printf "  UVPA Available: %v\n" [.bool uvpa]
    | .error _ => pure ()
    if rp ≠ "" then
      printf "  RP filter: %s\n" [.str rp]
    printf "  Credentials found: %d\n" [.int creds.length]
    let max := if creds.length > 5 then 5 else creds.length
    printCreds "    [%d] RP=%s User=%s Removable=%v BackedUp=%v CredID(b64url)=%s\n" 0
      (creds.take max)
    if creds.length > max then
      printf "    ... and %d more\n" [.int (creds.length - max)]

/-- The function `printUsage`; `os.Args[0]` on an empty argument vector is a Go run-time
panic. -/
def printUsage (osArgs : List String) : Cmd Unit :=
  match osArgs with
  | [] => Prog.panic "index out of range"
  | exe :: _ => do
    printf "Usage: %s <command> [arguments]\n" [.str exe]
    println "\nCommands (Windows Hello):"
    println "  list [--rp RP]         List Windows Hello platform credentials (filter by RP)."
    println "  test [--rp RP]         Show diagnostic info and list credentials (subset)."
    println "  auth --rp RP [--cred-id-hex HEX|--cred-id-b64 B64URL|--cred-index N|--device]"
    println "                         Perform an assertion. If no allow list and --device set, Windows selector opens for external keys."
    println "  add-passkey --rp RP [--user USER] [--display NAME] [--device] [--resident|--no-resident]"
    println "                         Create a new passkey. --device prefers external security keys."
    println "  delete-passkey [--rp RP] (--cred-id-hex HEX|--cred-id-b64 B64URL|--cred-index N)"
    println "                         Delete a Windows Hello platform credential."
    println "  version                Print build version."
    println "\nGlobal:"
    println "  --json                 Output JSON where applicable."

/-- The function `main` on the argument vector `os.Args`; `buildVersion` is the package
variable set at build time. -/
def main (w : World) (buildVersion : String) (osArgs : List String) : Cmd Unit :=
  match osArgs with
  | _ :: cmd :: args =>
    if cmd = "list" then cmdList w args
    else if cmd = "test" then cmdTest w args
    else if cmd = "auth" then cmdAuth w args
    else if cmd = "add-passkey" then cmdAddPasskey w args
    else if cmd = "delete-passkey" then cmdDeletePasskey w args
    else if cmd = "version" then println buildVersion
    else printUsage osArgs
  | _ => printUsage osArgs

end FitHello

/-! ## Observations on traces, and small worlds used to exercise the theorems -/

namespace Prog

/-- Every event of every run of `p` satisfies `P`. -/
def TraceAll {ε α : Type} (P : ε → Prop) (p : Prog ε α) : Prop :=
  ∀ r, ∀ e ∈ (p r).trace, P e

end Prog

namespace Fit

/-- Whether an event is a make-credential or a get-assertion call. -/
def Event.isCredentialCall : Event → Bool
  | .makeCredential .. => true
  | .assertion .. => true
  | _ => false

/-- The credential identifiers passed to a get-assertion call. -/
def Event.assertionIDs : Event → Option (List Go.Bytes)
  | .assertion _ _ _ ids _ => some ids
  | _ => none

/-- Whether an event belongs to the selection of a device: enumeration, opening, the printed
list and prompt, the read of the selection. -/
def Event.isSelection : Event → Bool
  | .deviceLocations => true
  | .newDevice _ => true
  | .println _ => true
  | .printf .. => true
  | .print _ => true
  | .scanln => true
  | _ => false

/-- A computation that leaves the random source alone and produces selection events only. -/
def Quiet {α : Type} (p : Cmd α) : Prop :=
  ∀ r, (p r).rand = r ∧ ∀ e ∈ (p r).trace, e.isSelection = true

/-- A device location with the given path. -/
def exampleLoc (path : String) : Libfido2.DeviceLocation := ⟨path, 1031, 4176, "Yubico", "YubiKey"⟩

/-- A world in which the enumeration of devices gives `locs`, every path opens the handle 1,
the key holds the resident credentials `creds`, every call succeeds and the confirmation line
is `line`. -/
def exampleWorld (locs : List Libfido2.DeviceLocation) (creds : List Libfido2.Credential)
    (line : String) : World where
  lowerTable := id
  foldOrbit := fun _ _ => false
  readString := line
  scanln := some 0
  deviceLocations := .ok locs
  newDevice := fun _ => .ok (some ⟨1⟩)
  info := fun _ => .ok ⟨["FIDO_2_0"], [], [⟨"clientPin", "true"⟩]⟩
  setPIN := fun _ _ _ => none
  reset := fun _ => none
  credentials := fun _ _ _ => .ok creds
  makeCredential := fun _ _ _ _ _ _ _ => .ok ⟨[9, 9], -7⟩
  assertion := fun _ _ _ ids _ => .ok ⟨[], [5], [], ids.headD []⟩
  credentialTypeString := fun _ => "ES256"
  devType := fun _ => .ok "fido2"
  isFIDO2 := fun _ => .ok true
  ctapHIDInfo := fun _ => .ok (some ⟨2, 1, 0, 5⟩)
  retryCount := fun _ => .ok 8
  credentialsInfo := fun _ _ => .ok (some ⟨creds.length, 25⟩)

end Fit

namespace FitHello

/-- Whether an event is a get-assertion, make-credential or delete call. -/
def Event.isCredentialCall : Event → Bool
  | .getAssertion .. => true
  | .makeCredential .. => true
  | .deletePlatformCredential _ => true
  | _ => false

/-- The allow list passed to a get-assertion call. -/
def Event.allowList : Event → Option (List Winhello.PublicKeyCredentialDescriptor)
  | .getAssertion _ _ _ allow _ => some allow
  | _ => none

/-- The identifier passed to a delete call. -/
def Event.deletedID : Event → Option Go.Bytes
  | .deletePlatformCredential credID => some credID
  | _ => none

/-- The client data passed to a get-assertion or make-credential call. -/
def Event.clientData : Event → Option Winhello.ClientData
  | .getAssertion _ _ cd _ _ => some cd
  | .makeCredential _ cd _ _ _ _ _ => some cd
  | _ => none

/-- What is asked of an event for the challenge: a client data it carries is built from a
challenge of exactly 32 bytes. -/
def challengeOK (e : Event) : Prop :=
  ∀ cd, e.clientData = some cd →
    ∃ typ rp, ∃ ch : Go.Bytes, ch.length = 32 ∧ cd = clientData typ rp ch

/-- A platform credential with the given identifier. -/
def exampleCred (credID : Go.Bytes) : Winhello.CredentialDetails :=
  ⟨credID, "example.com", "fit-user", true, false⟩

/-- A world in which the window is created with handle 7, the enumeration of platform
credentials gives `list` for every relying party and every call succeeds. -/
def exampleWorld (list : List Winhello.CredentialDetails) : World where
  hiddenWindowNew := fun _ => .ok ⟨7⟩
  platformCredentialList := fun _ _ => .ok list
  getAssertion := fun _ _ _ allow _ => .ok ⟨(allow.map fun d => d.id).headD [], [5], none⟩
  makeCredential := fun _ _ _ _ _ _ _ => .ok ⟨[9, 9], true⟩
  deletePlatformCredential := fun _ => none
  apiVersionNumber := 7
  isUserVerifyingPlatformAuthenticatorAvailable := .ok true

/-- Thirty-two bytes of a random source. -/
def exampleRand : List Go.Byte := List.replicate 32 7

end FitHello

/-! ## Proofs -/

namespace Prog

variable {ε α β : Type}

theorem bind_eq (p : Prog ε α) (f : α → Prog ε β) : (p >>= f) = Prog.andThen p f := rfl

theorem pure_eq (a : α) : (pure a : Prog ε α) = Prog.ret a := rfl

end Prog

/-! ### Flag look-ups -/

namespace Fit

theorem getStringFlag_of_not_mem (args : List String) (name : String) (h : name ∉ args) :
    getStringFlag args name = "" := by
  induction args with
  | nil => rfl
  | cons a rest ih =>
    have ha : a ≠ name := fun e => h (by simp [e])
    have hr : name ∉ rest := fun e => h (by simp [e])
    cases rest with
    | nil => rfl
    | cons b tl => simp [getStringFlag, ha, ih hr]

theorem getIntFlag_of_not_mem (args : List String) (name : String) (h : name ∉ args) :
    getIntFlag args name = (0, false) := by
  induction args with
  | nil => rfl
  | cons a rest ih =>
    have ha : a ≠ name := fun e => h (by simp [e])
    have hr : name ∉ rest := fun e => h (by simp [e])
    cases rest with
    | nil => rfl
    | cons b tl => simp [getIntFlag, ha, ih hr]

theorem hasFlag_of_not_mem (args : List String) (name : String) (h : name ∉ args) :
    hasFlag args name = false := by
  simp only [hasFlag, List.any_eq_false, beq_iff_eq]
  intro a ha e
  exact h (e ▸ ha)

end Fit

namespace FitHello

theorem getString_of_not_mem (args : List String) (name : String) (h : name ∉ args) :
    getString args name = "" := by
  induction args with
  | nil => rfl
  | cons a rest ih =>
    have ha : a ≠ name := fun e => h (by simp [e])
    have hr : name ∉ rest := fun e => h (by simp [e])
    cases rest with
    | nil => rfl
    | cons b tl => simp [getString, ha, ih hr]

theorem getInt_of_not_mem (args : List String) (name : String) (h : name ∉ args) :
    getInt args name = (0, false) := by
  induction args with
  | nil => rfl
  | cons a rest ih =>
    have ha : a ≠ name := fun e => h (by simp [e])
    have hr : name ∉ rest := fun e => h (by simp [e])
    cases rest with
    | nil => rfl
    | cons b tl => simp [getInt, ha, ih hr]

theorem has_of_not_mem (args : List String) (name : String) (h : name ∉ args) :
    has args name = false := by
  simp only [has, List.any_eq_false, beq_iff_eq]
  intro a ha e
  exact h (e ▸ ha)

end FitHello

/-! ### Hexadecimal strings and white space -/


namespace Hex

theorem isSpace_of_fromHexChar (c : Char) (v : Nat) (h : fromHexChar c = some v) :
    Go.isSpace c = false := by
  unfold fromHexChar at h
  unfold Go.isSpace
  simp only [Bool.or_eq_false_iff, Bool.and_eq_false_iff, decide_eq_false_iff_not, beq_eq_false_iff_ne, ne_eq]
  split_ifs at h <;> simp <;> omega

theorem decodeList_no_space : ∀ (l : List Char) (b : Go.Bytes), decodeList l = some b →
    ∀ c ∈ l, Go.isSpace c = false
  | [], _, _ => by simp
  | [x], _, h => by simp [decodeList] at h
  | x :: y :: rest, b, h => by
    rw [decodeList] at h
    cases hx : fromHexChar x with
    | none => simp [hx] at h
    | some vx =>
      cases hy : fromHexChar y with
      | none => simp [hx, hy] at h
      | some vy =>
        cases hr : decodeList rest with
        | none => simp [hx, hy, hr] at h
        | some br =>
          intro c hc
          rcases List.mem_cons.mp hc with h1 | h1
          · rw [h1]; exact isSpace_of_fromHexChar _ _ hx
          rcases List.mem_cons.mp h1 with h2 | h2
          · rw [h2]; exact isSpace_of_fromHexChar _ _ hy
          · exact decodeList_no_space rest br hr c h2

theorem decodeList_ne_nil (l : List Char) (b : Go.Bytes) (h : decodeList l = some b)
    (hl : l ≠ []) : b ≠ [] := by
  match l, h, hl with
  | [], _, hl => exact absurd rfl hl
  | [x], h, _ => simp [decodeList] at h
  | x :: y :: rest, h, _ =>
    rw [decodeList] at h
    split at h
    · simp at h; rw [← h]; simp
    · simp at h

end Hex

namespace Strings

theorem dropWhile_of_none (l : List Char) (h : ∀ c ∈ l, Go.isSpace c = false) :
    l.dropWhile Go.isSpace = l := by
  cases l with
  | nil => rfl
  | cons a t => simp [List.dropWhile, h a (by simp)]

theorem trimSpace_of_no_space (s : String) (h : ∀ c ∈ s.data, Go.isSpace c = false) :
    trimSpace s = s := by
  unfold trimSpace
  rw [dropWhile_of_none _ h, dropWhile_of_none _ (by simpa using h)]
  simp

theorem trimSpace_of_hex (s : String) (b : Go.Bytes) (h : Hex.decodeString s = some b) :
    trimSpace s = s :=
  trimSpace_of_no_space s (Hex.decodeList_no_space _ _ h)

end Strings

/-! ### Selection of the device -/

namespace Fit

theorem loop_skip (pre rest : List String) (acc : Option Int × String × Bool)
    (hd : "--device" ∉ pre) (hp : "--path" ∉ pre) :
    parseDeviceSelectors.loop (pre ++ rest) acc = parseDeviceSelectors.loop rest acc := by
  induction pre with
  | nil => rfl
  | cons a pre ih =>
    have ha1 : a ≠ "--device" := fun h => hd (by simp [h])
    have ha2 : a ≠ "--path" := fun h => hp (by simp [h])
    have hd2 : "--device" ∉ pre := fun h => hd (by simp [h])
    have hp2 : "--path" ∉ pre := fun h => hp (by simp [h])
    obtain ⟨idx, path, ok⟩ := acc
    cases hrest : pre ++ rest with
    | nil =>
      have h1 : pre = [] := (List.append_eq_nil.mp hrest).1
      have h2 : rest = [] := (List.append_eq_nil.mp hrest).2
      subst h1 h2
      simp [parseDeviceSelectors.loop]
    | cons v tl =>
      rw [List.cons_append, hrest, parseDeviceSelectors.loop]
      simp only [ha1, ha2, if_false]
      rw [← hrest]
      exact ih hd2 hp2

theorem loop_free (post : List String) (acc : Option Int × String × Bool)
    (hd : "--device" ∉ post) (hp : "--path" ∉ post) :
    parseDeviceSelectors.loop post acc = acc := by
  have := loop_skip post [] acc hd hp
  simpa [parseDeviceSelectors.loop] using this

theorem loop_path (P : String) (rest : List String) (idx : Option Int) (path : String)
    (ok : Bool) :
    parseDeviceSelectors.loop ("--path" :: P :: rest) (idx, path, ok) =
      parseDeviceSelectors.loop rest (idx, P, true) := by
  rw [parseDeviceSelectors.loop]
  simp

theorem loop_device (N : String) (rest : List String) (idx : Option Int) (path : String)
    (ok : Bool) :
    parseDeviceSelectors.loop ("--device" :: N :: rest) (idx, path, ok) =
      match Fmt.sscanfInt N with
      | some n => parseDeviceSelectors.loop rest (some n, path, true)
      | none => parseDeviceSelectors.loop rest (idx, path, ok) := by
  rw [parseDeviceSelectors.loop]
  cases Fmt.sscanfInt N <;> simp

/-- Result of the checked `NewDevice` call. -/
theorem newDevice_run (w : World) (path : String) (r : List Go.Byte) :
    (getDeviceWithArgs.newDevice w path r).trace = [.newDevice path] ∧
    (getDeviceWithArgs.newDevice w path r).rand = r ∧
    (∀ d, w.newDevice path = .ok d → (getDeviceWithArgs.newDevice w path r).result = .ok d) ∧
    (∀ e, w.newDevice path = .error e → (getDeviceWithArgs.newDevice w path r).result =
      .error (.fatal "Failed to open device: %v" [.err e])) := by
  cases h : w.newDevice path <;>
    simp [getDeviceWithArgs.newDevice, h, Prog.bind_eq, Prog.andThen, Prog.emit, Prog.fatalf,
      Prog.pure_eq, Prog.ret]

/-- With a path selected, the device at that path is opened. -/
theorem getDeviceWithArgs_path (w : World) (args : List String) (locs : List Libfido2.DeviceLocation)
    (r : List Go.Byte) (idx : Option Int) (P : String)
    (hlocs : w.deviceLocations = .ok locs) (hne : locs ≠ [])
    (hparse : parseDeviceSelectors args = (idx, P, true)) (hP : P ≠ "") :
    getDeviceWithArgs w args r = ⟨(getDeviceWithArgs.newDevice w P r).result,
      .deviceLocations :: (getDeviceWithArgs.newDevice w P r).trace,
      (getDeviceWithArgs.newDevice w P r).rand⟩ := by
  have hl : locs.length ≠ 0 := by simpa using hne
  simp [getDeviceWithArgs, hlocs, hl, hparse, hP, Prog.bind_eq, Prog.andThen, Prog.emit]

theorem parse_path_device (pre mid post : List String) (P N : String)
    (hpre : "--device" ∉ pre ∧ "--path" ∉ pre) (hmid : "--device" ∉ mid ∧ "--path" ∉ mid)
    (hpost : "--device" ∉ post ∧ "--path" ∉ post) :
    parseDeviceSelectors (pre ++ "--path" :: P :: (mid ++ "--device" :: N :: post)) =
      (Fmt.sscanfInt N, P, true) := by
  unfold parseDeviceSelectors
  rw [loop_skip _ _ _ hpre.1 hpre.2, loop_path, loop_skip _ _ _ hmid.1 hmid.2, loop_device]
  cases Fmt.sscanfInt N <;> simp [loop_free _ _ hpost.1 hpost.2]

theorem parse_device_path (pre mid post : List String) (P N : String)
    (hpre : "--device" ∉ pre ∧ "--path" ∉ pre) (hmid : "--device" ∉ mid ∧ "--path" ∉ mid)
    (hpost : "--device" ∉ post ∧ "--path" ∉ post) :
    parseDeviceSelectors (pre ++ "--device" :: N :: (mid ++ "--path" :: P :: post)) =
      (Fmt.sscanfInt N, P, true) := by
  unfold parseDeviceSelectors
  rw [loop_skip _ _ _ hpre.1 hpre.2, loop_device]
  cases Fmt.sscanfInt N <;>
    simp [loop_skip _ _ _ hmid.1 hmid.2, loop_path, loop_free _ _ hpost.1 hpost.2]

theorem parse_device (pre post : List String) (N : String)
    (hpre : "--device" ∉ pre ∧ "--path" ∉ pre) (hpost : "--device" ∉ post ∧ "--path" ∉ post) :
    parseDeviceSelectors (pre ++ "--device" :: N :: post) =
      (Fmt.sscanfInt N, "", (Fmt.sscanfInt N).isSome) := by
  unfold parseDeviceSelectors
  rw [loop_skip _ _ _ hpre.1 hpre.2, loop_device]
  cases Fmt.sscanfInt N <;> simp [loop_free _ _ hpost.1 hpost.2]

theorem parse_none (args : List String) (hd : "--device" ∉ args) (hp : "--path" ∉ args) :
    parseDeviceSelectors args = (none, "", false) :=
  loop_free args _ hd hp

theorem openAt_run (w : World) (locs : List Libfido2.DeviceLocation) (i : Nat)
    (loc : Libfido2.DeviceLocation) (h : locs[i]? = some loc) :
    getDeviceWithArgs.openAt w locs i = getDeviceWithArgs.newDevice w loc.path := by
  simp [getDeviceWithArgs.openAt, h]

theorem printLocs_run (locs : List Libfido2.DeviceLocation) (i : Nat) (r : List Go.Byte) :
    ∃ listing, getDeviceWithArgs.printLocs i locs r = ⟨.ok (), listing, r⟩ ∧
      ∀ e ∈ listing, ∃ f a, e = Event.printf f a := by
  induction locs generalizing i with
  | nil => exact ⟨[], rfl, by simp⟩
  | cons loc rest ih =>
    obtain ⟨l, h1, h2⟩ := ih (i + 1)
    refine ⟨(getDeviceWithArgs.printLocs i (loc :: rest) r).trace, ?_, ?_⟩
    · simp only [getDeviceWithArgs.printLocs, Prog.bind_eq, Prog.andThen, printf, Prog.emit, h1]
    · simp only [getDeviceWithArgs.printLocs, Prog.bind_eq, Prog.andThen, printf, Prog.emit, h1]
      intro e he
      rcases List.mem_cons.mp he with h | h
      · exact ⟨_, _, h⟩
      · exact h2 e h

theorem quiet_ret {α : Type} (a : α) : Quiet (Prog.ret a : Cmd α) := by
  intro r; simp [Prog.ret]

theorem quiet_fatalf {α : Type} (f : String) (a : List FVal) : Quiet (Prog.fatalf f a : Cmd α) := by
  intro r; simp [Prog.fatalf]

theorem quiet_panic {α : Type} (m : String) : Quiet (Prog.panic m : Cmd α) := by
  intro r; simp [Prog.panic]

theorem quiet_emit (e : Event) (h : e.isSelection = true) : Quiet (Prog.emit e) := by
  intro r; simp [Prog.emit, h]

theorem quiet_andThen {α β : Type} {p : Cmd α} {f : α → Cmd β} (hp : Quiet p)
    (hf : ∀ a, Quiet (f a)) : Quiet (Prog.andThen p f) := by
  intro r
  obtain ⟨h1, h2⟩ := hp r
  unfold Prog.andThen
  rcases hpr : p r with ⟨res, t, r1⟩
  rw [hpr] at h1 h2
  simp only at h1 h2
  cases res with
  | error e => exact ⟨h1, h2⟩
  | ok a =>
    obtain ⟨h3, h4⟩ := hf a r1
    refine ⟨h3.trans h1, ?_⟩
    intro e he
    rcases List.mem_append.mp he with h | h
    · exact h2 e h
    · exact h4 e h

theorem quiet_newDevice (w : World) (path : String) : Quiet (getDeviceWithArgs.newDevice w path) := by
  unfold getDeviceWithArgs.newDevice
  rw [Prog.bind_eq]
  refine quiet_andThen (quiet_emit _ rfl) fun _ => ?_
  cases w.newDevice path
  · exact quiet_fatalf _ _
  · exact quiet_ret _

theorem quiet_openAt (w : World) (locs : List Libfido2.DeviceLocation) (i : Nat) :
    Quiet (getDeviceWithArgs.openAt w locs i) := by
  unfold getDeviceWithArgs.openAt
  cases locs[i]?
  · exact quiet_panic _
  · exact quiet_newDevice _ _

theorem quiet_printLocs (locs : List Libfido2.DeviceLocation) (i : Nat) :
    Quiet (getDeviceWithArgs.printLocs i locs) := by
  induction locs generalizing i with
  | nil => exact quiet_ret _
  | cons loc rest ih =>
    unfold getDeviceWithArgs.printLocs
    exact quiet_andThen (quiet_emit _ rfl) fun _ => ih _

theorem quiet_fallback (w : World) (locs : List Libfido2.DeviceLocation) :
    Quiet (getDeviceWithArgs.fallback w locs) := by
  unfold getDeviceWithArgs.fallback
  split
  · exact quiet_openAt _ _ _
  · refine quiet_andThen (quiet_emit _ rfl) fun _ => ?_
    refine quiet_andThen (quiet_printLocs _ _) fun _ => ?_
    refine quiet_andThen (quiet_emit _ rfl) fun _ => ?_
    refine quiet_andThen (quiet_emit _ rfl) fun _ => ?_
    cases w.scanln with
    | none => exact quiet_fatalf _ _
    | some index =>
      simp only
      split
      · exact quiet_fatalf _ _
      · exact quiet_openAt _ _ _

theorem quiet_getDeviceWithArgs (w : World) (args : List String) :
    Quiet (getDeviceWithArgs w args) := by
  unfold getDeviceWithArgs
  refine quiet_andThen (quiet_emit _ rfl) fun _ => ?_
  cases w.deviceLocations with
  | error e => exact quiet_fatalf _ _
  | ok locs =>
    simp only
    split
    · exact quiet_fatalf _ _
    · rcases parseDeviceSelectors args with ⟨idx, path, ok⟩
      simp only
      split
      · split
        · exact quiet_newDevice _ _
        · cases idx with
          | none => exact quiet_fallback _ _
          | some i =>
            simp only
            split
            · exact quiet_fatalf _ _
            · exact quiet_openAt _ _ _
      · exact quiet_fallback _ _

end Fit

/-! ### Claims about the selection of the device and about `reset` -/

namespace Fit

/-- C4. For every confirmation line, argument list and world: when the line returned by the read
of standard input, lower-cased and trimmed of surrounding white space (the expression the code
compares), is not exactly `yes`, `cmdReset` prints its warning, reads the line, prints
`Aborting reset.` and returns; it enumerates and opens no device and issues no `Reset` call. -/
theorem cmdReset_needs_yes (w : World) (args : List String) (r : List Go.Byte)
    (h : Strings.trimSpace (Strings.toLower w.lowerTable w.readString) ≠ "yes") :
    cmdReset w args r = ⟨.ok (),
      [.println "WARNING: This will perform a factory reset on a FIDO2 device.",
        .println "This is a destructive and irreversible action that will wipe all credentials.",
        .print "Are you sure you want to proceed? (yes/no): ",
        .readString, .println "Aborting reset."], r⟩ ∧
    (∀ e ∈ (cmdReset w args r).trace, (∀ p, e ≠ .newDevice p) ∧ (∀ d, e ≠ .reset d) ∧
      e ≠ .deviceLocations) := by
  have hrun : cmdReset w args r = ⟨.ok (),
      [.println "WARNING: This will perform a factory reset on a FIDO2 device.",
        .println "This is a destructive and irreversible action that will wipe all credentials.",
        .print "Are you sure you want to proceed? (yes/no): ",
        .readString, .println "Aborting reset."], r⟩ := by
    simp [cmdReset, h, Prog.bind_eq, Prog.andThen, println, Prog.emit]
  refine ⟨hrun, ?_⟩
  rw [hrun]
  intro e he
  simp only [List.mem_cons, List.mem_singleton, List.not_mem_nil, or_false] at he
  rcases he with h1 | h1 | h1 | h1 | h1 <;> subst h1 <;> simp

/-- C4, on the line `YES please` with one device attached: nothing but the prints and the read
happens. -/
theorem cmdReset_needs_yes_witness :
    (cmdReset (exampleWorld [exampleLoc "/dev/hidraw0"] [] "YES please\n") [] []).trace =
      [.println "WARNING: This will perform a factory reset on a FIDO2 device.",
        .println "This is a destructive and irreversible action that will wipe all credentials.",
        .print "Are you sure you want to proceed? (yes/no): ",
        .readString, .println "Aborting reset."] :=
  congrArg Outcome.trace
    (cmdReset_needs_yes (exampleWorld [exampleLoc "/dev/hidraw0"] [] "YES please\n") [] []
      (by decide)).1

/-- C6. For every argument list that gives each selector once, `--path P` and `--device N` in
either order (`pre`, `mid` and `post` are the other arguments, none of them a selector
flag), with a path `P` that is not the empty string, and for every non-empty enumeration:
`getDeviceWithArgs` enumerates, opens the device at path `P` and does nothing else; its result
is the answer of that one `NewDevice` call.  `N` is arbitrary text, so neither its value nor
its range plays a part. -/
theorem getDeviceWithArgs_path_wins (w : World) (pre mid post : List String) (P N : String)
    (locs : List Libfido2.DeviceLocation) (r : List Go.Byte) (args : List String)
    (hpre : "--device" ∉ pre ∧ "--path" ∉ pre) (hmid : "--device" ∉ mid ∧ "--path" ∉ mid)
    (hpost : "--device" ∉ post ∧ "--path" ∉ post)
    (hargs : args = pre ++ "--path" :: P :: (mid ++ "--device" :: N :: post) ∨
      args = pre ++ "--device" :: N :: (mid ++ "--path" :: P :: post))
    (hP : P ≠ "") (hlocs : w.deviceLocations = .ok locs) (hne : locs ≠ []) :
    (getDeviceWithArgs w args r).trace = [.deviceLocations, .newDevice P] ∧
    (getDeviceWithArgs w args r).rand = r ∧
    (∀ d, w.newDevice P = .ok d → (getDeviceWithArgs w args r).result = .ok d) ∧
    (∀ e, w.newDevice P = .error e → (getDeviceWithArgs w args r).result =
      .error (.fatal "Failed to open device: %v" [.err e])) := by
  have hparse : parseDeviceSelectors args = (Fmt.sscanfInt N, P, true) := by
    rcases hargs with h | h
    · rw [h]; exact parse_path_device pre mid post P N hpre hmid hpost
    · rw [h]; exact parse_device_path pre mid post P N hpre hmid hpost
  rw [getDeviceWithArgs_path w args locs r _ P hlocs hne hparse hP]
  obtain ⟨h1, h2, h3, h4⟩ := newDevice_run w P r
  exact ⟨by simp [h1], h2, h3, h4⟩

/-- C6, on `--device 9 --path /dev/hidraw7` with a single device attached: index 9 is out of
range, the path is opened all the same. -/
theorem getDeviceWithArgs_path_wins_witness :
    (getDeviceWithArgs (exampleWorld [exampleLoc "/dev/hidraw0"] [] "")
      ["--device", "9", "--path", "/dev/hidraw7"] []).trace =
      [.deviceLocations, .newDevice "/dev/hidraw7"] :=
  (getDeviceWithArgs_path_wins (exampleWorld [exampleLoc "/dev/hidraw0"] [] "") [] [] []
    "/dev/hidraw7" "9" [exampleLoc "/dev/hidraw0"] [] ["--device", "9", "--path", "/dev/hidraw7"]
    (by decide) (by decide) (by decide) (Or.inr rfl) (by decide) rfl (by simp)).1

/-- C7. For every enumeration of length at least 1 and every argument list whose only selector
is `--device N`, where the code reads the integer `n` from `N`: if `0 ≤ n < L` the command
enumerates and opens exactly the device at the path of entry `n`, and its result is the answer
of that `NewDevice` call; if `n < 0` or `n ≥ L` it ends with the fatal diagnostic
`Invalid device index` after the enumeration alone, no device opened. -/
theorem getDeviceWithArgs_device_index (w : World) (pre post : List String) (N : String)
    (n : Int) (locs : List Libfido2.DeviceLocation) (r : List Go.Byte)
    (hpre : "--device" ∉ pre ∧ "--path" ∉ pre) (hpost : "--device" ∉ post ∧ "--path" ∉ post)
    (hN : Fmt.sscanfInt N = some n) (hlocs : w.deviceLocations = .ok locs)
    (hL : 1 ≤ locs.length) :
    (0 ≤ n ∧ n < locs.length → ∃ loc, locs[n.toNat]? = some loc ∧
      (getDeviceWithArgs w (pre ++ "--device" :: N :: post) r).trace =
        [.deviceLocations, .newDevice loc.path] ∧
      (getDeviceWithArgs w (pre ++ "--device" :: N :: post) r).rand = r ∧
      (∀ d, w.newDevice loc.path = .ok d →
        (getDeviceWithArgs w (pre ++ "--device" :: N :: post) r).result = .ok d) ∧
      (∀ e, w.newDevice loc.path = .error e →
        (getDeviceWithArgs w (pre ++ "--device" :: N :: post) r).result =
          .error (.fatal "Failed to open device: %v" [.err e]))) ∧
    (n < 0 ∨ (locs.length : Int) ≤ n →
      getDeviceWithArgs w (pre ++ "--device" :: N :: post) r =
        ⟨.error (.fatal "Invalid device index: %d" [.int n]), [.deviceLocations], r⟩) := by
  have hparse := parse_device pre post N hpre hpost
  rw [hN] at hparse
  have hl : locs.length ≠ 0 := by omega
  constructor
  · rintro ⟨h0, h1⟩
    have hlt : n.toNat < locs.length := by omega
    refine ⟨locs[n.toNat], by simp, ?_⟩
    have hrange : ¬ (n < 0 ∨ n ≥ (locs.length : Int)) := by omega
    have hrun : getDeviceWithArgs w (pre ++ "--device" :: N :: post) r =
        ⟨(getDeviceWithArgs.newDevice w (locs[n.toNat]).path r).result,
          .deviceLocations :: (getDeviceWithArgs.newDevice w (locs[n.toNat]).path r).trace,
          (getDeviceWithArgs.newDevice w (locs[n.toNat]).path r).rand⟩ := by
      simp [getDeviceWithArgs, hlocs, hl, hparse, hrange, Prog.bind_eq, Prog.andThen, Prog.emit,
        openAt_run w locs n.toNat (locs[n.toNat]) (by simp)]
    rw [hrun]
    obtain ⟨h1, h2, h3, h4⟩ := newDevice_run w (locs[n.toNat]).path r
    exact ⟨by simp [h1], h2, h3, h4⟩
  · intro h
    have hrange : (n < 0 ∨ n ≥ (locs.length : Int)) := by omega
    simp [getDeviceWithArgs, hlocs, hl, hparse, hrange, Prog.bind_eq, Prog.andThen, Prog.emit,
      Prog.fatalf]

/-- C7, with two devices attached: `--device 2` is fatal after the enumeration, no device is
opened. -/
theorem getDeviceWithArgs_device_index_witness :
    getDeviceWithArgs (exampleWorld [exampleLoc "/dev/hidraw0", exampleLoc "/dev/hidraw1"] [] "")
      ["--json", "--device", "2"] [] =
      ⟨.error (.fatal "Invalid device index: %d" [.int 2]), [.deviceLocations], []⟩ :=
  (getDeviceWithArgs_device_index
    (exampleWorld [exampleLoc "/dev/hidraw0", exampleLoc "/dev/hidraw1"] [] "") ["--json"] []
    "2" 2 [exampleLoc "/dev/hidraw0", exampleLoc "/dev/hidraw1"] [] (by decide) (by decide)
    (by decide) rfl (by decide)).2 (Or.inr (by decide))

/-- C8. For every argument list that contains neither `--device` nor `--path`: when the
enumeration has exactly one entry, `getDeviceWithArgs` enumerates and opens that entry's path
and does nothing else (no prompt, no read from the terminal); when it has two or more entries,
it prints the heading and the numbered list, then the prompt, and reads the selection with
`Scanln`, before anything is opened. -/
theorem getDeviceWithArgs_no_selector (w : World) (args : List String)
    (locs : List Libfido2.DeviceLocation) (r : List Go.Byte) (hd : "--device" ∉ args)
    (hp : "--path" ∉ args) (hlocs : w.deviceLocations = .ok locs) :
    (∀ loc, locs = [loc] →
      (getDeviceWithArgs w args r).trace = [.deviceLocations, .newDevice loc.path] ∧
      (getDeviceWithArgs w args r).rand = r ∧
      (∀ d, w.newDevice loc.path = .ok d → (getDeviceWithArgs w args r).result = .ok d) ∧
      (∀ e, w.newDevice loc.path = .error e → (getDeviceWithArgs w args r).result =
          .error (.fatal "Failed to open device: %v" [.err e]))) ∧
    (2 ≤ locs.length → ∃ listing tail, (∀ e ∈ listing, ∃ f a, e = Event.printf f a) ∧
      (getDeviceWithArgs w args r).trace = .deviceLocations ::
        .println "Found FIDO2 devices:" :: (listing ++
          .print "Select a device (enter number): " :: .scanln :: tail)) := by
  have hparse := parse_none args hd hp
  constructor
  · rintro loc rfl
    have hrun : getDeviceWithArgs w args r =
        ⟨(getDeviceWithArgs.newDevice w loc.path r).result,
          .deviceLocations :: (getDeviceWithArgs.newDevice w loc.path r).trace,
          (getDeviceWithArgs.newDevice w loc.path r).rand⟩ := by
      simp [getDeviceWithArgs, hlocs, hparse, getDeviceWithArgs.fallback, Prog.bind_eq,
        Prog.andThen, Prog.emit, openAt_run w [loc] 0 loc (by simp)]
    rw [hrun]
    obtain ⟨h1, h2, h3, h4⟩ := newDevice_run w loc.path r
    exact ⟨by simp [h1], h2, h3, h4⟩
  · intro h2
    have hl0 : locs.length ≠ 0 := by omega
    have hl1 : locs.length ≠ 1 := by omega
    obtain ⟨listing, hrun, hall⟩ := printLocs_run locs 0 r
    refine ⟨listing, ?_, hall, ?_⟩
    · exact match w.scanln with
        | none => []
        | some index =>
          if index < 0 ∨ index ≥ locs.length then []
          else (getDeviceWithArgs.openAt w locs index.toNat r).trace
    · cases hs : w.scanln with
      | none =>
        simp [getDeviceWithArgs, hlocs, hparse, getDeviceWithArgs.fallback, Prog.bind_eq,
          Prog.andThen, Prog.emit, hl0, hl1, println, hrun, hs, Prog.fatalf]
      | some index =>
        by_cases hr : index < 0 ∨ index ≥ (locs.length : Int)
        · simp [getDeviceWithArgs, hlocs, hparse, getDeviceWithArgs.fallback, Prog.bind_eq,
            Prog.andThen, Prog.emit, hl0, hl1, println, hrun, hs, Prog.fatalf, hr]
        · simp [getDeviceWithArgs, hlocs, hparse, getDeviceWithArgs.fallback, Prog.bind_eq,
            Prog.andThen, Prog.emit, hl0, hl1, println, hrun, hs, Prog.fatalf, hr]

/-- C8, with a single device attached and the arguments `--json`: the device is opened without
a prompt. -/
theorem getDeviceWithArgs_no_selector_witness :
    (getDeviceWithArgs (exampleWorld [exampleLoc "/dev/hidraw0"] [] "") ["--json"] []).trace =
      [.deviceLocations, .newDevice "/dev/hidraw0"] :=
  ((getDeviceWithArgs_no_selector (exampleWorld [exampleLoc "/dev/hidraw0"] [] "") ["--json"]
    [exampleLoc "/dev/hidraw0"] [] (by decide) (by decide) rfl).1
      (exampleLoc "/dev/hidraw0") rfl).1

end Fit

/-! ### Missing required flags -/

namespace Fit

/-- C10. For every argument list, world and state of the random source: `auth` and
`add-passkey` (both programs) without a `--rp` value, `set-pin` without a `--new` value and
`delete-passkey` without a `--cred-id-hex` value, a `--cred-id-b64` value or an integer
`--cred-index` print their usage line and return normally; the usage line is the only event
(no enumeration, no device or window, no binding call) and the random source is untouched. -/
theorem missing_flag_prints_usage (w : World) (hw : FitHello.World) (args : List String)
    (r : List Go.Byte) :
    (getStringFlag args "--rp" = "" →
      cmdAuth w args r = ⟨.ok (), [.println "Usage: auth --rp RP_ID [--pin PIN] [--cred-id-hex HEX|--cred-index N] [--create] [--device N|--path PATH]"], r⟩ ∧
      cmdAddPasskey w args r = ⟨.ok (), [.println "Usage: add-passkey --rp RP_ID [--user USER] [--display NAME] [--resident|--no-resident] [--pin PIN] [--device N|--path PATH]"], r⟩) ∧
    (getStringFlag args "--new" = "" →
      cmdSetPIN w args r = ⟨.ok (), [.println "Usage: set-pin --new NEW [--old OLD] [--device N|--path PATH]"], r⟩) ∧
    (FitHello.getString args "--rp" = "" →
      FitHello.cmdAuth hw args r = ⟨.ok (), [.println "Usage: auth --rp RP [--cred-id-hex HEX|--cred-id-b64 B64URL|--cred-index N|--device]"], r⟩ ∧
      FitHello.cmdAddPasskey hw args r = ⟨.ok (), [.println "Usage: add-passkey --rp RP [--user USER] [--display NAME] [--device] [--resident|--no-resident]"], r⟩) ∧
    (FitHello.getString args "--cred-id-hex" = "" → FitHello.getString args "--cred-id-b64" = "" →
      (FitHello.getInt args "--cred-index").2 = false →
      FitHello.cmdDeletePasskey hw args r = ⟨.ok (), [.println "Usage: delete-passkey [--rp RP] (--cred-id-hex HEX|--cred-id-b64 B64URL|--cred-index N)"], r⟩) := by
  refine ⟨fun h => ⟨?_, ?_⟩, fun h => ?_, fun h => ⟨?_, ?_⟩, fun h1 h2 h3 => ?_⟩
  · simp [cmdAuth, h, println, Prog.emit]
  · simp [cmdAddPasskey, h, println, Prog.emit]
  · simp [cmdSetPIN, h, println, Prog.emit]
  · simp [FitHello.cmdAuth, h, FitHello.println, Prog.emit]
  · simp [FitHello.cmdAddPasskey, h, FitHello.println, Prog.emit]
  · rcases hi : FitHello.getInt args "--cred-index" with ⟨i, b⟩
    rw [hi] at h3
    simp only at h3
    subst h3
    simp [FitHello.cmdDeletePasskey, FitHello.cmdDeletePasskey.determineCredential, h1, h2, hi,
      FitHello.println, Prog.emit, Prog.bind_eq, Prog.andThen, Prog.pure_eq, Prog.ret]

/-- C10, on the arguments `--json --rp` (the flag is there, its value is not): the hardware
`auth` and the Hello `delete-passkey` print their usage and return. -/
theorem missing_flag_prints_usage_witness :
    cmdAuth (exampleWorld [exampleLoc "/dev/hidraw0"] [] "") ["--json", "--rp"] [] =
      ⟨.ok (), [.println "Usage: auth --rp RP_ID [--pin PIN] [--cred-id-hex HEX|--cred-index N] [--create] [--device N|--path PATH]"], []⟩ ∧
    FitHello.cmdDeletePasskey (FitHello.exampleWorld []) ["--json", "--rp"] [] =
      ⟨.ok (), [.println "Usage: delete-passkey [--rp RP] (--cred-id-hex HEX|--cred-id-b64 B64URL|--cred-index N)"], []⟩ :=
  ⟨((missing_flag_prints_usage (exampleWorld [exampleLoc "/dev/hidraw0"] [] "")
      (FitHello.exampleWorld []) ["--json", "--rp"] []).1 (by decide)).1,
    (missing_flag_prints_usage (exampleWorld [exampleLoc "/dev/hidraw0"] [] "")
      (FitHello.exampleWorld []) ["--json", "--rp"] []).2.2.2 (by decide) (by decide)
      (by decide)⟩

end Fit

/-! ### Events of a run -/

namespace Prog

variable {ε α β : Type}

theorem traceAll_ret (P : ε → Prop) (a : α) : TraceAll P (Prog.ret a : Prog ε α) := by
  intro r; simp [Prog.ret]

theorem traceAll_pure (P : ε → Prop) (a : α) : TraceAll P (pure a : Prog ε α) :=
  traceAll_ret P a

theorem traceAll_fatalf (P : ε → Prop) (f : String) (a : List FVal) :
    TraceAll P (Prog.fatalf f a : Prog ε α) := by
  intro r; simp [Prog.fatalf]

theorem traceAll_panic (P : ε → Prop) (m : String) : TraceAll P (Prog.panic m : Prog ε α) := by
  intro r; simp [Prog.panic]

theorem traceAll_readFull (P : ε → Prop) (n : Nat) : TraceAll P (Prog.readFull n : Prog ε _) := by
  intro r; unfold Prog.readFull; split <;> simp

theorem traceAll_emit (P : ε → Prop) (e : ε) (h : P e) : TraceAll P (Prog.emit e) := by
  intro r; simp [Prog.emit, h]

theorem traceAll_andThen {P : ε → Prop} {p : Prog ε α} {f : α → Prog ε β} (hp : TraceAll P p)
    (hf : ∀ a, TraceAll P (f a)) : TraceAll P (Prog.andThen p f) := by
  intro r
  have h2 := hp r
  unfold Prog.andThen
  rcases hpr : p r with ⟨res, t, r1⟩
  rw [hpr] at h2
  simp only at h2
  cases res with
  | error e => exact h2
  | ok a =>
    intro e he
    rcases List.mem_append.mp he with h | h
    · exact h2 e h
    · exact hf a r1 e h

theorem traceAll_bind {P : ε → Prop} {p : Prog ε α} {f : α → Prog ε β} (hp : TraceAll P p)
    (hf : ∀ a, TraceAll P (f a)) : TraceAll P (p >>= f) :=
  traceAll_andThen hp hf

theorem filterMap_eq_nil_of_all {γ : Type} (f : ε → Option γ) (l : List ε)
    (h : ∀ e ∈ l, f e = none) : l.filterMap f = [] := by
  induction l with
  | nil => rfl
  | cons a t ih =>
    simp [List.filterMap_cons, h a (by simp), ih (fun e he => h e (by simp [he]))]

end Prog

/-! ### Determining the credential -/

namespace FitHello

theorem credentialList_ok (w : World) (rp : String) (list : List Winhello.CredentialDetails)
    (r : List Go.Byte) (h : w.platformCredentialList rp false = .ok list) :
    credentialList w rp r = ⟨.ok list, [.platformCredentialList rp false], r⟩ := by
  simp [credentialList, h, Prog.bind_eq, Prog.andThen, Prog.emit, Prog.pure_eq, Prog.ret]

theorem credentialAt_in (list : List Winhello.CredentialDetails) (idx : Int) (r : List Go.Byte)
    (h0 : 0 ≤ idx) (h1 : idx < list.length) :
    ∃ c, list[idx.toNat]? = some c ∧ credentialAt list idx r = ⟨.ok c.credentialID, [], r⟩ := by
  have hlt : idx.toNat < list.length := by omega
  have hr : ¬ (idx < 0 ∨ idx ≥ (list.length : Int)) := by omega
  refine ⟨list[idx.toNat], by simp, ?_⟩
  simp [credentialAt, hr, Prog.pure_eq, Prog.ret, hlt]

theorem credentialAt_out (list : List Winhello.CredentialDetails) (idx : Int) (r : List Go.Byte)
    (h : idx < 0 ∨ (list.length : Int) ≤ idx) :
    credentialAt list idx r =
      ⟨.error (.fatal "--cred-index out of range (have %d)" [.int list.length]), [], r⟩ := by
  have hr : (idx < 0 ∨ idx ≥ (list.length : Int)) := by omega
  simp [credentialAt, hr, Prog.fatalf]

theorem determine_hex (w : World) (args : List String) (rp : String) (r : List Go.Byte)
    (h : getString args "--cred-id-hex" ≠ "") :
    cmdAuth.determineCredential w args rp r =
      match Hex.decodeString (Strings.trimSpace (getString args "--cred-id-hex")) with
      | none => ⟨.error (.fatal "--cred-id-hex: %v" [.hexErr]), [], r⟩
      | some b => ⟨.ok (some b), [], r⟩ := by
  unfold cmdAuth.determineCredential
  rw [if_pos h]
  cases Hex.decodeString (Strings.trimSpace (getString args "--cred-id-hex")) <;>
    simp [Prog.fatalf, Prog.pure_eq, Prog.ret]

theorem delete_determine_hex (w : World) (args : List String) (r : List Go.Byte)
    (h : getString args "--cred-id-hex" ≠ "") :
    cmdDeletePasskey.determineCredential w args r =
      match Hex.decodeString (Strings.trimSpace (getString args "--cred-id-hex")) with
      | none => ⟨.error (.fatal "--cred-id-hex: %v" [.hexErr]), [], r⟩
      | some b => ⟨.ok (some b), [], r⟩ := by
  unfold cmdDeletePasskey.determineCredential
  simp only [if_pos h]
  cases Hex.decodeString (Strings.trimSpace (getString args "--cred-id-hex")) <;>
    simp [Prog.fatalf, Prog.pure_eq, Prog.ret]

end FitHello

namespace Fit

theorem randBytes_noCall (P : Event → Prop) (n : Nat) (h : P (.randBytes n)) :
    Prog.TraceAll P (randBytes n) := by
  unfold randBytes
  refine Prog.traceAll_bind (Prog.traceAll_emit _ _ h) fun _ => ?_
  refine Prog.traceAll_bind (Prog.traceAll_readFull _ _) fun o => ?_
  cases o
  · exact Prog.traceAll_panic _ _
  · exact Prog.traceAll_pure _ _

theorem pick_noAssert (creds : List Libfido2.Credential) (pick : Int) :
    Prog.TraceAll (fun e => e.assertionIDs = none)
      (if pick < 0 ∨ pick ≥ creds.length then
        (Prog.fatalf "--cred-index out of range (have %d)" [.int creds.length] :
          Cmd (Option Go.Bytes))
      else
        match creds[pick.toNat]? with
        | none => Prog.panic "index out of range"
        | some cred => do
          printf "Using resident credential index %d (len=%d)\n"
            [.int pick, .int cred.id.length]
          pure (some cred.id)) := by
  split
  · exact Prog.traceAll_fatalf _ _ _
  · split
    · exact Prog.traceAll_panic _ _
    · exact Prog.traceAll_bind (Prog.traceAll_emit _ _ rfl) fun _ => Prog.traceAll_pure _ _

theorem determine_noAssert (w : World) (args : List String) (dev : Libfido2.Device)
    (rpID pin : String) :
    Prog.TraceAll (fun e => e.assertionIDs = none)
      (cmdAuth.determineCredential w args dev rpID pin) := by
  unfold cmdAuth.determineCredential
  rcases getIntFlag args "--cred-index" with ⟨i, b⟩
  simp only
  split
  · split
    · exact Prog.traceAll_fatalf _ _ _
    · exact Prog.traceAll_pure _ _
  · split
    · split
      · exact Prog.traceAll_bind (Prog.traceAll_emit _ _ rfl) fun _ => Prog.traceAll_pure _ _
      · refine Prog.traceAll_bind (randBytes_noCall _ _ rfl) fun cdh => ?_
        refine Prog.traceAll_bind (randBytes_noCall _ _ rfl) fun uid => ?_
        refine Prog.traceAll_bind (Prog.traceAll_emit _ _ rfl) fun _ => ?_
        split
        · exact Prog.traceAll_fatalf _ _ _
        · exact Prog.traceAll_bind (Prog.traceAll_emit _ _ rfl) fun _ => Prog.traceAll_pure _ _
    · refine Prog.traceAll_bind (Prog.traceAll_emit _ _ rfl) fun _ => ?_
      split
      · exact Prog.traceAll_fatalf _ _ _
      · split
        · exact Prog.traceAll_bind (Prog.traceAll_emit _ _ rfl) fun _ => Prog.traceAll_pure _ _
        · exact pick_noAssert _ _

theorem assert_ids (w : World) (args : List String) (dev : Libfido2.Device)
    (rpID pin : String) (credID : Go.Bytes) (r : List Go.Byte) :
    ((cmdAuth.assert w args dev rpID pin credID r).trace.filterMap Event.assertionIDs = [] ∧
      r.length < 32) ∨
    ((cmdAuth.assert w args dev rpID pin credID r).trace.filterMap Event.assertionIDs =
      [[credID]] ∧ 32 ≤ r.length) := by
  by_cases hr : 32 ≤ r.length
  · right
    refine ⟨?_, hr⟩
    cases ha : w.assertion dev rpID (List.take 32 r) [credID] pin with
    | error e =>
      simp [cmdAuth.assert, randBytes, Prog.readFull, hr, Prog.bind_eq, Prog.andThen, Prog.emit,
        Prog.pure_eq, Prog.ret, ha, Prog.fatalf, Event.assertionIDs]
    | ok a =>
      cases hj : hasFlag args "--json"
      · by_cases h1 : a.hmacSecret.length > 0 <;> by_cases h2 : a.authDataCBOR.length > 0 <;>
        simp [cmdAuth.assert, randBytes, Prog.readFull, hr, Prog.bind_eq, Prog.andThen,
          Prog.emit, Prog.pure_eq, Prog.ret, ha, Prog.fatalf, Event.assertionIDs, hj, writeJSON,
          println, printf, h1, h2]
      · simp [cmdAuth.assert, randBytes, Prog.readFull, hr, Prog.bind_eq, Prog.andThen,
          Prog.emit, Prog.pure_eq, Prog.ret, ha, Prog.fatalf, Event.assertionIDs, hj, writeJSON,
          println, printf]
  · left
    refine ⟨?_, by omega⟩
    simp [cmdAuth.assert, randBytes, Prog.readFull, hr, Prog.bind_eq, Prog.andThen, Prog.emit,
      Prog.pure_eq, Prog.ret, Prog.fatalf, Event.assertionIDs, Prog.panic]

end Fit

/-! ### Claims about the credential identifier -/

namespace FitHello

/-- C2. For every argument list whose `--cred-id-hex` value `H` is a non-empty valid
hexadecimal string with decoding `b`, whatever else the list holds (a `--cred-id-b64` value in
particular, valid or not): the identifier determined by `auth` and by `delete-passkey` is `b`,
determined without any event (no enumeration, no diagnostic of a base64 decoding); when
`auth` reaches its call (`--rp` given, window created, 32 random bytes available) the only
get-assertion call carries the allow list `[b]`, and the only delete call of `delete-passkey`
carries `b`. -/
theorem hex_before_base64 (w : World) (args : List String) (r : List Go.Byte) (H : String)
    (b : Go.Bytes) (hH : getString args "--cred-id-hex" = H) (hne : H ≠ "")
    (hdec : Hex.decodeString H = some b) :
    (∀ rp, cmdAuth.determineCredential w args rp r = ⟨.ok (some b), [], r⟩) ∧
    cmdDeletePasskey.determineCredential w args r = ⟨.ok (some b), [], r⟩ ∧
    (∀ wnd, getString args "--rp" ≠ "" → w.hiddenWindowNew "fit-hello" = .ok wnd →
      32 ≤ r.length →
      (cmdAuth w args r).trace.filterMap Event.allowList =
        [[⟨Winhello.PublicKeyCredentialTypePublicKey, b⟩]]) ∧
    (cmdDeletePasskey w args r).trace.filterMap Event.deletedID = [b] := by
  have hne2 : getString args "--cred-id-hex" ≠ "" := by rw [hH]; exact hne
  have htrim : Strings.trimSpace H = H := Strings.trimSpace_of_hex H b hdec
  have hb : b ≠ [] := Hex.decodeList_ne_nil _ _ hdec (fun h => hne (by
    cases H; simp_all))
  have h1 : ∀ rp, cmdAuth.determineCredential w args rp r = ⟨.ok (some b), [], r⟩ := by
    intro rp
    rw [determine_hex w args rp r hne2, hH, htrim, hdec]
  have h2 : cmdDeletePasskey.determineCredential w args r = ⟨.ok (some b), [], r⟩ := by
    rw [delete_determine_hex w args r hne2, hH, htrim, hdec]
  refine ⟨h1, h2, ?_, ?_⟩
  · intro wnd hrp hwnd hr
    have hlen : 0 < b.length := List.length_pos.mpr hb
    cases hga : w.getAssertion wnd.handle (getString args "--rp")
        (clientData "webauthn.get" (getString args "--rp") (List.take 32 r))
        [⟨Winhello.PublicKeyCredentialTypePublicKey, b⟩]
        ⟨helloAttachment args, helloCredentialHints args, 30, false⟩ with
    | error e =>
      simp [cmdAuth, hrp, getHelloWindow, hwnd, Prog.bind_eq, Prog.andThen, Prog.emit,
        Prog.pure_eq, Prog.ret, Prog.withDefer, h1, cmdAuth.assert, Chal.Bytes, Prog.readFull, hr,
        hlen, hga, Prog.fatalf, Event.allowList]
    | ok asrt =>
      cases hj : has args "--json" <;>
      simp [cmdAuth, hrp, getHelloWindow, hwnd, Prog.bind_eq, Prog.andThen, Prog.emit,
        Prog.pure_eq, Prog.ret, Prog.withDefer, h1, cmdAuth.assert, Chal.Bytes, Prog.readFull, hr,
        hlen, hga, Prog.fatalf, Event.allowList, hj, closeWnd, writeJSON, println, printf]
  · cases hd : w.deletePlatformCredential b with
    | some e =>
      simp [cmdDeletePasskey, h2, Prog.bind_eq, Prog.andThen, Prog.emit, hd, Prog.fatalf,
        Event.deletedID]
    | none =>
      cases hj : has args "--json" <;>
      simp [cmdDeletePasskey, h2, Prog.bind_eq, Prog.andThen, Prog.emit, hd, Prog.fatalf,
        Event.deletedID, hj, writeJSON, println]

/-- C2, on `--cred-id-hex 0102 --cred-id-b64 AQI`: the identifier is the bytes 1, 2. -/
theorem hex_before_base64_witness :
    cmdAuth.determineCredential (exampleWorld [])
      ["--rp", "example.com", "--cred-id-hex", "0102", "--cred-id-b64", "AQI"] "example.com"
      [] = ⟨.ok (some [1, 2]), [], []⟩ :=
  (hex_before_base64 (exampleWorld [])
    ["--rp", "example.com", "--cred-id-hex", "0102", "--cred-id-b64", "AQI"] [] "0102" [1, 2]
    (by decide) (by decide) (by decide)).1 "example.com"

end FitHello

/-! ### The calls of a run -/

namespace Prog

variable {ε α β γ : Type}

theorem filterMap_andThen_ok (f : ε → Option γ) {p : Prog ε α} {k : α → Prog ε β}
    {r r1 : List Go.Byte} {a : α} {t : List ε} (h : p r = ⟨.ok a, t, r1⟩) :
    (Prog.andThen p k r).trace.filterMap f = t.filterMap f ++ (k a r1).trace.filterMap f := by
  simp [Prog.andThen, h]

theorem filterMap_andThen_error (f : ε → Option γ) {p : Prog ε α} {k : α → Prog ε β}
    {r r1 : List Go.Byte} {e : Exit} {t : List ε} (h : p r = ⟨.error e, t, r1⟩) :
    (Prog.andThen p k r).trace.filterMap f = t.filterMap f := by
  simp [Prog.andThen, h]

theorem filterMap_withDefer (f : ε → Option γ) (c : Prog ε Unit) (body : Prog ε α)
    (hc : TraceAll (fun e => f e = none) c) (r : List Go.Byte) :
    (Prog.withDefer c body r).trace.filterMap f = (body r).trace.filterMap f := by
  unfold Prog.withDefer
  rcases hb : body r with ⟨res, t, r1⟩
  have hnil : (c r1).trace.filterMap f = [] := filterMap_eq_nil_of_all f _ (hc r1)
  rcases hcr : c r1 with ⟨cres, t2, r2⟩
  rw [hcr] at hnil
  simp only at hnil
  cases res with
  | ok a => cases cres <;> simp [hcr, hnil]
  | error e => cases e <;> simp [hcr, hnil]

end Prog

namespace FitHello

theorem credentialList_noAllow (w : World) (rp : String) :
    Prog.TraceAll (fun e => e.allowList = none) (credentialList w rp) := by
  unfold credentialList
  refine Prog.traceAll_bind (Prog.traceAll_emit _ _ rfl) fun _ => ?_
  split
  · exact Prog.traceAll_fatalf _ _ _
  · exact Prog.traceAll_pure _ _

theorem credentialAt_noAllow (list : List Winhello.CredentialDetails) (idx : Int) :
    Prog.TraceAll (fun e => e.allowList = none) (credentialAt list idx) := by
  unfold credentialAt
  split
  · exact Prog.traceAll_fatalf _ _ _
  · split
    · exact Prog.traceAll_panic _ _
    · exact Prog.traceAll_pure _ _

theorem determine_noAllow (w : World) (args : List String) (rp : String) :
    Prog.TraceAll (fun e => e.allowList = none) (cmdAuth.determineCredential w args rp) := by
  unfold cmdAuth.determineCredential
  split
  · split
    · exact Prog.traceAll_fatalf _ _ _
    · exact Prog.traceAll_pure _ _
  · split
    · split
      · exact Prog.traceAll_fatalf _ _ _
      · exact Prog.traceAll_pure _ _
    · split
      · refine Prog.traceAll_bind (credentialList_noAllow _ _) fun l => ?_
        exact Prog.traceAll_bind (credentialAt_noAllow _ _) fun _ => Prog.traceAll_pure _ _
      · split
        · exact Prog.traceAll_pure _ _
        · refine Prog.traceAll_bind (credentialList_noAllow _ _) fun l => ?_
          cases l with
          | nil => exact Prog.traceAll_bind (Prog.traceAll_emit _ _ rfl) fun _ =>
              Prog.traceAll_pure _ _
          | cons c tl => exact Prog.traceAll_bind (Prog.traceAll_emit _ _ rfl) fun _ =>
              Prog.traceAll_pure _ _

theorem assert_allow (w : World) (args : List String) (wnd : Winhello.HiddenWindow)
    (rp : String) (credID : Go.Bytes) (r : List Go.Byte) :
    (cmdAuth.assert w args wnd rp credID r).trace.filterMap Event.allowList = [] ∨
    (cmdAuth.assert w args wnd rp credID r).trace.filterMap Event.allowList =
      [if credID.length > 0 then [⟨Winhello.PublicKeyCredentialTypePublicKey, credID⟩]
        else []] := by
  by_cases hr : 32 ≤ r.length
  · right
    cases ha : w.getAssertion wnd.handle rp (clientData "webauthn.get" rp (List.take 32 r))
        (if credID.length > 0 then [⟨Winhello.PublicKeyCredentialTypePublicKey, credID⟩]
          else [])
        ⟨helloAttachment args, helloCredentialHints args, 30, false⟩ with
    | error e =>
      simp [cmdAuth.assert, Chal.Bytes, Prog.readFull, hr, Prog.bind_eq, Prog.andThen,
        Prog.emit, Prog.pure_eq, Prog.ret, ha, Prog.fatalf, Event.allowList]
    | ok a =>
      cases hj : has args "--json" <;>
      simp [cmdAuth.assert, Chal.Bytes, Prog.readFull, hr, Prog.bind_eq, Prog.andThen,
        Prog.emit, Prog.pure_eq, Prog.ret, ha, Prog.fatalf, Event.allowList, hj, writeJSON,
        println, printf]
  · left
    simp [cmdAuth.assert, Chal.Bytes, Prog.readFull, hr, Prog.bind_eq, Prog.andThen, Prog.emit,
      Prog.pure_eq, Prog.ret, Prog.fatalf, Event.allowList, Prog.panic]

theorem cmdAuth_allow (w : World) (args : List String) (r : List Go.Byte) :
    (cmdAuth w args r).trace.filterMap Event.allowList = [] ∨
    ∃ credID t2 r2, cmdAuth.determineCredential w args (getString args "--rp") r =
        ⟨.ok (some credID), t2, r2⟩ ∧
      (cmdAuth w args r).trace.filterMap Event.allowList =
        [if credID.length > 0 then [⟨Winhello.PublicKeyCredentialTypePublicKey, credID⟩]
          else []] := by
  by_cases hrp : getString args "--rp" = ""
  · left
    simp [cmdAuth, hrp, println, Prog.emit, Event.allowList]
  · cases hwnd : w.hiddenWindowNew "fit-hello" with
    | error e =>
      left
      simp [cmdAuth, hrp, getHelloWindow, hwnd, Prog.bind_eq, Prog.andThen, Prog.emit,
        Prog.fatalf, Event.allowList]
    | ok wnd =>
      have hw : getHelloWindow w r = ⟨.ok wnd, [.hiddenWindowNew "fit-hello"], r⟩ := by
        simp [getHelloWindow, hwnd, Prog.bind_eq, Prog.andThen, Prog.emit, Prog.pure_eq, Prog.ret]
      have hclose : Prog.TraceAll (fun e => e.allowList = none) (closeWnd wnd) :=
        Prog.traceAll_emit _ _ rfl
      have hcmd : (cmdAuth w args r).trace.filterMap Event.allowList =
          ((cmdAuth.determineCredential w args (getString args "--rp") >>= fun c =>
            match c with
            | none => pure ()
            | some credID => cmdAuth.assert w args wnd (getString args "--rp") credID) r
            ).trace.filterMap Event.allowList := by
        unfold cmdAuth
        simp only [hrp, if_false, Prog.bind_eq]
        rw [Prog.filterMap_andThen_ok _ hw, Prog.filterMap_withDefer _ _ _ hclose]
        simp only [List.filterMap_cons, Event.allowList, List.filterMap_nil, List.nil_append]
      rw [hcmd, Prog.bind_eq]
      have hnil := Prog.filterMap_eq_nil_of_all Event.allowList _
        (determine_noAllow w args (getString args "--rp") r)
      rcases hd : cmdAuth.determineCredential w args (getString args "--rp") r with
        ⟨res, t2, r2⟩
      rw [hd] at hnil
      simp only at hnil
      cases res with
      | error e =>
        left
        rw [Prog.filterMap_andThen_error _ hd, hnil]
      | ok c =>
        rw [Prog.filterMap_andThen_ok _ hd, hnil]
        cases c with
        | none => left; simp [Prog.pure_eq, Prog.ret]
        | some credID =>
          rcases assert_allow w args wnd (getString args "--rp") credID r2 with h | h
          · left; simpa using h
          · right; exact ⟨credID, t2, r2, rfl, by simpa using h⟩

theorem getInt_at (pre post : List String) (name v : String) (h : name ∉ pre) :
    getInt (pre ++ name :: v :: post) name =
      match Strconv.atoi v with
      | some n => (n, true)
      | none => (0, false) := by
  induction pre with
  | nil =>
    rw [List.nil_append, getInt]
    cases Strconv.atoi v <;> simp
  | cons a rest ih =>
    have ha : a ≠ name := fun e => h (by simp [e])
    have hr : name ∉ rest := fun e => h (by simp [e])
    cases hrest : rest ++ name :: v :: post with
    | nil => simp at hrest
    | cons b tl =>
      rw [List.cons_append, hrest, getInt]
      simp only [ha, if_false]
      rw [← hrest]
      exact ih hr

end FitHello

namespace Fit

theorem getIntFlag_at (pre post : List String) (name v : String) (h : name ∉ pre) :
    getIntFlag (pre ++ name :: v :: post) name =
      match Strconv.atoi v with
      | some n => (n, true)
      | none => (0, false) := by
  induction pre with
  | nil =>
    rw [List.nil_append, getIntFlag]
    cases Strconv.atoi v <;> simp
  | cons a rest ih =>
    have ha : a ≠ name := fun e => h (by simp [e])
    have hr : name ∉ rest := fun e => h (by simp [e])
    cases hrest : rest ++ name :: v :: post with
    | nil => simp at hrest
    | cons b tl =>
      rw [List.cons_append, hrest, getIntFlag]
      simp only [ha, if_false]
      rw [← hrest]
      exact ih hr

theorem cmdAuth_ids (w : World) (args : List String) (r : List Go.Byte) :
    (cmdAuth w args r).trace.filterMap Event.assertionIDs = [] ∨
    ∃ dev t r1 credID t2 r2, getDeviceWithArgs w args r = ⟨.ok (some dev), t, r1⟩ ∧
      cmdAuth.determineCredential w args dev (getStringFlag args "--rp")
        (getStringFlag args "--pin") r1 = ⟨.ok (some credID), t2, r2⟩ ∧
      (cmdAuth w args r).trace.filterMap Event.assertionIDs = [[credID]] := by
  by_cases hrp : getStringFlag args "--rp" = ""
  · left
    simp [cmdAuth, hrp, println, Prog.emit, Event.assertionIDs]
  · have hsel : ∀ e ∈ (getDeviceWithArgs w args r).trace, e.assertionIDs = none := by
      intro e he
      have := (quiet_getDeviceWithArgs w args r).2 e he
      cases e <;> simp_all [Event.isSelection, Event.assertionIDs]
    have hnil := Prog.filterMap_eq_nil_of_all Event.assertionIDs _ hsel
    unfold cmdAuth
    simp only [hrp, if_false, Prog.bind_eq]
    rcases hg : getDeviceWithArgs w args r with ⟨res, t, r1⟩
    rw [hg] at hnil
    simp only at hnil
    cases res with
    | error e => left; rw [Prog.filterMap_andThen_error _ hg, hnil]
    | ok d =>
      rw [Prog.filterMap_andThen_ok _ hg, hnil]
      cases d with
      | none => left; simp [Prog.pure_eq, Prog.ret]
      | some dev =>
        have hnil2 := Prog.filterMap_eq_nil_of_all Event.assertionIDs _
          (determine_noAssert w args dev (getStringFlag args "--rp")
            (getStringFlag args "--pin") r1)
        rcases hd : cmdAuth.determineCredential w args dev (getStringFlag args "--rp")
          (getStringFlag args "--pin") r1 with ⟨res2, t2, r2⟩
        rw [hd] at hnil2
        simp only at hnil2
        simp only [List.nil_append]
        cases res2 with
        | error e => left; rw [Prog.filterMap_andThen_error _ hd, hnil2]
        | ok c =>
          rw [Prog.filterMap_andThen_ok _ hd, hnil2]
          cases c with
          | none => left; simp [Prog.pure_eq, Prog.ret]
          | some credID =>
            rcases assert_ids w args dev (getStringFlag args "--rp")
              (getStringFlag args "--pin") credID r2 with h | h
            · left; simpa using h.1
            · right; exact ⟨dev, t, r1, credID, t2, r2, rfl, hd, by simpa using h.1⟩

end Fit

/-! ### Claims about the credential index, the empty enumeration and invalid values -/

namespace Fit

/-- C1, as the code has it. Let `--cred-index` be the selector in effect with integer value `i`
(no `--cred-id-hex` or `--cred-id-b64` value; in the hardware program also no `--create`, and
a device has been selected) and let the enumeration succeed with a list of length `L`.
If `0 ≤ i < L`, the identifier determined by `auth` (both programs) and by `delete-passkey` is
the identifier of entry `i`.  If `i < 0` or `i ≥ L`, the Hello `auth` and `delete-passkey` end
with the fatal diagnostic `--cred-index out of range` right after the enumeration, and so does
the hardware `auth` when `L ≥ 1`; the hardware `auth` with `L = 0` instead prints
`No resident credentials found for RP.` and returns normally.  In every one of these cases no
get-assertion, make-credential or delete call is issued. -/
theorem cred_index_selects_entry (w : World) (hw : FitHello.World) (args : List String)
    (r : List Go.Byte) (i : Int) :
    (∀ rp list, FitHello.getString args "--cred-id-hex" = "" →
      FitHello.getString args "--cred-id-b64" = "" →
      FitHello.getInt args "--cred-index" = (i, true) →
      hw.platformCredentialList rp false = .ok list →
      (0 ≤ i ∧ i < list.length → ∃ c, list[i.toNat]? = some c ∧
        FitHello.cmdAuth.determineCredential hw args rp r =
          ⟨.ok (some c.credentialID), [.platformCredentialList rp false], r⟩ ∧
        (rp = FitHello.getString args "--rp" →
          FitHello.cmdDeletePasskey.determineCredential hw args r =
            ⟨.ok (some c.credentialID), [.platformCredentialList rp false], r⟩)) ∧
      (i < 0 ∨ (list.length : Int) ≤ i →
        (∀ wnd, rp = FitHello.getString args "--rp" → rp ≠ "" →
          hw.hiddenWindowNew "fit-hello" = .ok wnd →
          FitHello.cmdAuth hw args r =
            ⟨.error (.fatal "--cred-index out of range (have %d)" [.int list.length]),
              [.hiddenWindowNew "fit-hello", .platformCredentialList rp false], r⟩) ∧
        (rp = FitHello.getString args "--rp" →
          FitHello.cmdDeletePasskey hw args r =
            ⟨.error (.fatal "--cred-index out of range (have %d)" [.int list.length]),
              [.platformCredentialList rp false], r⟩))) ∧
    (∀ dev t r1 creds, getStringFlag args "--rp" ≠ "" →
      getStringFlag args "--cred-id-hex" = "" → hasFlag args "--create" = false →
      getIntFlag args "--cred-index" = (i, true) →
      getDeviceWithArgs w args r = ⟨.ok (some dev), t, r1⟩ →
      w.credentials dev (getStringFlag args "--rp") (getStringFlag args "--pin") = .ok creds →
      (∀ e ∈ t, e.isSelection = true) ∧
      (0 ≤ i ∧ i < creds.length → ∃ c, creds[i.toNat]? = some c ∧
        cmdAuth.determineCredential w args dev (getStringFlag args "--rp")
          (getStringFlag args "--pin") r1 = ⟨.ok (some c.id),
            [.credentials dev (getStringFlag args "--rp") (getStringFlag args "--pin"),
              .printf "Using resident credential index %d (len=%d)\n"
                [.int i, .int c.id.length]], r1⟩) ∧
      ((i < 0 ∨ (creds.length : Int) ≤ i) ∧ creds ≠ [] →
        cmdAuth w args r =
          ⟨.error (.fatal "--cred-index out of range (have %d)" [.int creds.length]),
            t ++ [.credentials dev (getStringFlag args "--rp") (getStringFlag args "--pin")],
            r1⟩) ∧
      (creds = [] →
        cmdAuth w args r = ⟨.ok (),
          t ++ [.credentials dev (getStringFlag args "--rp") (getStringFlag args "--pin"),
            .println "No resident credentials found for RP."], r1⟩)) := by
  constructor
  · intro rp list hhex hb64 hidx hlist
    have hl := FitHello.credentialList_ok hw rp list r hlist
    constructor
    · rintro ⟨h0, h1⟩
      obtain ⟨c, hc, hat⟩ := FitHello.credentialAt_in list i r h0 h1
      refine ⟨c, hc, ?_, ?_⟩
      · simp [FitHello.cmdAuth.determineCredential, hhex, hb64, hidx, Prog.bind_eq,
          Prog.andThen, hl, hat, Prog.pure_eq, Prog.ret]
      · intro hrp
        subst hrp
        simp [FitHello.cmdDeletePasskey.determineCredential, hhex, hb64, hidx, Prog.bind_eq,
          Prog.andThen, hl, hat, Prog.pure_eq, Prog.ret]
    · intro hout
      have hat := FitHello.credentialAt_out list i r hout
      constructor
      · intro wnd hrp hne hwnd
        subst hrp
        simp [FitHello.cmdAuth, hne, FitHello.getHelloWindow, hwnd, Prog.bind_eq, Prog.andThen,
          Prog.emit, Prog.pure_eq, Prog.ret, Prog.withDefer,
          FitHello.cmdAuth.determineCredential, hhex, hb64, hidx, hl, hat]
      · intro hrp
        subst hrp
        simp [FitHello.cmdDeletePasskey, FitHello.cmdDeletePasskey.determineCredential, hhex,
          hb64, hidx, Prog.bind_eq, Prog.andThen, hl, hat, Prog.pure_eq, Prog.ret]
  · intro dev t r1 creds hrp hhex hcreate hidx hdev hcreds
    have hq := quiet_getDeviceWithArgs w args r
    rw [hdev] at hq
    refine ⟨hq.2, ?_, ?_, ?_⟩
    · rintro ⟨h0, h1⟩
      have hlt : i.toNat < creds.length := by omega
      have hr : ¬ (i < 0 ∨ i ≥ (creds.length : Int)) := by omega
      have hl : creds.length ≠ 0 := by omega
      refine ⟨creds[i.toNat], by simp, ?_⟩
      simp [cmdAuth.determineCredential, hhex, hcreate, hidx, hcreds, hl, hr, hlt, Prog.bind_eq,
        Prog.andThen, Prog.emit, Prog.pure_eq, Prog.ret, printf]
    · rintro ⟨hout, hne⟩
      have hr : (i < 0 ∨ i ≥ (creds.length : Int)) := by omega
      have hl : creds.length ≠ 0 := by simpa using hne
      simp [cmdAuth, hrp, hdev, cmdAuth.determineCredential, hhex, hcreate, hidx, hcreds, hne, hr,
        Prog.bind_eq, Prog.andThen, Prog.emit, Prog.pure_eq, Prog.ret, Prog.fatalf]
    · intro hnil
      subst hnil
      simp [cmdAuth, hrp, hdev, cmdAuth.determineCredential, hhex, hcreate, hidx, hcreds,
        Prog.bind_eq, Prog.andThen, Prog.emit, Prog.pure_eq, Prog.ret, println]

/-- C1, on the hardware `auth --rp example.com --cred-index 5` with one resident credential:
fatal after the enumeration of the credentials. -/
theorem cred_index_selects_entry_witness :
    cmdAuth (exampleWorld [exampleLoc "/dev/hidraw0"] [⟨[1, 2]⟩] "")
      ["--rp", "example.com", "--cred-index", "5"] [] =
      ⟨.error (.fatal "--cred-index out of range (have %d)" [.int 1]),
        [.deviceLocations, .newDevice "/dev/hidraw0", .credentials ⟨1⟩ "example.com" ""], []⟩ :=
  ((cred_index_selects_entry (exampleWorld [exampleLoc "/dev/hidraw0"] [⟨[1, 2]⟩] "")
    (FitHello.exampleWorld []) ["--rp", "example.com", "--cred-index", "5"] [] 5).2 ⟨1⟩
    [.deviceLocations, .newDevice "/dev/hidraw0"] [] [⟨[1, 2]⟩] (by decide) (by decide)
    (by decide) (by decide) rfl rfl).2.2.1 ⟨Or.inr (by decide), by simp⟩

/-- C1 fails as stated: the hardware `auth --rp example.com --cred-index 0` on a key without
resident credentials (index 0 is not below the length 0) is not fatal; it reports that no
credentials were found and returns normally. -/
theorem cred_index_empty_enumeration_returns :
    getIntFlag ["--rp", "example.com", "--cred-index", "0"] "--cred-index" = (0, true) ∧
    (exampleWorld [exampleLoc "/dev/hidraw0"] [] "").credentials ⟨1⟩ "example.com" "" = .ok [] ∧
    cmdAuth (exampleWorld [exampleLoc "/dev/hidraw0"] [] "")
      ["--rp", "example.com", "--cred-index", "0"] [] =
      ⟨.ok (), [.deviceLocations, .newDevice "/dev/hidraw0",
        .credentials ⟨1⟩ "example.com" "",
        .println "No resident credentials found for RP."], []⟩ :=
  ⟨by decide, rfl, rfl⟩

/-- C3, as the code has it. For every argument list with a `--rp` value and none of the flags
`--cred-id-hex`, `--cred-id-b64`, `--cred-index`: the Hello `auth` without the flag `--device`,
once its window exists and the enumeration for the relying party is empty, prints
`No Windows Hello credentials found for RP.`, closes the window and returns; the hardware
`auth` without the flag `--create`, once a device is selected and the enumeration is empty,
prints `No resident credentials found for RP.` and returns.  In both the random source is
untouched (no challenge) and no get-assertion or make-credential call is issued. -/
theorem auth_empty_enumeration (w : World) (hw : FitHello.World) (args : List String)
    (r : List Go.Byte) (hhex : "--cred-id-hex" ∉ args) (hb64 : "--cred-id-b64" ∉ args)
    (hidx : "--cred-index" ∉ args) :
    (∀ wnd, FitHello.getString args "--rp" ≠ "" → "--device" ∉ args →
      hw.hiddenWindowNew "fit-hello" = .ok wnd →
      hw.platformCredentialList (FitHello.getString args "--rp") false = .ok [] →
      FitHello.cmdAuth hw args r = ⟨.ok (),
        [.hiddenWindowNew "fit-hello",
          .platformCredentialList (FitHello.getString args "--rp") false,
          .println "No Windows Hello credentials found for RP.", .windowClose wnd], r⟩) ∧
    (∀ dev t r1, getStringFlag args "--rp" ≠ "" → "--create" ∉ args →
      getDeviceWithArgs w args r = ⟨.ok (some dev), t, r1⟩ →
      w.credentials dev (getStringFlag args "--rp") (getStringFlag args "--pin") = .ok [] →
      cmdAuth w args r = ⟨.ok (), t ++
        [.credentials dev (getStringFlag args "--rp") (getStringFlag args "--pin"),
          .println "No resident credentials found for RP."], r⟩ ∧
      ∀ e ∈ t, e.isSelection = true) := by
  constructor
  · intro wnd hrp hdev hwnd hlist
    have h1 := FitHello.getString_of_not_mem args _ hhex
    have h2 := FitHello.getString_of_not_mem args _ hb64
    have h3 := FitHello.getInt_of_not_mem args _ hidx
    have h4 := FitHello.has_of_not_mem args _ hdev
    simp [FitHello.cmdAuth, hrp, FitHello.getHelloWindow, hwnd, Prog.bind_eq, Prog.andThen,
      Prog.emit, Prog.pure_eq, Prog.ret, Prog.withDefer, FitHello.cmdAuth.determineCredential,
      h1, h2, h3, h4, FitHello.credentialList, hlist, FitHello.println, FitHello.closeWnd]
  · intro dev t r1 hrp hcreate hdev hcreds
    have h1 := getStringFlag_of_not_mem args _ hhex
    have h3 := getIntFlag_of_not_mem args _ hidx
    have h4 := hasFlag_of_not_mem args _ hcreate
    have hq := quiet_getDeviceWithArgs w args r
    rw [hdev] at hq
    simp only at hq
    obtain ⟨hq1, hq2⟩ := hq
    subst hq1
    refine ⟨?_, hq2⟩
    simp [cmdAuth, hrp, hdev, Prog.bind_eq, Prog.andThen, Prog.emit, Prog.pure_eq, Prog.ret,
      cmdAuth.determineCredential, h1, h3, h4, hcreds, println]

/-- C3, on the Hello `auth --rp example.com` with no platform credential. -/
theorem auth_empty_enumeration_witness :
    FitHello.cmdAuth (FitHello.exampleWorld []) ["--rp", "example.com"] FitHello.exampleRand =
      ⟨.ok (), [.hiddenWindowNew "fit-hello", .platformCredentialList "example.com" false,
        .println "No Windows Hello credentials found for RP.", .windowClose ⟨7⟩],
        FitHello.exampleRand⟩ :=
  (auth_empty_enumeration (exampleWorld [] [] "") (FitHello.exampleWorld [])
    ["--rp", "example.com"] FitHello.exampleRand (by decide) (by decide) (by decide)).1 ⟨7⟩
    (by decide) (by decide) rfl rfl

/-- C5, as the code has it. For every argument list, world and random source, `auth` issues at
most one get-assertion call, and when it issues one the credential step has returned an
identifier before: in the hardware program the call carries exactly that one identifier; in
the Hello program the allow list holds exactly that identifier when it is not empty, and is
empty when the identifier is empty (left nil by `--device`, or decoded from an empty
string). -/
theorem assertion_carries_determined_credential (w : World) (hw : FitHello.World)
    (args : List String) (r : List Go.Byte) :
    ((cmdAuth w args r).trace.filterMap Event.assertionIDs = [] ∨
      ∃ dev t r1 credID t2 r2, getDeviceWithArgs w args r = ⟨.ok (some dev), t, r1⟩ ∧
        cmdAuth.determineCredential w args dev (getStringFlag args "--rp")
          (getStringFlag args "--pin") r1 = ⟨.ok (some credID), t2, r2⟩ ∧
        (cmdAuth w args r).trace.filterMap Event.assertionIDs = [[credID]]) ∧
    ((FitHello.cmdAuth hw args r).trace.filterMap FitHello.Event.allowList = [] ∨
      ∃ credID t2 r2, FitHello.cmdAuth.determineCredential hw args
          (FitHello.getString args "--rp") r = ⟨.ok (some credID), t2, r2⟩ ∧
        (FitHello.cmdAuth hw args r).trace.filterMap FitHello.Event.allowList =
          [if credID.length > 0 then [⟨Winhello.PublicKeyCredentialTypePublicKey, credID⟩]
            else []]) :=
  ⟨cmdAuth_ids w args r, FitHello.cmdAuth_allow hw args r⟩

/-- C9, as the code has it. A non-empty `--cred-id-hex` value that is not valid hexadecimal
after trimming of white space ends the Hello `auth` (after the creation of its window),
`delete-passkey` and the hardware `auth` (after the selection of the device) with a fatal
diagnostic and no further event; so does, when there is no `--cred-id-hex` value, a non-empty
`--cred-id-b64` value that is not valid unpadded base64url after trimming, in the Hello
program.  A `--cred-index` value that `strconv.Atoi` refuses, and a `--device` value from which
the scan `fmt.Sscanf(value, "%d", &v)` reads no integer, are not rejected: the look-up gives
what it gives for an absent flag.  (A `--device` value that starts with digits and goes on with
other text is outside this statement.) -/
theorem invalid_flag_values (w : World) (hw : FitHello.World) (args : List String)
    (r : List Go.Byte) :
    (∀ wnd, FitHello.getString args "--rp" ≠ "" → hw.hiddenWindowNew "fit-hello" = .ok wnd →
      (FitHello.getString args "--cred-id-hex" ≠ "" →
        Hex.decodeString (Strings.trimSpace (FitHello.getString args "--cred-id-hex")) = none →
        FitHello.cmdAuth hw args r =
          ⟨.error (.fatal "--cred-id-hex: %v" [.hexErr]), [.hiddenWindowNew "fit-hello"], r⟩) ∧
      (FitHello.getString args "--cred-id-hex" = "" →
        FitHello.getString args "--cred-id-b64" ≠ "" →
        Base64.decodeString (Strings.trimSpace (FitHello.getString args "--cred-id-b64")) =
          none →
        FitHello.cmdAuth hw args r =
          ⟨.error (.fatal "--cred-id-b64: %v" [.b64Err]), [.hiddenWindowNew "fit-hello"], r⟩)) ∧
    (FitHello.getString args "--cred-id-hex" ≠ "" →
      Hex.decodeString (Strings.trimSpace (FitHello.getString args "--cred-id-hex")) = none →
      FitHello.cmdDeletePasskey hw args r =
        ⟨.error (.fatal "--cred-id-hex: %v" [.hexErr]), [], r⟩) ∧
    (FitHello.getString args "--cred-id-hex" = "" →
      FitHello.getString args "--cred-id-b64" ≠ "" →
      Base64.decodeString (Strings.trimSpace (FitHello.getString args "--cred-id-b64")) = none →
      FitHello.cmdDeletePasskey hw args r =
        ⟨.error (.fatal "--cred-id-b64: %v" [.b64Err]), [], r⟩) ∧
    (∀ dev t r1, getStringFlag args "--rp" ≠ "" →
      getDeviceWithArgs w args r = ⟨.ok (some dev), t, r1⟩ →
      getStringFlag args "--cred-id-hex" ≠ "" →
      Hex.decodeString (Strings.trimSpace (getStringFlag args "--cred-id-hex")) = none →
      cmdAuth w args r = ⟨.error (.fatal "Invalid --cred-id-hex: %v" [.hexErr]), t, r1⟩ ∧
      ∀ e ∈ t, e.isSelection = true) ∧
    (∀ pre post v, "--cred-index" ∉ pre → Strconv.atoi v = none →
      FitHello.getInt (pre ++ "--cred-index" :: v :: post) "--cred-index" = (0, false) ∧
      getIntFlag (pre ++ "--cred-index" :: v :: post) "--cred-index" = (0, false)) ∧
    (∀ pre post v, "--device" ∉ pre ∧ "--path" ∉ pre → "--device" ∉ post ∧ "--path" ∉ post →
      Fmt.sscanfInt v = none →
      parseDeviceSelectors (pre ++ "--device" :: v :: post) = (none, "", false)) := by
  refine ⟨fun wnd hrp hwnd => ⟨fun h1 h2 => ?_, fun h1 h2 h3 => ?_⟩, fun h1 h2 => ?_,
    fun h1 h2 h3 => ?_, fun dev t r1 hrp hdev h1 h2 => ⟨?_, ?_⟩, fun pre post v hp hv => ⟨?_, ?_⟩,
    fun pre post v hpre hpost hv => ?_⟩
  · simp [FitHello.cmdAuth, hrp, FitHello.getHelloWindow, hwnd, Prog.bind_eq, Prog.andThen,
      Prog.emit, Prog.pure_eq, Prog.ret, Prog.withDefer, FitHello.determine_hex hw args _ r h1,
      h2]
  · rcases hi : FitHello.getInt args "--cred-index" with ⟨i, b⟩
    simp [FitHello.cmdAuth, hrp, FitHello.getHelloWindow, hwnd, Prog.bind_eq, Prog.andThen,
      Prog.emit, Prog.pure_eq, Prog.ret, Prog.withDefer, FitHello.cmdAuth.determineCredential,
      h1, h2, h3, Prog.fatalf]
  · simp [FitHello.cmdDeletePasskey, Prog.bind_eq, Prog.andThen,
      FitHello.delete_determine_hex hw args r h1, h2]
  · rcases hi : FitHello.getInt args "--cred-index" with ⟨i, b⟩
    simp [FitHello.cmdDeletePasskey, Prog.bind_eq, Prog.andThen,
      FitHello.cmdDeletePasskey.determineCredential, h1, h2, h3, hi, Prog.fatalf]
  · rcases hi : getIntFlag args "--cred-index" with ⟨i, b⟩
    simp [cmdAuth, hrp, hdev, Prog.bind_eq, Prog.andThen, cmdAuth.determineCredential, hi, h1,
      h2, Prog.fatalf]
  · have hq := quiet_getDeviceWithArgs w args r
    rw [hdev] at hq
    exact hq.2
  · rw [FitHello.getInt_at pre post _ v hp, hv]
  · rw [getIntFlag_at pre post _ v hp, hv]
  · rw [parse_device pre post v hpre hpost, hv]
    rfl

/-- C9, on the Hello `delete-passkey --cred-id-hex zz`, which is fatal, and on the selector
`--device abc`, which is read as no selector at all. -/
theorem invalid_flag_values_witness :
    FitHello.cmdDeletePasskey (FitHello.exampleWorld []) ["--cred-id-hex", "zz"] [] =
      ⟨.error (.fatal "--cred-id-hex: %v" [.hexErr]), [], []⟩ ∧
    parseDeviceSelectors ["--json", "--device", "abc"] = (none, "", false) :=
  ⟨(invalid_flag_values (exampleWorld [] [] "") (FitHello.exampleWorld [])
      ["--cred-id-hex", "zz"] []).2.1 (by decide) (by decide),
    (invalid_flag_values (exampleWorld [] [] "") (FitHello.exampleWorld [])
      ["--cred-id-hex", "zz"] []).2.2.2.2.2 ["--json"] [] "abc" (by decide) (by decide)
      (by decide)⟩

end Fit

namespace FitHello

/-- C3 fails as stated: `auth --rp example.com --device` has no identifier flag and the
enumeration for the relying party is empty, yet the 32 bytes of the challenge are read and a
get-assertion call is issued. -/
theorem auth_device_flag_skips_enumeration :
    (exampleWorld []).platformCredentialList "example.com" false = .ok [] ∧
    (cmdAuth (exampleWorld []) ["--rp", "example.com", "--device"] exampleRand).trace.any
      Event.isCredentialCall = true ∧
    (cmdAuth (exampleWorld []) ["--rp", "example.com", "--device"] exampleRand).rand = [] :=
  ⟨rfl, by decide, by decide⟩

/-- C5 fails as stated: `auth --rp example.com --device` leaves the identifier nil and issues
its get-assertion call with an empty allow list. -/
theorem auth_device_flag_empty_allow_list :
    cmdAuth.determineCredential (exampleWorld [exampleCred [1, 2]])
      ["--rp", "example.com", "--device"] "example.com" exampleRand =
      ⟨.ok (some []), [], exampleRand⟩ ∧
    (cmdAuth (exampleWorld [exampleCred [1, 2]]) ["--rp", "example.com", "--device"]
      exampleRand).trace.filterMap Event.allowList = [[]] :=
  ⟨rfl, by decide⟩

/-- C9 fails as stated: `auth --rp example.com --cred-index abc` is not rejected; it returns
normally after a get-assertion call for the first platform credential. -/
theorem auth_non_integer_index_asserts :
    Strconv.atoi "abc" = none ∧
    (cmdAuth (exampleWorld [exampleCred [1, 2]]) ["--rp", "example.com", "--cred-index", "abc"]
      exampleRand).result = .ok () ∧
    (cmdAuth (exampleWorld [exampleCred [1, 2]]) ["--rp", "example.com", "--cred-index", "abc"]
      exampleRand).trace.filterMap Event.allowList =
      [[⟨Winhello.PublicKeyCredentialTypePublicKey, [1, 2]⟩]] :=
  ⟨by decide, rfl, by decide⟩

end FitHello

/-! ### Encodings -/

namespace Hex

theorem fromHexChar_hextable : ∀ n : Fin 16, fromHexChar (hextable.getD n.val '0') = some n.val := by
  decide

theorem decodeList_cons2 (a b : Char) (rest : List Char) (x y : Nat) (r : Go.Bytes)
    (ha : fromHexChar a = some x) (hb : fromHexChar b = some y) (hr : decodeList rest = some r) :
    decodeList (a :: b :: rest) = some (⟨(x * 16 + y) % 256, Nat.mod_lt _ (by decide)⟩ :: r) := by
  rw [decodeList, ha, hb, hr]

theorem decodeList_encode (b : Go.Bytes) :
    decodeList (b.flatMap fun x => [hextable.getD (x.val / 16) '0', hextable.getD (x.val % 16) '0'])
      = some b := by
  induction b with
  | nil => rfl
  | cons x xs ih =>
    have h1 : fromHexChar (hextable.getD (x.val / 16) '0') = some (x.val / 16) :=
      fromHexChar_hextable ⟨x.val / 16, by omega⟩
    have h2 : fromHexChar (hextable.getD (x.val % 16) '0') = some (x.val % 16) :=
      fromHexChar_hextable ⟨x.val % 16, by omega⟩
    rw [List.flatMap_cons]
    show decodeList (hextable.getD (x.val / 16) '0' :: hextable.getD (x.val % 16) '0' ::
      (xs.flatMap fun x => [hextable.getD (x.val / 16) '0', hextable.getD (x.val % 16) '0'])) = _
    rw [decodeList_cons2 _ _ _ _ _ _ h1 h2 ih]
    congr 2
    apply Fin.ext
    show (x.val / 16 * 16 + x.val % 16) % 256 = x.val
    omega

end Hex

namespace Base64

theorem decChar_encChar : ∀ n : Fin 64, decChar (encChar n.val) = some n.val ∧
    (encChar n.val == '\r' || encChar n.val == '\n') = false := by
  decide

theorem dec_enc (n : Nat) (h : n < 64) : decChar (encChar n) = some n :=
  (decChar_encChar ⟨n, h⟩).1

theorem keep_enc (n : Nat) (h : n < 64) : (encChar n == '\r' || encChar n == '\n') = false :=
  (decChar_encChar ⟨n, h⟩).2

theorem byte_eq (x : Go.Byte) (n : Nat) (h : n = x.val) : byte n = x := by
  apply Fin.ext
  show n % 256 = x.val
  have := x.isLt
  omega

theorem filter_cons_keep (n : Nat) (h : n < 64) (cs : List Char)
    (hcs : cs.filter (fun c => !(c == '\r' || c == '\n')) = cs) :
    (encChar n :: cs).filter (fun c => !(c == '\r' || c == '\n')) = encChar n :: cs := by
  rw [List.filter_cons_of_pos (by simp only [keep_enc n h]; rfl), hcs]

theorem mapM_cons_some (n : Nat) (h : n < 64) (cs : List Char) (vs : List Nat)
    (hcs : cs.mapM decChar = some vs) :
    (encChar n :: cs).mapM decChar = some (n :: vs) := by
  rw [List.mapM_cons, dec_enc n h, hcs]
  rfl

theorem decode_encodeList : ∀ B : Go.Bytes,
    (encodeList B).filter (fun c => !(c == '\r' || c == '\n')) = encodeList B ∧
    ∃ vs, (encodeList B).mapM decChar = some vs ∧ decodeList vs = some B
  | [] => ⟨rfl, [], rfl, rfl⟩
  | [a] => by
    have ha := a.isLt
    have h0 : a.val / 4 < 64 := by omega
    have h1 : a.val % 4 * 16 < 64 := by omega
    refine ⟨?_, [a.val / 4, a.val % 4 * 16], ?_, ?_⟩
    · exact filter_cons_keep _ h0 _ (filter_cons_keep _ h1 _ rfl)
    · exact mapM_cons_some _ h0 _ _ (mapM_cons_some _ h1 _ _ rfl)
    · simp only [decodeList]
      rw [byte_eq a _ (by omega)]
  | [a, b] => by
    have ha := a.isLt
    have hb := b.isLt
    have h0 : a.val / 4 < 64 := by omega
    have h1 : a.val % 4 * 16 + b.val / 16 < 64 := by omega
    have h2 : b.val % 16 * 4 < 64 := by omega
    refine ⟨?_, [a.val / 4, a.val % 4 * 16 + b.val / 16, b.val % 16 * 4], ?_, ?_⟩
    · exact filter_cons_keep _ h0 _ (filter_cons_keep _ h1 _ (filter_cons_keep _ h2 _ rfl))
    · exact mapM_cons_some _ h0 _ _ (mapM_cons_some _ h1 _ _ (mapM_cons_some _ h2 _ _ rfl))
    · simp only [decodeList]
      rw [byte_eq a _ (by omega), byte_eq b _ (by omega)]
  | a :: b :: c :: rest => by
    have ha := a.isLt
    have hb := b.isLt
    have hc := c.isLt
    obtain ⟨ih1, vs, ih2, ih3⟩ := decode_encodeList rest
    have h0 : a.val / 4 < 64 := by omega
    have h1 : a.val % 4 * 16 + b.val / 16 < 64 := by omega
    have h2 : b.val % 16 * 4 + c.val / 64 < 64 := by omega
    have h3 : c.val % 64 < 64 := by omega
    refine ⟨?_, a.val / 4 :: (a.val % 4 * 16 + b.val / 16) :: (b.val % 16 * 4 + c.val / 64) ::
        (c.val % 64) :: vs, ?_, ?_⟩
    · exact filter_cons_keep _ h0 _ (filter_cons_keep _ h1 _ (filter_cons_keep _ h2 _
        (filter_cons_keep _ h3 _ ih1)))
    · exact mapM_cons_some _ h0 _ _ (mapM_cons_some _ h1 _ _ (mapM_cons_some _ h2 _ _
        (mapM_cons_some _ h3 _ _ ih2)))
    · simp only [decodeList, ih3]
      rw [byte_eq a _ (by omega), byte_eq b _ (by omega), byte_eq c _ (by omega)]

theorem decodeString_encode (B : Go.Bytes) : decodeString (encodeToString B) = some B := by
  obtain ⟨h1, vs, h2, h3⟩ := decode_encodeList B
  simp only [decodeString, encodeToString, h1, h2, h3]

end Base64

namespace Chal

/-- C13. For every byte sequence `B`, the strict hexadecimal decoding of `chal.Hex(B)`
succeeds and gives `B`, and whatever that decoding gives, encoded again, is the string
`chal.Hex(B)`. -/
theorem hex_round_trip (B : Go.Bytes) :
    Hex.decodeString (Chal.Hex B) = some B ∧
    ∀ b, Hex.decodeString (Chal.Hex B) = some b → Chal.Hex b = Chal.Hex B := by
  have h : Hex.decodeString (Chal.Hex B) = some B := Hex.decodeList_encode B
  refine ⟨h, fun b hb => ?_⟩
  rw [h] at hb
  cases hb
  rfl

/-- C14. For every byte sequence `B`, the unpadded base64url decoding of `chal.B64(B)`
succeeds and gives `B`, and whatever that decoding gives, encoded again, is the string
`chal.B64(B)`. -/
theorem b64_round_trip (B : Go.Bytes) :
    Base64.decodeString (Chal.B64 B) = some B ∧
    ∀ b, Base64.decodeString (Chal.B64 B) = some b → Chal.B64 b = Chal.B64 B := by
  have h : Base64.decodeString (Chal.B64 B) = some B := Base64.decodeString_encode B
  refine ⟨h, fun b hb => ?_⟩
  rw [h] at hb
  cases hb
  rfl

end Chal

/-! ### The challenge -/

namespace Prog

variable {ε α β γ : Type}

theorem andThen_run_ok {p : Prog ε α} {k : α → Prog ε β} {r r1 : List Go.Byte} {a : α}
    {t : List ε} (h : p r = ⟨.ok a, t, r1⟩) :
    Prog.andThen p k r = ⟨(k a r1).result, t ++ (k a r1).trace, (k a r1).rand⟩ := by
  simp [Prog.andThen, h]

theorem traceAll_withDefer {P : ε → Prop} {c : Prog ε Unit} {body : Prog ε α}
    (hc : TraceAll P c) (hb : TraceAll P body) : TraceAll P (Prog.withDefer c body) := by
  intro r
  have h2 := hb r
  unfold Prog.withDefer
  rcases hbr : body r with ⟨res, t, r1⟩
  rw [hbr] at h2
  simp only at h2
  have h3 := hc r1
  rcases hcr : c r1 with ⟨cres, t2, r2⟩
  rw [hcr] at h3
  simp only at h3
  have happ : ∀ e ∈ t ++ t2, P e := by
    intro e he
    rcases List.mem_append.mp he with h | h
    · exact h2 e h
    · exact h3 e h
  cases res with
  | ok a => cases cres <;> simpa [hcr] using happ
  | error e =>
    cases e with
    | fatal f a => simpa using h2
    | panic m => simpa [hcr] using happ

/-- Sequencing when the results of the first computation satisfy `Q`. -/
theorem traceAll_bind_of_result {P : ε → Prop} {Q : α → Prop} {p : Prog ε α}
    {f : α → Prog ε β} (hp : TraceAll P p) (hq : ∀ r a, (p r).result = .ok a → Q a)
    (hf : ∀ a, Q a → TraceAll P (f a)) : TraceAll P (p >>= f) := by
  intro r
  have h2 := hp r
  have h3 := hq r
  show ∀ e ∈ (Prog.andThen p f r).trace, P e
  unfold Prog.andThen
  rcases hpr : p r with ⟨res, t, r1⟩
  rw [hpr] at h2 h3
  simp only at h2 h3
  cases res with
  | error e => exact h2
  | ok a =>
    intro e he
    rcases List.mem_append.mp he with h | h
    · exact h2 e h
    · exact hf a (h3 a rfl) r1 e h

end Prog

namespace Chal

theorem Bytes_length {ε : Type} (r : List Go.Byte) (a : Go.Bytes)
    (h : ((Chal.Bytes 32 : Prog ε Go.Bytes) r).result = .ok a) : a.length = 32 := by
  by_cases hr : 32 ≤ r.length
  · simp [Chal.Bytes, Prog.bind_eq, Prog.andThen, Prog.readFull, hr, Prog.pure_eq, Prog.ret] at h
    rw [← h, List.length_take]
    omega
  · simp [Chal.Bytes, Prog.bind_eq, Prog.andThen, Prog.readFull, hr, Prog.panic] at h

theorem Bytes_traceAll {ε : Type} (P : ε → Prop) (n : Int) :
    Prog.TraceAll P (Chal.Bytes n : Prog ε Go.Bytes) := by
  unfold Chal.Bytes
  split
  · exact Prog.traceAll_panic _ _
  · refine Prog.traceAll_bind (Prog.traceAll_readFull _ _) fun o => ?_
    cases o
    · exact Prog.traceAll_panic _ _
    · exact Prog.traceAll_pure _ _

end Chal

namespace FitHello

theorem determine_traceAll (P : Event → Prop) (w : World) (args : List String) (rp : String)
    (h1 : ∀ rp b, P (.platformCredentialList rp b)) (h2 : ∀ s, P (.println s)) :
    Prog.TraceAll P (cmdAuth.determineCredential w args rp) := by
  have hl : ∀ rp, Prog.TraceAll P (credentialList w rp) := by
    intro rp
    unfold credentialList
    refine Prog.traceAll_bind (Prog.traceAll_emit _ _ (h1 _ _)) fun _ => ?_
    split
    · exact Prog.traceAll_fatalf _ _ _
    · exact Prog.traceAll_pure _ _
  have ha : ∀ list idx, Prog.TraceAll P (credentialAt list idx) := by
    intro list idx
    unfold credentialAt
    split
    · exact Prog.traceAll_fatalf _ _ _
    · split
      · exact Prog.traceAll_panic _ _
      · exact Prog.traceAll_pure _ _
  unfold cmdAuth.determineCredential
  split
  · split
    · exact Prog.traceAll_fatalf _ _ _
    · exact Prog.traceAll_pure _ _
  · split
    · split
      · exact Prog.traceAll_fatalf _ _ _
      · exact Prog.traceAll_pure _ _
    · split
      · refine Prog.traceAll_bind (hl _) fun l => ?_
        exact Prog.traceAll_bind (ha _ _) fun _ => Prog.traceAll_pure _ _
      · split
        · exact Prog.traceAll_pure _ _
        · refine Prog.traceAll_bind (hl _) fun l => ?_
          cases l with
          | nil => exact Prog.traceAll_bind (Prog.traceAll_emit _ _ (h2 _)) fun _ =>
              Prog.traceAll_pure _ _
          | cons c tl => exact Prog.traceAll_bind (Prog.traceAll_emit _ _ (h2 _)) fun _ =>
              Prog.traceAll_pure _ _

theorem challengeOK_of_none (e : Event) (h : e.clientData = none) : challengeOK e := by
  intro cd hcd
  rw [h] at hcd
  cases hcd

theorem assert_challenge (w : World) (args : List String) (wnd : Winhello.HiddenWindow)
    (rp : String) (credID : Go.Bytes) :
    Prog.TraceAll challengeOK (cmdAuth.assert w args wnd rp credID) := by
  unfold cmdAuth.assert
  refine Prog.traceAll_bind_of_result (Q := fun a => a.length = 32) (Chal.Bytes_traceAll _ _)
    (fun r a h => Chal.Bytes_length r a h) fun ch hch => ?_
  refine Prog.traceAll_bind (Prog.traceAll_emit _ _ ?_) fun _ => ?_
  · intro cd hcd
    simp only [Event.clientData, Option.some.injEq] at hcd
    exact ⟨_, _, ch, hch, hcd.symm⟩
  · split
    · exact Prog.traceAll_fatalf _ _ _
    · split
      · exact Prog.traceAll_emit _ _ (challengeOK_of_none _ rfl)
      · refine Prog.traceAll_bind (Prog.traceAll_emit _ _ (challengeOK_of_none _ rfl)) fun _ => ?_
        refine Prog.traceAll_bind (Prog.traceAll_emit _ _ (challengeOK_of_none _ rfl)) fun _ => ?_
        refine Prog.traceAll_bind (Prog.traceAll_emit _ _ (challengeOK_of_none _ rfl)) fun _ => ?_
        refine Prog.traceAll_bind (Prog.traceAll_emit _ _ (challengeOK_of_none _ rfl)) fun _ => ?_
        exact Prog.traceAll_emit _ _ (challengeOK_of_none _ rfl)

theorem getHelloWindow_traceAll (P : Event → Prop) (w : World)
    (h : P (.hiddenWindowNew "fit-hello")) : Prog.TraceAll P (getHelloWindow w) := by
  unfold getHelloWindow
  refine Prog.traceAll_bind (Prog.traceAll_emit _ _ h) fun _ => ?_
  split
  · exact Prog.traceAll_fatalf _ _ _
  · exact Prog.traceAll_pure _ _

theorem cmdAuth_challenge (w : World) (args : List String) :
    Prog.TraceAll challengeOK (cmdAuth w args) := by
  unfold cmdAuth
  simp only
  split
  · exact Prog.traceAll_emit _ _ (challengeOK_of_none _ rfl)
  · refine Prog.traceAll_bind (getHelloWindow_traceAll _ _ (challengeOK_of_none _ rfl))
      fun wnd => ?_
    refine Prog.traceAll_withDefer (Prog.traceAll_emit _ _ (challengeOK_of_none _ rfl)) ?_
    refine Prog.traceAll_bind (determine_traceAll _ w args _
      (fun _ _ => challengeOK_of_none _ rfl) (fun _ => challengeOK_of_none _ rfl)) fun c => ?_
    cases c with
    | none => exact Prog.traceAll_pure _ _
    | some credID => exact assert_challenge w args wnd _ credID

theorem cmdAddPasskey_challenge (w : World) (args : List String) :
    Prog.TraceAll challengeOK (cmdAddPasskey w args) := by
  unfold cmdAddPasskey
  simp only
  split
  · exact Prog.traceAll_emit _ _ (challengeOK_of_none _ rfl)
  · refine Prog.traceAll_bind (getHelloWindow_traceAll _ _ (challengeOK_of_none _ rfl))
      fun wnd => ?_
    refine Prog.traceAll_withDefer (Prog.traceAll_emit _ _ (challengeOK_of_none _ rfl)) ?_
    refine Prog.traceAll_bind_of_result (Q := fun a => a.length = 32) (Chal.Bytes_traceAll _ _)
      (fun r a h => Chal.Bytes_length r a h) fun ch hch => ?_
    refine Prog.traceAll_bind (Prog.traceAll_emit _ _ ?_) fun _ => ?_
    · intro cd hcd
      simp only [Event.clientData, Option.some.injEq] at hcd
      exact ⟨_, _, ch, hch, hcd.symm⟩
    · split
      · exact Prog.traceAll_fatalf _ _ _
      · split
        · exact Prog.traceAll_emit _ _ (challengeOK_of_none _ rfl)
        · refine Prog.traceAll_bind (Prog.traceAll_emit _ _ (challengeOK_of_none _ rfl))
            fun _ => ?_
          refine Prog.traceAll_bind (Prog.traceAll_emit _ _ (challengeOK_of_none _ rfl))
            fun _ => ?_
          refine Prog.traceAll_bind (Prog.traceAll_emit _ _ (challengeOK_of_none _ rfl))
            fun _ => ?_
          refine Prog.traceAll_bind (Prog.traceAll_emit _ _ (challengeOK_of_none _ rfl))
            fun _ => ?_
          refine Prog.traceAll_bind (Prog.traceAll_emit _ _ (challengeOK_of_none _ rfl))
            fun _ => ?_
          refine Prog.traceAll_bind (Prog.traceAll_emit _ _ (challengeOK_of_none _ rfl))
            fun _ => ?_
          exact Prog.traceAll_emit _ _ (challengeOK_of_none _ rfl)

end FitHello

namespace Chal

/-- C15. For every `n ≥ 0` and every state `r` of the random source: when the source still
delivers `n` bytes, `chal.Bytes(n)` returns exactly the next `n` bytes of the source, a
sequence of length `n`, and leaves the rest; when it does not, `chal.Bytes(n)` panics and
returns nothing.  In every run of the Hello `auth` and `add-passkey`, the client data of every
get-assertion and make-credential call is built from a challenge of exactly 32 bytes. -/
theorem Bytes_exact {ε : Type} (n : Int) (r : List Go.Byte) (hn : 0 ≤ n) :
    (n.toNat ≤ r.length →
      (Chal.Bytes n : Prog ε Go.Bytes) r = ⟨.ok (r.take n.toNat), [], r.drop n.toNat⟩ ∧
      ((r.take n.toNat).length : Int) = n) ∧
    (r.length < n.toNat →
      ∃ m, (Chal.Bytes n : Prog ε Go.Bytes) r = ⟨.error (.panic m), [], r⟩) ∧
    (∀ w args, Prog.TraceAll FitHello.challengeOK (FitHello.cmdAuth w args) ∧
      Prog.TraceAll FitHello.challengeOK (FitHello.cmdAddPasskey w args)) := by
  have hneg : ¬ n < 0 := by omega
  refine ⟨fun h => ⟨?_, ?_⟩, fun h => ?_, fun w args =>
    ⟨FitHello.cmdAuth_challenge w args, FitHello.cmdAddPasskey_challenge w args⟩⟩
  · simp [Chal.Bytes, hneg, Prog.bind_eq, Prog.andThen, Prog.readFull, h, Prog.pure_eq, Prog.ret]
  · rw [List.length_take]
    omega
  · have h2 : ¬ n.toNat ≤ r.length := by omega
    exact ⟨"rand", by
      simp [Chal.Bytes, hneg, Prog.bind_eq, Prog.andThen, Prog.readFull, h2, Prog.panic]⟩

/-- C15, on a request of 32 bytes from a source that holds exactly 32. -/
theorem Bytes_exact_witness :
    (Chal.Bytes 32 : Prog FitHello.Event Go.Bytes) FitHello.exampleRand =
      ⟨.ok (FitHello.exampleRand.take (32 : Int).toNat), [],
        FitHello.exampleRand.drop (32 : Int).toNat⟩ :=
  ((Bytes_exact 32 FitHello.exampleRand (by decide)).1 (by decide)).1

end Chal

/-! ### The dispatcher -/

namespace Fit

theorem fit_printUsage_run (exe : String) (rest : List String) (r : List Go.Byte) :
    (printUsage (exe :: rest) r).result = .ok () ∧ (printUsage (exe :: rest) r).rand = r ∧
    (printUsage (exe :: rest) r).trace.head? =
      some (.printf "Usage: %s <command> [arguments]\n" [.str exe]) ∧
    ∀ e ∈ (printUsage (exe :: rest) r).trace,
      (∃ s, e = Event.println s) ∨ ∃ f a, e = Event.printf f a := by
  simp [printUsage, Prog.bind_eq, Prog.andThen, Prog.emit, println, printf]

end Fit

namespace FitHello

theorem hello_printUsage_run (exe : String) (rest : List String) (r : List Go.Byte) :
    (printUsage (exe :: rest) r).result = .ok () ∧ (printUsage (exe :: rest) r).rand = r ∧
    (printUsage (exe :: rest) r).trace.head? =
      some (.printf "Usage: %s <command> [arguments]\n" [.str exe]) ∧
    ∀ e ∈ (printUsage (exe :: rest) r).trace,
      (∃ s, e = Event.println s) ∨ ∃ f a, e = Event.printf f a := by
  simp [printUsage, Prog.bind_eq, Prog.andThen, Prog.emit, println, printf]

end FitHello

namespace Fit

/-- C11. For every argument vector that starts with the program name, in both programs: when
the verb is missing, or is not one of the fixed verb strings of the program, `main` is
`printUsage`, which prints the usage text (a formatted line with the program name, then plain
lines), returns normally and leaves the random source alone; when the verb is one of the fixed
strings, `main` is exactly the handler of that verb applied to the arguments after the verb
(for `version`, the print of the build version). -/
theorem main_dispatch (w : World) (hw : FitHello.World) (v exe : String) (r : List Go.Byte) :
    (main w v [exe] = printUsage [exe] ∧
      (∀ verb args, verb ∉ ["list", "auth", "add-passkey", "set-pin", "reset", "info", "version"] →
        main w v (exe :: verb :: args) = printUsage (exe :: verb :: args)) ∧
      (∀ rest, (printUsage (exe :: rest) r).result = .ok () ∧
        (printUsage (exe :: rest) r).rand = r ∧
        (printUsage (exe :: rest) r).trace.head? =
          some (.printf "Usage: %s <command> [arguments]\n" [.str exe]) ∧
        ∀ e ∈ (printUsage (exe :: rest) r).trace,
          (∃ s, e = Event.println s) ∨ ∃ f a, e = Event.printf f a) ∧
      (∀ args, main w v (exe :: "list" :: args) = cmdList w args ∧
        main w v (exe :: "auth" :: args) = cmdAuth w args ∧
        main w v (exe :: "add-passkey" :: args) = cmdAddPasskey w args ∧
        main w v (exe :: "set-pin" :: args) = cmdSetPIN w args ∧
        main w v (exe :: "reset" :: args) = cmdReset w args ∧
        main w v (exe :: "info" :: args) = cmdInfo w args ∧
        main w v (exe :: "version" :: args) r = ⟨.ok (), [.println v], r⟩)) ∧
    (FitHello.main hw v [exe] = FitHello.printUsage [exe] ∧
      (∀ verb args,
        verb ∉ ["list", "test", "auth", "add-passkey", "delete-passkey", "version"] →
        FitHello.main hw v (exe :: verb :: args) = FitHello.printUsage (exe :: verb :: args)) ∧
      (∀ rest, (FitHello.printUsage (exe :: rest) r).result = .ok () ∧
        (FitHello.printUsage (exe :: rest) r).rand = r ∧
        (FitHello.printUsage (exe :: rest) r).trace.head? =
          some (.printf "Usage: %s <command> [arguments]\n" [.str exe]) ∧
        ∀ e ∈ (FitHello.printUsage (exe :: rest) r).trace,
          (∃ s, e = FitHello.Event.println s) ∨ ∃ f a, e = FitHello.Event.printf f a) ∧
      (∀ args, FitHello.main hw v (exe :: "list" :: args) = FitHello.cmdList hw args ∧
        FitHello.main hw v (exe :: "test" :: args) = FitHello.cmdTest hw args ∧
        FitHello.main hw v (exe :: "auth" :: args) = FitHello.cmdAuth hw args ∧
        FitHello.main hw v (exe :: "add-passkey" :: args) = FitHello.cmdAddPasskey hw args ∧
        FitHello.main hw v (exe :: "delete-passkey" :: args) =
          FitHello.cmdDeletePasskey hw args ∧
        FitHello.main hw v (exe :: "version" :: args) r = ⟨.ok (), [.println v], r⟩)) := by
  refine ⟨⟨rfl, ?_, fun rest => fit_printUsage_run exe rest r, fun args => ?_⟩,
    ⟨rfl, ?_, fun rest => FitHello.hello_printUsage_run exe rest r, fun args => ?_⟩⟩
  · intro verb args h
    simp only [List.mem_cons, List.mem_singleton, List.not_mem_nil, or_false, not_or] at h
    obtain ⟨h1, h2, h3, h4, h5, h6, h7⟩ := h
    simp [main, h1, h2, h3, h4, h5, h6, h7]
  · refine ⟨?_, ?_, ?_, ?_, ?_, ?_, ?_⟩ <;> simp [main, println, Prog.emit]
  · intro verb args h
    simp only [List.mem_cons, List.mem_singleton, List.not_mem_nil, or_false, not_or] at h
    obtain ⟨h1, h2, h3, h4, h5, h6⟩ := h
    simp [FitHello.main, h1, h2, h3, h4, h5, h6]
  · refine ⟨?_, ?_, ?_, ?_, ?_, ?_⟩ <;> simp [FitHello.main, FitHello.println, Prog.emit]

/-- C11, on the argument vector `fit frobnicate --json`: usage, no handler. -/
theorem main_dispatch_witness :
    main (exampleWorld [] [] "") "dev" ["fit", "frobnicate", "--json"] =
      printUsage ["fit", "frobnicate", "--json"] :=
  (main_dispatch (exampleWorld [] [] "") (FitHello.exampleWorld []) "dev" "fit" []).1.2.1
    "frobnicate" ["--json"] (by decide)

end Fit

/-! ### The first entry by default, and the transient credential -/

namespace Fit

theorem selection_not_call (t : List Event) (h : ∀ e ∈ t, e.isSelection = true) :
    t.filter Event.isCredentialCall = [] := by
  rw [List.filter_eq_nil_iff]
  intro e he
  have := h e he
  cases e <;> simp_all [Event.isSelection, Event.isCredentialCall]

theorem cmdAuth_run (w : World) (args : List String) (r r1 r2 : List Go.Byte)
    (dev : Libfido2.Device) (t t2 : List Event) (credID : Go.Bytes)
    (hrp : getStringFlag args "--rp" ≠ "")
    (hdev : getDeviceWithArgs w args r = ⟨.ok (some dev), t, r1⟩)
    (hd : cmdAuth.determineCredential w args dev (getStringFlag args "--rp")
      (getStringFlag args "--pin") r1 = ⟨.ok (some credID), t2, r2⟩) :
    (cmdAuth w args r).trace = t ++ (t2 ++ (cmdAuth.assert w args dev (getStringFlag args "--rp")
      (getStringFlag args "--pin") credID r2).trace) ∧
    (cmdAuth w args r).result = (cmdAuth.assert w args dev (getStringFlag args "--rp")
      (getStringFlag args "--pin") credID r2).result := by
  unfold cmdAuth
  simp only [hrp, if_false, Prog.bind_eq]
  rw [Prog.andThen_run_ok hdev]
  simp only
  rw [Prog.andThen_run_ok hd]
  exact ⟨rfl, rfl⟩

theorem assert_calls (w : World) (args : List String) (dev : Libfido2.Device)
    (rpID pin : String) (credID : Go.Bytes) (r : List Go.Byte) (hr : 32 ≤ r.length) :
    (cmdAuth.assert w args dev rpID pin credID r).trace.filter Event.isCredentialCall =
      [.assertion dev rpID (r.take 32) [credID] pin] := by
  cases ha : w.assertion dev rpID (List.take 32 r) [credID] pin with
  | error e =>
    simp [cmdAuth.assert, randBytes, Prog.readFull, hr, Prog.bind_eq, Prog.andThen, Prog.emit,
      Prog.pure_eq, Prog.ret, ha, Prog.fatalf, Event.isCredentialCall]
  | ok a =>
    cases hj : hasFlag args "--json"
    · by_cases h1 : a.hmacSecret.length > 0 <;> by_cases h2 : a.authDataCBOR.length > 0 <;>
      simp [cmdAuth.assert, randBytes, Prog.readFull, hr, Prog.bind_eq, Prog.andThen,
        Prog.emit, Prog.pure_eq, Prog.ret, ha, Prog.fatalf, Event.isCredentialCall, hj,
        writeJSON, println, printf, h1, h2]
    · simp [cmdAuth.assert, randBytes, Prog.readFull, hr, Prog.bind_eq, Prog.andThen,
        Prog.emit, Prog.pure_eq, Prog.ret, ha, Prog.fatalf, Event.isCredentialCall, hj,
        writeJSON, println, printf]

/-- C12, as the code has it. For every `auth` argument list with a `--rp` value and without
the flags `--cred-id-hex`, `--cred-id-b64`, `--cred-index`, and without `--device` (Hello) or
`--create` (hardware), and for every enumeration that succeeds with a first entry `c` (in the
hardware program once a device is selected; in the Hello program once the window exists and
when the identifier of `c` is not empty): the credential step returns the identifier of `c`,
every get-assertion call of the run carries exactly that identifier, and when the random
source holds the 32 bytes of the challenge that call is issued. -/
theorem auth_defaults_to_first (w : World) (hw : FitHello.World) (args : List String)
    (r : List Go.Byte) (hhex : "--cred-id-hex" ∉ args) (hidx : "--cred-index" ∉ args) :
    (∀ wnd c tl, FitHello.getString args "--rp" ≠ "" → "--cred-id-b64" ∉ args →
      "--device" ∉ args → hw.hiddenWindowNew "fit-hello" = .ok wnd →
      hw.platformCredentialList (FitHello.getString args "--rp") false = .ok (c :: tl) →
      c.credentialID ≠ [] →
      FitHello.cmdAuth.determineCredential hw args (FitHello.getString args "--rp") r =
        ⟨.ok (some c.credentialID),
          [.platformCredentialList (FitHello.getString args "--rp") false,
            .println "Using platform credential index 0"], r⟩ ∧
      (∀ allow ∈ (FitHello.cmdAuth hw args r).trace.filterMap FitHello.Event.allowList,
        allow = [⟨Winhello.PublicKeyCredentialTypePublicKey, c.credentialID⟩]) ∧
      (32 ≤ r.length →
        (FitHello.cmdAuth hw args r).trace.filterMap FitHello.Event.allowList =
          [[⟨Winhello.PublicKeyCredentialTypePublicKey, c.credentialID⟩]])) ∧
    (∀ dev t r1 c tl, getStringFlag args "--rp" ≠ "" → "--create" ∉ args →
      getDeviceWithArgs w args r = ⟨.ok (some dev), t, r1⟩ →
      w.credentials dev (getStringFlag args "--rp") (getStringFlag args "--pin") =
        .ok (c :: tl) →
      cmdAuth.determineCredential w args dev (getStringFlag args "--rp")
        (getStringFlag args "--pin") r1 = ⟨.ok (some c.id),
          [.credentials dev (getStringFlag args "--rp") (getStringFlag args "--pin"),
            .printf "Using resident credential index %d (len=%d)\n"
              [.int 0, .int c.id.length]], r⟩ ∧
      (∀ ids ∈ (cmdAuth w args r).trace.filterMap Event.assertionIDs, ids = [c.id]) ∧
      (32 ≤ r.length →
        (cmdAuth w args r).trace.filter Event.isCredentialCall =
          [.assertion dev (getStringFlag args "--rp") (r.take 32) [c.id]
            (getStringFlag args "--pin")])) := by
  constructor
  · intro wnd c tl hrp hb64 hdevf hwnd hlist hne
    have h1 := FitHello.getString_of_not_mem args _ hhex
    have h2 := FitHello.getString_of_not_mem args _ hb64
    have h3 := FitHello.getInt_of_not_mem args _ hidx
    have h4 := FitHello.has_of_not_mem args _ hdevf
    have hl := FitHello.credentialList_ok hw _ _ r hlist
    have hd : FitHello.cmdAuth.determineCredential hw args (FitHello.getString args "--rp") r =
        ⟨.ok (some c.credentialID),
          [.platformCredentialList (FitHello.getString args "--rp") false,
            .println "Using platform credential index 0"], r⟩ := by
      simp [FitHello.cmdAuth.determineCredential, h1, h2, h3, h4, Prog.bind_eq, Prog.andThen, hl,
        FitHello.println, Prog.emit, Prog.pure_eq, Prog.ret]
    have hlen : 0 < c.credentialID.length := List.length_pos.mpr hne
    refine ⟨hd, ?_, ?_⟩
    · intro allow hallow
      rcases FitHello.cmdAuth_allow hw args r with h | ⟨credID, t2, r2, hd2, h⟩
      · rw [h] at hallow
        cases hallow
      · rw [hd] at hd2
        simp only [Outcome.mk.injEq, Except.ok.injEq, Option.some.injEq] at hd2
        obtain ⟨hc, -, -⟩ := hd2
        subst hc
        rw [h] at hallow
        simpa [hlen] using hallow
    · intro hr
      cases hga : hw.getAssertion wnd.handle (FitHello.getString args "--rp")
          (FitHello.clientData "webauthn.get" (FitHello.getString args "--rp") (List.take 32 r))
          [⟨Winhello.PublicKeyCredentialTypePublicKey, c.credentialID⟩]
          ⟨FitHello.helloAttachment args, FitHello.helloCredentialHints args, 30, false⟩ with
      | error e =>
        simp [FitHello.cmdAuth, hrp, FitHello.getHelloWindow, hwnd, Prog.bind_eq, Prog.andThen,
          Prog.emit, Prog.pure_eq, Prog.ret, Prog.withDefer, hd, FitHello.cmdAuth.assert,
          Chal.Bytes, Prog.readFull, hr, hlen, hga, Prog.fatalf, FitHello.Event.allowList]
      | ok asrt =>
        cases hj : FitHello.has args "--json" <;>
        simp [FitHello.cmdAuth, hrp, FitHello.getHelloWindow, hwnd, Prog.bind_eq, Prog.andThen,
          Prog.emit, Prog.pure_eq, Prog.ret, Prog.withDefer, hd, FitHello.cmdAuth.assert,
          Chal.Bytes, Prog.readFull, hr, hlen, hga, Prog.fatalf, FitHello.Event.allowList, hj,
          FitHello.closeWnd, FitHello.writeJSON, FitHello.println, FitHello.printf]
  · intro dev t r1 c tl hrp hcreate hdev hcreds
    have h1 := getStringFlag_of_not_mem args _ hhex
    have h3 := getIntFlag_of_not_mem args _ hidx
    have h4 := hasFlag_of_not_mem args _ hcreate
    have hq := quiet_getDeviceWithArgs w args r
    rw [hdev] at hq
    obtain ⟨hq1, hq2⟩ := hq
    simp only at hq1 hq2
    subst hq1
    have hsel := selection_not_call t hq2
    have hd : cmdAuth.determineCredential w args dev (getStringFlag args "--rp")
        (getStringFlag args "--pin") r1 = ⟨.ok (some c.id),
          [.credentials dev (getStringFlag args "--rp") (getStringFlag args "--pin"),
            .printf "Using resident credential index %d (len=%d)\n"
              [.int 0, .int c.id.length]], r1⟩ := by
      have hpos : ¬ ((tl.length : Int) + 1 ≤ 0) := by omega
      simp [cmdAuth.determineCredential, h1, h3, h4, hcreds, Prog.bind_eq, Prog.andThen,
        Prog.emit, Prog.pure_eq, Prog.ret, printf, hpos]
    refine ⟨hd, ?_, ?_⟩
    · intro ids hids
      rcases cmdAuth_ids w args r1 with h | ⟨dev2, t', r', credID, t2, r2, hg, hd2, h⟩
      · rw [h] at hids
        cases hids
      · rw [hdev] at hg
        simp only [Outcome.mk.injEq, Except.ok.injEq, Option.some.injEq] at hg
        obtain ⟨hdv, -, hr'⟩ := hg
        subst hdv hr'
        rw [hd] at hd2
        simp only [Outcome.mk.injEq, Except.ok.injEq, Option.some.injEq] at hd2
        obtain ⟨hc, -, -⟩ := hd2
        subst hc
        rw [h] at hids
        simpa using hids
    · intro hr
      rw [(cmdAuth_run w args r1 r1 _ dev t _ _ hrp hdev hd).1]
      simp only [List.filter_append, hsel, List.nil_append, assert_calls w args dev _ _ _ _ hr]
      simp [Event.isCredentialCall, List.filter]

/-- C12, on the Hello `auth --rp example.com` with two platform credentials: the allow list
holds the identifier of the first. -/
theorem auth_defaults_to_first_witness :
    (FitHello.cmdAuth (FitHello.exampleWorld [FitHello.exampleCred [1, 2],
      FitHello.exampleCred [3, 4]]) ["--rp", "example.com"]
      FitHello.exampleRand).trace.filterMap FitHello.Event.allowList =
      [[⟨Winhello.PublicKeyCredentialTypePublicKey, [1, 2]⟩]] :=
  ((auth_defaults_to_first (exampleWorld [] [] "")
    (FitHello.exampleWorld [FitHello.exampleCred [1, 2], FitHello.exampleCred [3, 4]])
    ["--rp", "example.com"] FitHello.exampleRand (by decide) (by decide)).1 ⟨7⟩
    (FitHello.exampleCred [1, 2]) [FitHello.exampleCred [3, 4]] (by decide) (by decide)
    (by decide) rfl rfl (by decide)).2.2 (by decide)

/-- The path of `auth --create` when no `--cred-id-hex` value stands before it. For every
argument list to the hardware `auth` with a `--rp` value, the flag `--create` and no
`--cred-id-hex` value, once a device is selected: with a
non-empty `--pin`, enough random bytes and a make-credential call that succeeds, the
credential calls of the run are, in this order, one make-credential call with the
resident-key option `False` and one get-assertion call with the identifier that the
make-credential call returned; with no `--pin` value the command prints
`--create requires --pin to be provided.` and returns, with neither call. -/
theorem auth_create_transient (w : World) (args : List String) (r r1 : List Go.Byte)
    (dev : Libfido2.Device) (t : List Event)
    (hrp : getStringFlag args "--rp" ≠ "") (hhex : getStringFlag args "--cred-id-hex" = "")
    (hcreate : hasFlag args "--create" = true)
    (hdev : getDeviceWithArgs w args r = ⟨.ok (some dev), t, r1⟩) :
    (getStringFlag args "--pin" ≠ "" → ∀ att, 96 ≤ r.length →
      w.makeCredential dev (r.take 32)
        ⟨getStringFlag args "--rp", getStringFlag args "--rp"⟩
        ⟨(r.drop 32).take 32, "fit-user"⟩ Libfido2.ES256 (getStringFlag args "--pin")
        ⟨Libfido2.False, ""⟩ = .ok att →
      (cmdAuth w args r).trace.filter Event.isCredentialCall =
        [.makeCredential dev (r.take 32)
            ⟨getStringFlag args "--rp", getStringFlag args "--rp"⟩
            ⟨(r.drop 32).take 32, "fit-user"⟩ Libfido2.ES256 (getStringFlag args "--pin")
            ⟨Libfido2.False, ""⟩,
          .assertion dev (getStringFlag args "--rp") ((r.drop 64).take 32) [att.credentialID]
            (getStringFlag args "--pin")]) ∧
    (getStringFlag args "--pin" = "" →
      cmdAuth w args r = ⟨.ok (), t ++ [.println "--create requires --pin to be provided."], r⟩ ∧
      (cmdAuth w args r).trace.filter Event.isCredentialCall = []) := by
  have hq := quiet_getDeviceWithArgs w args r
  rw [hdev] at hq
  obtain ⟨hq1, hq2⟩ := hq
  simp only at hq1 hq2
  subst hq1
  have hsel := selection_not_call t hq2
  constructor
  · intro hpin att h96 hmc
    have h32 : 32 ≤ r1.length := by omega
    have h32b : 32 ≤ (List.drop 32 r1).length := by rw [List.length_drop]; omega
    have h32c : 32 ≤ (List.drop 64 r1).length := by rw [List.length_drop]; omega
    have h32d : 32 ≤ r1.length - 32 := by omega
    rcases hi : getIntFlag args "--cred-index" with ⟨i, b⟩
    have hd : cmdAuth.determineCredential w args dev (getStringFlag args "--rp")
        (getStringFlag args "--pin") r1 = ⟨.ok (some att.credentialID),
          [.randBytes 32, .randBytes 32,
            .makeCredential dev (r1.take 32)
              ⟨getStringFlag args "--rp", getStringFlag args "--rp"⟩
              ⟨(r1.drop 32).take 32, "fit-user"⟩ Libfido2.ES256 (getStringFlag args "--pin")
              ⟨Libfido2.False, ""⟩,
            .printf "Created transient credential: ID=%s Type=%s\n"
              [.str (Hex.encodeToString att.credentialID),
                .str (w.credentialTypeString att.credentialType)]], r1.drop 64⟩ := by
      simp [cmdAuth.determineCredential, hi, hhex, hcreate, hpin, randBytes, Prog.readFull, h32,
        h32b, h32d, Prog.bind_eq, Prog.andThen, Prog.emit, Prog.pure_eq, Prog.ret, hmc, printf]
    rw [(cmdAuth_run w args r1 r1 _ dev t _ _ hrp hdev hd).1]
    simp only [List.filter_append, hsel, List.nil_append,
      assert_calls w args dev _ _ _ _ h32c]
    simp [Event.isCredentialCall, List.filter]
  · intro hpin
    rcases hi : getIntFlag args "--cred-index" with ⟨i, b⟩
    have hrun : cmdAuth w args r1 =
        ⟨.ok (), t ++ [.println "--create requires --pin to be provided."], r1⟩ := by
      simp [cmdAuth, hrp, hdev, Prog.bind_eq, Prog.andThen, cmdAuth.determineCredential, hi, hhex,
        hcreate, hpin, println, Prog.emit, Prog.pure_eq, Prog.ret]
    refine ⟨hrun, ?_⟩
    rw [hrun]
    simp [List.filter_append, hsel, Event.isCredentialCall]

/-- The path of `auth --create` on `auth --rp example.com --create --pin 1234` with 96 random
bytes: one make-credential call with the resident-key option `False`, then the get-assertion
call with the identifier it returned. -/
theorem auth_create_transient_witness :
    (cmdAuth (exampleWorld [exampleLoc "/dev/hidraw0"] [] "")
      ["--rp", "example.com", "--create", "--pin", "1234"]
      (List.replicate 96 7)).trace.filter Event.isCredentialCall =
      [.makeCredential ⟨1⟩ (List.replicate 32 7) ⟨"example.com", "example.com"⟩
          ⟨List.replicate 32 7, "fit-user"⟩ Libfido2.ES256 "1234" ⟨Libfido2.False, ""⟩,
        .assertion ⟨1⟩ "example.com" (List.replicate 32 7) [[9, 9]] "1234"] :=
  (auth_create_transient (exampleWorld [exampleLoc "/dev/hidraw0"] [] "")
    ["--rp", "example.com", "--create", "--pin", "1234"] (List.replicate 96 7)
    (List.replicate 96 7) ⟨1⟩ [.deviceLocations, .newDevice "/dev/hidraw0"]
    (by decide) (by decide) (by decide) rfl).1 (by decide) ⟨[9, 9], -7⟩ (by decide) rfl

/-- C16, at the failing input `auth --rp example.com --create --pin 1234 --cred-id-hex 0102`:
the list has `--rp`, `--create` and a non-empty `--pin`, and the usage text of the program
says that with `--create` a transient credential is created first; yet the test of the
`--cred-id-hex` value stands before the test of `--create`, no make-credential call is issued
and the only credential call is the get-assertion call for the identifier given in
hexadecimal. -/
theorem auth_create_with_hex_skips_make_credential :
    hasFlag ["--rp", "example.com", "--create", "--pin", "1234", "--cred-id-hex", "0102"]
      "--create" = true ∧
    getStringFlag ["--rp", "example.com", "--create", "--pin", "1234", "--cred-id-hex", "0102"]
      "--pin" = "1234" ∧
    (cmdAuth (exampleWorld [exampleLoc "/dev/hidraw0"] [] "")
      ["--rp", "example.com", "--create", "--pin", "1234", "--cred-id-hex", "0102"]
      FitHello.exampleRand).trace.filter Event.isCredentialCall =
      [.assertion ⟨1⟩ "example.com" FitHello.exampleRand [[1, 2]] "1234"] :=
  ⟨by decide, by decide, rfl⟩

end Fit

/-! ### The PIN length, the `clientPin` option and the device selectors -/

namespace Fit

theorem clientPinStatus_skip (orbit : Char → Char → Bool) (pre rest : List Libfido2.DevOption)
    (h : ∀ p ∈ pre, Strings.equalFold orbit p.name "clientPin" = false) :
    clientPinStatus orbit (pre ++ rest) = clientPinStatus orbit rest := by
  induction pre with
  | nil => rfl
  | cons p ps ih =>
    have hp := h p (by simp)
    rw [List.cons_append, clientPinStatus, hp]
    simp only [Bool.false_eq_true, if_false]
    exact ih fun q hq => h q (by simp [hq])

/-- C18. For every option list: when no option has a name equal to `clientPin` under
`strings.EqualFold`, `clientPinStatus` returns `(false, false)`; otherwise, with `o` the first
such option in list order, it returns `(true, s)` where `s` is true exactly when the value of
`o` is the option value `True`. -/
theorem clientPinStatus_first_match (orbit : Char → Char → Bool)
    (opts : List Libfido2.DevOption) :
    ((∀ o ∈ opts, Strings.equalFold orbit o.name "clientPin" = false) →
      clientPinStatus orbit opts = (false, false)) ∧
    (∀ pre o post, opts = pre ++ o :: post →
      (∀ p ∈ pre, Strings.equalFold orbit p.name "clientPin" = false) →
      Strings.equalFold orbit o.name "clientPin" = true →
      ∃ s, clientPinStatus orbit opts = (true, s) ∧ (s = true ↔ o.value = Libfido2.True)) := by
  constructor
  · intro h
    have := clientPinStatus_skip orbit opts [] h
    simpa [clientPinStatus] using this
  · intro pre o post hopts hpre ho
    subst hopts
    refine ⟨o.value == Libfido2.True, ?_, by simp⟩
    rw [clientPinStatus_skip orbit pre _ hpre, clientPinStatus, ho]
    simp

/-- C18, on the options `rk`, `ClientPIN = false`, `clientPin = true`: the first match, found
without regard to case, decides. -/
theorem clientPinStatus_first_match_witness :
    ∃ s, clientPinStatus (fun _ _ => false)
        [⟨"rk", "true"⟩, ⟨"ClientPIN", "false"⟩, ⟨"clientPin", "true"⟩] = (true, s) ∧
      (s = true ↔ "false" = Libfido2.True) :=
  (clientPinStatus_first_match (fun _ _ => false)
    [⟨"rk", "true"⟩, ⟨"ClientPIN", "false"⟩, ⟨"clientPin", "true"⟩]).2 [⟨"rk", "true"⟩]
    ⟨"ClientPIN", "false"⟩ [⟨"clientPin", "true"⟩] rfl (by decide) (by decide)

/-- C19, at the failing input `--device 3x`: the argument after `--device` is not an integer
(`strconv.Atoi`, used by the sibling `getIntFlag`, refuses it), yet `parseDeviceSelectors`
returns the index 3 and sets `ok`, because `fmt.Sscanf` with `%d` reads the leading digits and
leaves the rest. -/
theorem parseDeviceSelectors_numeric_prefix :
    parseDeviceSelectors ["--device", "3x"] = (some 3, "", true) ∧
    Strconv.atoi "3x" = none ∧
    getIntFlag ["--device", "3x"] "--device" = (0, false) := by
  decide

theorem parse_path (pre post : List String) (P : String)
    (hpre : "--device" ∉ pre ∧ "--path" ∉ pre) (hpost : "--device" ∉ post ∧ "--path" ∉ post) :
    parseDeviceSelectors (pre ++ "--path" :: P :: post) = (none, P, true) := by
  unfold parseDeviceSelectors
  rw [loop_skip _ _ _ hpre.1 hpre.2, loop_path, loop_free _ _ hpost.1 hpost.2]

/-- C17, at the failing input `set-pin --new éé`: the value has two characters and four
bytes; `len(newPIN) < 4` counts bytes, so the check passes and the command goes on to
enumerate and open the device and to call `SetPIN`, instead of printing
`PIN must be at least 4 characters.` -/
theorem cmdSetPIN_counts_bytes :
    "éé".length = 2 ∧ "éé".utf8ByteSize = 4 ∧
    (cmdSetPIN (exampleWorld [exampleLoc "/dev/hidraw0"] [] "") ["--new", "éé"] []).trace =
      [.deviceLocations, .newDevice "/dev/hidraw0", .info ⟨1⟩,
        .println "Device reports PIN is set (clientPin=true). If changing, provide --old.",
        .println "Setting initial PIN... You may need to touch your device.",
        .setPIN ⟨1⟩ "éé" "", .println "PIN updated successfully."] :=
  ⟨by decide, by decide, rfl⟩

theorem length_le_utf8ByteSize (s : String) : s.length ≤ s.utf8ByteSize := by
  obtain ⟨l⟩ := s
  show l.length ≤ String.utf8ByteSize.go l
  induction l with
  | nil => simp [String.utf8ByteSize.go]
  | cons c cs ih =>
    have hc : 0 < c.utf8Size := c.utf8Size_pos
    simp only [List.length_cons, String.utf8ByteSize.go]
    omega

theorem cmdSetPIN_length_check (w : World) (args : List String) (r : List Go.Byte)
    (hne : getStringFlag args "--new" ≠ "") :
    ((getStringFlag args "--new").utf8ByteSize < 4 →
      cmdSetPIN w args r = ⟨.ok (), [.println "PIN must be at least 4 characters."], r⟩) ∧
    (4 ≤ (getStringFlag args "--new").length →
      ¬ (getStringFlag args "--new").utf8ByteSize < 4) := by
  constructor
  · intro h
    simp [cmdSetPIN, hne, h, println, Prog.emit]
  · intro h
    have := length_le_utf8ByteSize (getStringFlag args "--new")
    omega

end Fit

/-! ### An enumeration whose first identifier is empty -/

namespace FitHello

/-- C12 fails as stated: on `auth --rp example.com` with an enumeration whose first entry has an
empty identifier, the command prints `Using platform credential index 0` and issues its
get-assertion call with an empty allow list, so the identifier of the first entry is not
passed to the call. -/
theorem auth_empty_first_identifier_no_allow_list :
    cmdAuth.determineCredential (exampleWorld [exampleCred [], exampleCred [3, 4]])
      ["--rp", "example.com"] "example.com" exampleRand =
      ⟨.ok (some []), [.platformCredentialList "example.com" false,
        .println "Using platform credential index 0"], exampleRand⟩ ∧
    (cmdAuth (exampleWorld [exampleCred [], exampleCred [3, 4]]) ["--rp", "example.com"]
      exampleRand).trace.filterMap Event.allowList = [[]] :=
  ⟨rfl, by decide⟩

end FitHello
